import Mathlib

/-!
# Live-score synchronisation service (backend/services/liveScoreService.js)

A shallow embedding of `LiveScoreService` and of the `Match` schema
(backend/models/Match.js), followed by theorems about them.

Modelling conventions

* Provider bodies and update objects are values of `JVal`, a JavaScript value
  as the service can observe it.  `num n` is the Number nearest to the integer
  `n`, which is `n` itself when its magnitude is below `2^53`; `inf` is an
  infinity and `nan` is `NaN`.  `parseInt` rounds what it reads to a Number
  (`roundToDouble`) and the text of a Number is the one of `Number::toString`
  (`numberText`).  Fractional Numbers occur only in the run-rate text, which
  is left uninterpreted (`Env.toFixed2`).
* A JavaScript function that can raise returns `Except JsError _`; a
  `try { .. } catch` block is `tryCatch`, or a `match` on that result.
* The HTTP client, the document store, the clock and the socket server are
  the environment: `Env` fixes how they answer during one run, `World` is the
  state they hold (stored records, published notifications, issued requests,
  number of writes issued).
* The store keeps the paths declared by the schema.  A new record
  (`newMatch`) has its string paths cast to strings, holds the nested
  properties that were given a value, and carries the empty lists the schema
  declares (`liveData.events`, `cricketData.currentBatsmen`).  An update
  document replaces the top-level paths it names; the conversion of its
  values to the schema types (a numeric string to a Number) is not modelled,
  and an update the store refuses is `Env.updateRejects`.  A rejected store
  operation changes nothing.
* Console output is not part of the state.
* The last sections of the definitions embed three smaller pieces of the
  backend: the text cleaning of `TTSService` (backend/services/ttsService.js),
  the slug expression of the Article schema (backend/models/Article.js) and
  of `generateFileName`, and the pagination arithmetic of the article list
  (backend/routes/articles.js).  Regular-expression replacements are written
  as left-to-right scans of the text.
-/

namespace LiveScore

/-! ## JavaScript values -/

/-- Errors a JavaScript evaluation can raise; every handler of the service is
a catch-all, so only the fact of raising matters. -/
inductive JsError where
  | typeError
  | rejected
  deriving DecidableEq, Repr

/-! ## Numbers

A JavaScript Number is a double.  The model holds the integral ones: `num n`
is the Number value nearest to the integer `n`, which is `n` itself whenever
`|n| < 2^53`, and `inf` is `Infinity` or `-Infinity`.  The functions below
give the nearest Number of a natural number and the text `Number::toString`
prints for it. -/

/-- Number of binary digits of a number; the first argument bounds the number
of steps. -/
def bitLengthFrom : Nat → Nat → Nat
  | 0, _ => 0
  | fuel + 1, n => if n = 0 then 0 else bitLengthFrom fuel (n / 2) + 1

/-- Number of binary digits of a number. -/
def bitLength (n : Nat) : Nat :=
  bitLengthFrom n n

/-- The Number value nearest to a natural number: the number itself below
`2^53`, else the nearest number with a significand of 53 bits, a tie going to
the even significand; `none` when the result is `Infinity`. -/
def roundToDouble (n : Nat) : Option Nat :=
  if n < 2 ^ 53 then some n
  else
    let shift := bitLength n - 53
    let q := n / 2 ^ shift
    let r := n % 2 ^ shift
    let half := 2 ^ (shift - 1)
    let q1 := if r > half ∨ (r = half ∧ q % 2 = 1) then q + 1 else q
    if bitLength (q1 * 2 ^ shift) ≤ 1024 then some (q1 * 2 ^ shift) else none

/-- Number of decimal digits of a number. -/
def decimalLength (n : Nat) : Nat :=
  (Nat.toDigits 10 n).length

/-- Among the decimal numbers with `k` significant digits (counted from the
first digit of `d`), the one nearest to `d` whose nearest Number is `d`; of
two equally near ones the one with the even last digit. -/
def shortestWith (d : Nat) (k : Nat) : Option Nat :=
  let unit := 10 ^ (decimalLength d - k)
  let lo := d / unit * unit
  let hi := lo + unit
  let okLo := roundToDouble lo == some d
  let okHi := roundToDouble hi == some d
  if okLo && okHi then
    if d - lo < hi - d then some lo
    else if hi - d < d - lo then some hi
    else if (lo / unit) % 2 == 0 then some lo else some hi
  else if okLo then some lo
  else if okHi then some hi
  else none

/-- Search for the decimal number with the fewest significant digits, from
`k` digits on. -/
def shortestFrom (d : Nat) : Nat → Nat → Nat
  | 0, _ => d
  | fuel + 1, k =>
    match shortestWith d k with
    | some c => c
    | none => shortestFrom d fuel (k + 1)

/-- The decimal number with the fewest significant digits that denotes the
Number `d`. -/
def shortestDecimal (d : Nat) : Nat :=
  shortestFrom d (decimalLength d) 1

/-- The digits without the zeros at the end. -/
def dropTrailingZeros (cs : List Char) : List Char :=
  (cs.reverse.dropWhile (fun c => c == '0')).reverse

/-- The text of `Number::toString` for a Number that is a natural number `d`:
all digits below `2^53`; from there on the shortest digits that denote the
Number, followed by zeros up to 21 digits and in exponent form beyond. -/
def magnitudeText (d : Nat) : String :=
  if d < 2 ^ 53 then toString d
  else
    let digits := Nat.toDigits 10 (shortestDecimal d)
    if digits.length ≤ 21 then String.mk digits
    else
      let sig := dropTrailingZeros digits
      String.mk (sig.take 1 ++ (if sig.length > 1 then '.' :: sig.drop 1 else []) ++
        ['e', '+'] ++ Nat.toDigits 10 (digits.length - 1))

/-- The text of `Number::toString` for the Number value nearest to an
integer. -/
def numberText (n : Int) : String :=
  (if n < 0 then "-" else "") ++
    (match roundToDouble n.natAbs with
    | some d => magnitudeText d
    | none => "Infinity")

/-- JavaScript values: what `JSON.parse` produces, plus `undefined`, `NaN`,
`Date` objects and the members every plain object inherits from
`Object.prototype` (`builtin`).  An `obj` lists its own properties; its keys
are distinct (as after `JSON.parse`), so the first entry of a key is the
entry. -/
inductive JVal where
  | undefined
  | null
  | bool (b : Bool)
  | num (n : Int)
  | inf (negative : Bool)
  | nan
  | str (s : String)
  | arr (xs : List JVal)
  | obj (kvs : List (String × JVal))
  | date (t : Int)
  | builtin (name : String)
  deriving Repr, Inhabited

namespace JVal

/-- ToBoolean: `undefined`, `null`, `false`, `0`, `NaN` and the empty string
are falsy, everything else (arrays, objects, functions, dates) is truthy. -/
def truthy : JVal → Bool
  | undefined => false
  | null => false
  | bool b => b
  | num n => n != 0
  | inf _ => true
  | nan => false
  | str s => s != ""
  | arr _ => true
  | obj _ => true
  | date _ => true
  | builtin _ => true

/-- The operator `a || b`. -/
def or (a b : JVal) : JVal :=
  if a.truthy then a else b

/-- Whether the value is `undefined` or `null`. -/
def nullish : JVal → Bool
  | undefined => true
  | null => true
  | _ => false

/-- Whether the value is the string `s` (strict equality with a string
literal). -/
def isStr (v : JVal) (s : String) : Bool :=
  match v with
  | str t => t == s
  | _ => false

/-- Names of the members a plain object inherits from `Object.prototype`. -/
def objectPrototypeKeys : List String :=
  ["constructor", "__defineGetter__", "__defineSetter__", "hasOwnProperty",
   "__lookupGetter__", "__lookupSetter__", "isPrototypeOf",
   "propertyIsEnumerable", "toString", "valueOf", "__proto__", "toLocaleString"]

/-- Property read `o[k]` on a plain object with own properties `kvs`: the own
property if there is one, else the member inherited from `Object.prototype`,
else `undefined`. -/
def lookupProp (kvs : List (String × JVal)) (k : String) : JVal :=
  match kvs.lookup k with
  | some v => v
  | none => if objectPrototypeKeys.contains k then builtin k else undefined

/-- Own-property test. -/
def hasOwn (v : JVal) (k : String) : Bool :=
  match v with
  | obj kvs => (kvs.lookup k).isSome
  | _ => false

/-- The read `v.k` for a key `k` written in the source.  It raises a TypeError
on `undefined` and `null`.  None of the keys the service reads from a provider
body names a member of the String, Array, Number or Boolean prototypes, so the
read is `undefined` on every receiver that is not a plain object. -/
def get (v : JVal) (k : String) : Except JsError JVal :=
  match v with
  | undefined => .error .typeError
  | null => .error .typeError
  | obj kvs => .ok (lookupProp kvs k)
  | _ => .ok undefined

/-- The read `v?.k`. -/
def optGet (v : JVal) (k : String) : Except JsError JVal :=
  if v.nullish then .ok undefined else v.get k

/-- The read `v[i]` for an index literal: an element of an array, a character
of a string (characters outside the basic plane are not split into code
units), the own property named by the index on an object. -/
def index (v : JVal) (i : Nat) : Except JsError JVal :=
  match v with
  | undefined => .error .typeError
  | null => .error .typeError
  | arr xs => .ok (xs.getD i undefined)
  | str s => .ok (match s.data.get? i with
      | some c => str (String.singleton c)
      | none => undefined)
  | obj kvs => .ok (lookupProp kvs (toString i))
  | _ => .ok undefined

/-- The read `v?.[i]`. -/
def optIndex (v : JVal) (i : Nat) : Except JsError JVal :=
  if v.nullish then .ok undefined else v.index i

mutual
/-- ToString.  A parsed JSON object has no callable `toString` of its own: it
converts to `[object Object]` through the inherited method, and raises a
TypeError when an own property shadows that method.  An array joins the
conversions of its elements.  The texts given for dates and inherited members
are placeholders: no such value reaches a conversion in the service. -/
def toStr : JVal → Except JsError String
  | undefined => .ok "undefined"
  | null => .ok "null"
  | bool b => .ok (if b then "true" else "false")
  | num n => .ok (numberText n)
  | inf negative => .ok (if negative then "-Infinity" else "Infinity")
  | nan => .ok "NaN"
  | str s => .ok s
  | arr xs => joinStr xs
  | obj kvs => if (kvs.lookup "toString").isSome then .error .typeError
      else .ok "[object Object]"
  | date _ => .ok "[date]"
  | builtin name => .ok name
termination_by structural v => v
/-- The method `Array.prototype.join` with the default separator: `undefined`
and `null` elements contribute the empty string. -/
def joinStr : List JVal → Except JsError String
  | [] => .ok ""
  | x :: rest =>
    match (if x.nullish then .ok "" else toStr x), joinStr rest with
    | .ok a, .ok b => .ok (if rest.isEmpty then a else a ++ "," ++ b)
    | .error e, _ => .error e
    | _, .error e => .error e
termination_by structural xs => xs
end

/-- Replace or add the own property `k`. -/
def setField (kvs : List (String × JVal)) (k : String) (v : JVal) :
    List (String × JVal) :=
  if (kvs.lookup k).isSome then kvs.map (fun kv => if kv.1 == k then (k, v) else kv)
  else kvs ++ [(k, v)]

end JVal

open JVal

/-! ## Number parsing -/

/-- White space skipped by `parseInt` (StrWhiteSpaceChar). -/
def isJsSpace (c : Char) : Bool :=
  let n := c.toNat
  n == 9 || n == 10 || n == 11 || n == 12 || n == 13 || n == 32 || n == 160 ||
  n == 5760 || (8192 ≤ n && n ≤ 8202) || n == 8232 || n == 8233 || n == 8239 ||
  n == 8287 || n == 12288 || n == 65279

/-- Value of a digit in the given radix, if it is one. -/
def digitValue (radix : Nat) (c : Char) : Option Nat :=
  let n := c.toNat
  let d := if 48 ≤ n && n ≤ 57 then some (n - 48)
    else if 97 ≤ n && n ≤ 122 then some (n - 87)
    else if 65 ≤ n && n ≤ 90 then some (n - 55)
    else none
  match d with
  | some k => if k < radix then some k else none
  | none => none

/-- Digits read from the front of the text and the value accumulated so far. -/
def readDigits (radix : Nat) : List Char → Nat → Nat → Nat × Nat
  | [], acc, cnt => (acc, cnt)
  | c :: cs, acc, cnt =>
    match digitValue radix c with
    | some d => readDigits radix cs (acc * radix + d) (cnt + 1)
    | none => (acc, cnt)

/-- The sign `parseInt` reads in front of the digits, and the text after it. -/
def stripSign : List Char → Bool × List Char
  | '-' :: r => (true, r)
  | '+' :: r => (false, r)
  | cs => (false, cs)

/-- The radix `parseInt` chooses without a radix argument, and the text after
the `0x` marker when there is one. -/
def stripRadix : List Char → Nat × List Char
  | '0' :: 'x' :: r => (16, r)
  | '0' :: 'X' :: r => (16, r)
  | cs => (10, cs)

/-- The Number with the given sign that is nearest to the magnitude:
`Infinity` when the magnitude is beyond the largest Number. -/
def toNumber (negative : Bool) (magnitude : Nat) : JVal :=
  match roundToDouble magnitude with
  | some d => if negative then num (-(d : Int)) else num (d : Int)
  | none => inf negative

/-- The function `parseInt(text)` without a radix argument: leading white
space, a sign, a `0x` marker, then the longest run of digits; `NaN` when there
is no digit, else the Number nearest to the integer the digits denote. -/
def parseIntChars (cs : List Char) : JVal :=
  let signed := stripSign (cs.dropWhile isJsSpace)
  let based := stripRadix signed.2
  let res := readDigits based.1 based.2 0 0
  if res.2 == 0 then nan
  else toNumber signed.1 res.1

/-- The call `parseInt(v)`: the argument is converted to a string first. -/
def parseInt (v : JVal) : Except JsError JVal :=
  match v.toStr with
  | .ok s => .ok (parseIntChars s.data)
  | .error e => .error e

/-! ## Helper methods of the service -/

/-- Lookup `table[key]` in an object literal whose values are strings: the key
is converted to a property name, and names missing from the literal are looked
up on `Object.prototype`. -/
def tableLookup (table : List (String × String)) (key : JVal) : Except JsError JVal :=
  match key.toStr with
  | .ok k => .ok (lookupProp (table.map (fun kv => (kv.1, str kv.2))) k)
  | .error e => .error e

/-- The literal `statusMap` of `mapStatus`. -/
def statusMap : List (String × String) :=
  [("Match Finished", "finished"), ("Not Started", "scheduled"),
   ("In Progress", "live"), ("Half Time", "live"), ("Full Time", "finished")]

/-- The method `mapStatus(status)`: `statusMap[status] || 'scheduled'`. -/
def mapStatus (status : JVal) : Except JsError JVal :=
  match tableLookup statusMap status with
  | .ok v => .ok (v.or (str "scheduled"))
  | .error e => .error e

/-- The literal `statusMap` of `mapCricketStatus`. -/
def cricketStatusMap : List (String × String) :=
  [("completed", "finished"), ("live", "live"), ("upcoming", "scheduled")]

/-- The method `mapCricketStatus(status)`: `statusMap[status] || 'scheduled'`. -/
def mapCricketStatus (status : JVal) : Except JsError JVal :=
  match tableLookup cricketStatusMap status with
  | .ok v => .ok (v.or (str "scheduled"))
  | .error e => .error e

/-- The literal `periodMap` of `mapBasketballPeriod`. -/
def periodMap : List (String × String) :=
  [("1st Quarter", "Q1"), ("2nd Quarter", "Q2"), ("3rd Quarter", "Q3"),
   ("4th Quarter", "Q4"), ("Overtime", "OT")]

/-- The method `mapBasketballPeriod(progress)`. -/
def mapBasketballPeriod (progress : JVal) : Except JsError JVal :=
  if !progress.truthy then .ok (str "")
  else match tableLookup periodMap progress with
    | .ok v => .ok (v.or progress)
    | .error e => .error e

/-- Pieces of a text between occurrences of a separator character
(`String.prototype.split` with a one-character separator). -/
def splitChars (sep : Char) : List Char → List (List Char)
  | [] => [[]]
  | c :: cs =>
    if c == sep then [] :: splitChars sep cs
    else match splitChars sep cs with
      | [] => [[c]]
      | h :: t => (c :: h) :: t

/-- One entry of `parseEvents`: `time` is the first `:`-separated part of the
segment, `description` the second or the empty string. -/
def parseEvent (segment : List Char) : JVal :=
  let parts := splitChars ':' segment
  obj [("time", str (String.mk (parts.headD []))),
       ("description", (match parts.tail.head? with
          | some p => str (String.mk p)
          | none => undefined).or (str "")),
       ("type", str "event")]

/-- The method `parseEvents(eventsString)`.  A truthy value that is not a
string has no `split` method; the TypeError is caught and gives `[]`. -/
def parseEvents (eventsString : JVal) : JVal :=
  if !eventsString.truthy then arr []
  else match eventsString with
    | str s => arr ((splitChars ';' s.data).map parseEvent)
    | _ => arr []

/-- The method `parseStats(matchData)`. -/
def parseStats (matchData : JVal) : Except JsError JVal := do
  let ph ← parseInt (← matchData.get "intHomeShots")
  let pa ← parseInt (← matchData.get "intAwayShots")
  let sh ← parseInt (← matchData.get "intHomeShots")
  let sa ← parseInt (← matchData.get "intAwayShots")
  pure (obj [("possession", obj [("home", ph.or (num 0)), ("away", pa.or (num 0))]),
             ("shots", obj [("home", sh.or (num 0)), ("away", sa.or (num 0))])])

/-- The method `parseTennisScore(scoreString)`: `scoreString || '0'`. -/
def parseTennisScore (scoreString : JVal) : JVal :=
  scoreString.or (str "0")

/-! ## Environment, records and state -/

/-- How the collaborators of the service answer during one run.

* `now`: the reading of the clock (`new Date()`).
* `notifier`: whether the service was constructed with a socket handle
  (`this.io`).
* `eventsLive id`, `matchInfo id`, `eventsNext sport`: the body
  (`response.data`) of the GET request to the `eventslive.php`,
  `match_info` and `eventsnext.php` endpoints; `none` when the request is
  rejected.
* `toFixed2 r o`: the text of `(r / o).toFixed(2)`, a floating-point
  computation left uninterpreted.
* `parseDate text`: the time value of `new Date(text)`, `none` for an invalid
  date.
* `findRejects`, `findOneRejects id`, `updateRejects id`, `saveRejects id`:
  whether the store rejects `Match.find`, `Match.findOne`,
  `Match.findOneAndUpdate` and `save` for that match id.
* `emitRaises room`: whether publishing to the room raises. -/
structure Env where
  now : Int
  notifier : Bool
  eventsLive : String → Option JVal
  matchInfo : String → Option JVal
  eventsNext : String → Option JVal
  toFixed2 : JVal → JVal → String
  parseDate : String → Option Int
  findRejects : Bool
  findOneRejects : String → Bool
  updateRejects : String → Bool
  saveRejects : String → Bool
  emitRaises : String → Bool

/-- A stored Match record: the paths declared by `matchSchema`.  `matchId` and
`sport` are strings; the other paths hold the value that was written,
`undefined` when the path is absent.  Bookkeeping the store adds on its own
(`_id`, `__v`, `createdAt`, `updatedAt`) is not part of the record. -/
structure Match where
  matchId : String
  sport : String
  league : JVal
  homeTeam : JVal
  awayTeam : JVal
  status : JVal
  startTime : JVal
  venue : JVal
  liveData : JVal
  cricketData : JVal
  lastUpdated : JVal
  deriving Repr, Inhabited

/-- A request sent to a provider. -/
inductive Request where
  | eventsLive (id : String)
  | matchInfo (id : String)
  | eventsNext (sport : String)
  deriving DecidableEq, Repr

/-- A notification: `io.to(room).emit(event, payload)`; the payload is the
record returned by the store, `none` for `null`. -/
structure Emitted where
  room : String
  event : String
  payload : Option Match
  deriving Repr

/-- State held by the collaborators: the stored records, the notifications
published so far, the requests sent so far and the number of write operations
(`findOneAndUpdate`, `save`) issued to the store. -/
structure World where
  store : List Match
  emitted : List Emitted
  requests : List Request
  storeWrites : Nat
  deriving Repr, Inhabited

/-- A loop `for (const x of xs) await f(x)`: the iterations run in order and a
raise ends the loop. -/
def forEachM {α : Type} (f : α → World → Except JsError Unit × World) :
    List α → World → Except JsError Unit × World
  | [], w => (.ok (), w)
  | x :: xs, w =>
    match f x w with
    | (.ok _, w1) => forEachM f xs w1
    | (.error e, w1) => (.error e, w1)

/-- The block `try { body } catch (error) { console.error(..) }` around a
method body: a raise of the body is caught and logged, and the state reached
before the raise is kept. -/
def tryCatch (r : Except JsError Unit × World) : Except JsError Unit × World :=
  match r with
  | (.ok v, w) => (.ok v, w)
  | (.error _, w) => (.ok (), w)

/-! ## Store operations -/

/-- The effect of `$set` on one top-level path.  Paths outside the schema are
dropped.  The identity paths `matchId` and `sport` hold strings and take only
a string. -/
def Match.setPath (m : Match) (k : String) (v : JVal) : Match :=
  if k = "matchId" then (match v with
    | str s => { m with matchId := s }
    | _ => m)
  else if k = "sport" then (match v with
    | str s => { m with sport := s }
    | _ => m)
  else if k = "league" then { m with league := v }
  else if k = "homeTeam" then { m with homeTeam := v }
  else if k = "awayTeam" then { m with awayTeam := v }
  else if k = "status" then { m with status := v }
  else if k = "startTime" then { m with startTime := v }
  else if k = "venue" then { m with venue := v }
  else if k = "liveData" then { m with liveData := v }
  else if k = "cricketData" then { m with cricketData := v }
  else if k = "lastUpdated" then { m with lastUpdated := v }
  else m

/-- An update document without operators is applied as `$set` of each of its
top-level keys: the value of the key replaces the stored value of the path. -/
def Match.applySet (m : Match) (fields : List (String × JVal)) : Match :=
  fields.foldl (fun acc kv => acc.setPath kv.1 kv.2) m

/-- The query `Match.find({ status: 'live' })`. -/
def findLive (store : List Match) : List Match :=
  store.filter (fun m => m.status.isStr "live")

/-- The query `Match.findOne({ matchId: id })`. -/
def findOne (store : List Match) (id : String) : Option Match :=
  store.find? (fun m => m.matchId == id)

/-- The operation `Match.findOneAndUpdate({ matchId: id }, fields, { new: true })`:
the first record with that id is updated and returned as updated; without
such a record nothing is written and the result is `null` (no upsert). -/
def findOneAndUpdate (id : String) (fields : List (String × JVal)) :
    List Match → Option Match × List Match
  | [] => (none, [])
  | m :: rest =>
    if m.matchId == id then (some (m.applySet fields), m.applySet fields :: rest)
    else ((findOneAndUpdate id fields rest).1, m :: (findOneAndUpdate id fields rest).2)

/-- The cast of a value to the schema type String, applied by the store to the
identity path `matchId` in queries and to the String paths of a new record:
`none` for a nullish value, a raise for a value that has no string form
(arrays, plain objects without a non-empty string `_id`).  Dates and
inherited members, which no provider body holds, are refused as well. -/
def castString : JVal → Except JsError (Option String)
  | .undefined => .ok none
  | .null => .ok none
  | .str s => .ok (some s)
  | .num n => .ok (some (numberText n))
  | .inf negative => .ok (some (if negative then "-Infinity" else "Infinity"))
  | .nan => .ok (some "NaN")
  | .bool b => .ok (some (if b then "true" else "false"))
  | .obj kvs => (match kvs.lookup "_id" with
    | some (.str s) => if s = "" then .error .rejected else .ok (some s)
    | _ => .error .rejected)
  | .arr _ => .error .rejected
  | .date _ => .error .rejected
  | .builtin _ => .error .rejected

/-! ## Per-sport mappers -/

/-- The method `calculateRunRate(scoreData)`.  The division converts both
operands to numbers, which raises on exactly the values on which the
conversion to a string raises. -/
def calculateRunRate (env : Env) (scoreData : JVal) : Except JsError JVal := do
  if !scoreData.truthy then pure (num 0)
  else do
    let r ← scoreData.get "r"
    if !r.truthy then pure (num 0)
    else do
      let o ← scoreData.get "o"
      if !o.truthy then pure (num 0)
      else do
        let _ ← r.toStr
        let _ ← o.toStr
        pure (str (env.toFixed2 r o))

/-- The spread `...name && { name: name }`: one property when the name is
truthy, none otherwise. -/
def spreadName (name : JVal) : List (String × JVal) :=
  if name.truthy then [("name", name)] else []

/-- The spread `...score && { score: parseInt(score) }`. -/
def spreadScore (score : JVal) : Except JsError (List (String × JVal)) :=
  if score.truthy then (parseInt score).map (fun n => [("score", n)]) else .ok []

/-- Body of `fetchFootballMatchData` after the request: `data` is
`response.data`. -/
def footballUpdate (data : JVal) : Except JsError JVal := do
  let events ← data.get "events"
  let matchData ← events.optIndex 0
  if !matchData.truthy then pure null
  else do
    let strHomeTeam ← matchData.get "strHomeTeam"
    let homeScore ← spreadScore (← matchData.get "intHomeScore")
    let strAwayTeam ← matchData.get "strAwayTeam"
    let awayScore ← spreadScore (← matchData.get "intAwayScore")
    let status ← mapStatus (← matchData.get "strStatus")
    let strProgress ← matchData.get "strProgress"
    let events := parseEvents (← matchData.get "strEvents")
    let stats ← parseStats matchData
    pure (obj [
      ("homeTeam", obj (spreadName strHomeTeam ++ homeScore)),
      ("awayTeam", obj (spreadName strAwayTeam ++ awayScore)),
      ("status", status),
      ("liveData", obj [
        ("currentTime", strProgress.or (str "")),
        ("period", strProgress.or (str "")),
        ("events", events),
        ("stats", stats)])])

/-- Body of `fetchCricketMatchData` after the request. -/
def cricketUpdate (env : Env) (body : JVal) : Except JsError JVal := do
  let matchData ← body.get "data"
  if !matchData.truthy then pure null
  else do
    let teams ← matchData.get "teams"
    let homeName ← teams.index 0
    let score ← matchData.get "score"
    let score0 ← score.optIndex 0
    let homeRuns ← score0.optGet "r"
    let awayName ← teams.index 1
    let score1 ← score.optIndex 1
    let awayRuns ← score1.optGet "r"
    let status ← mapCricketStatus (← matchData.get "status")
    let homeOvers ← score0.optGet "o"
    let awayOvers ← score1.optGet "o"
    let homeWickets ← score0.optGet "w"
    let awayWickets ← score1.optGet "w"
    let homeRate ← calculateRunRate env score0
    let awayRate ← calculateRunRate env score1
    pure (obj [
      ("homeTeam", obj [("name", homeName), ("score", homeRuns.or (num 0))]),
      ("awayTeam", obj [("name", awayName), ("score", awayRuns.or (num 0))]),
      ("status", status),
      ("cricketData", obj [
        ("overs", obj [("homeTeam", homeOvers.or (num 0)), ("awayTeam", awayOvers.or (num 0))]),
        ("wickets", obj [("homeTeam", homeWickets.or (num 0)), ("awayTeam", awayWickets.or (num 0))]),
        ("runRate", obj [("homeTeam", homeRate), ("awayTeam", awayRate)])])])

/-- Body of `fetchBasketballMatchData` after the request. -/
def basketballUpdate (data : JVal) : Except JsError JVal := do
  let events ← data.get "events"
  let matchData ← events.optIndex 0
  if !matchData.truthy then pure null
  else do
    let strHomeTeam ← matchData.get "strHomeTeam"
    let homeScore ← parseInt (← matchData.get "intHomeScore")
    let strAwayTeam ← matchData.get "strAwayTeam"
    let awayScore ← parseInt (← matchData.get "intAwayScore")
    let status ← mapStatus (← matchData.get "strStatus")
    let strProgress ← matchData.get "strProgress"
    let period ← mapBasketballPeriod strProgress
    let events := parseEvents (← matchData.get "strEvents")
    pure (obj [
      ("homeTeam", obj [("name", strHomeTeam), ("score", homeScore.or (num 0))]),
      ("awayTeam", obj [("name", strAwayTeam), ("score", awayScore.or (num 0))]),
      ("status", status),
      ("liveData", obj [
        ("currentTime", strProgress.or (str "")),
        ("period", period),
        ("events", events)])])

/-- Body of `fetchTennisMatchData` after the request. -/
def tennisUpdate (data : JVal) : Except JsError JVal := do
  let events ← data.get "events"
  let matchData ← events.optIndex 0
  if !matchData.truthy then pure null
  else do
    let strHomeTeam ← matchData.get "strHomeTeam"
    let homeScore := parseTennisScore (← matchData.get "strHomeScore")
    let strAwayTeam ← matchData.get "strAwayTeam"
    let awayScore := parseTennisScore (← matchData.get "strAwayScore")
    let status ← mapStatus (← matchData.get "strStatus")
    let strProgress ← matchData.get "strProgress"
    pure (obj [
      ("homeTeam", obj [("name", strHomeTeam), ("score", homeScore)]),
      ("awayTeam", obj [("name", strAwayTeam), ("score", awayScore)]),
      ("status", status),
      ("liveData", obj [
        ("currentTime", strProgress.or (str "")),
        ("period", strProgress.or (str ""))])])

/-- The request of a mapper is recorded, then answered by the environment. -/
def sendRequest (req : Request) (w : World) : World :=
  { w with requests := w.requests ++ [req] }

/-- The method `fetchFootballMatchData(matchId)`: a rejected request and a
raise while reading the body are caught and give `null`. -/
def fetchFootballMatchData (env : Env) (matchId : String) (w : World) : JVal × World :=
  (match env.eventsLive matchId with
    | none => null
    | some data =>
      match footballUpdate data with
      | .ok u => u
      | .error _ => null,
   sendRequest (.eventsLive matchId) w)

/-- The method `fetchCricketMatchData(matchId)`. -/
def fetchCricketMatchData (env : Env) (matchId : String) (w : World) : JVal × World :=
  (match env.matchInfo matchId with
    | none => null
    | some body =>
      match cricketUpdate env body with
      | .ok u => u
      | .error _ => null,
   sendRequest (.matchInfo matchId) w)

/-- The method `fetchBasketballMatchData(matchId)`. -/
def fetchBasketballMatchData (env : Env) (matchId : String) (w : World) : JVal × World :=
  (match env.eventsLive matchId with
    | none => null
    | some data =>
      match basketballUpdate data with
      | .ok u => u
      | .error _ => null,
   sendRequest (.eventsLive matchId) w)

/-- The method `fetchTennisMatchData(matchId)`. -/
def fetchTennisMatchData (env : Env) (matchId : String) (w : World) : JVal × World :=
  (match env.eventsLive matchId with
    | none => null
    | some data =>
      match tennisUpdate data with
      | .ok u => u
      | .error _ => null,
   sendRequest (.eventsLive matchId) w)

/-! ## Live synchronisation -/

/-- Own enumerable properties copied by the spread `{ ...v }`: the properties
of an object, the indexed elements of an array or string, nothing for any
other value. -/
def spread : JVal → List (String × JVal)
  | .obj kvs => kvs
  | .arr xs => xs.enum.map (fun p => (toString p.1, p.2))
  | .str s => s.data.enum.map (fun p => (toString p.1, str (String.singleton p.2)))
  | _ => []

/-- The update document `{ ...updatedData, lastUpdated: new Date() }`. -/
def updateDocument (env : Env) (updatedData : JVal) : List (String × JVal) :=
  setField (spread updatedData) "lastUpdated" (date env.now)

/-- The room a match is published to: `match_${matchId}`. -/
def roomOf (matchId : String) : String :=
  "match_" ++ matchId

/-- The `switch (match.sport)` of `updateSingleMatch`: the mapper of the sport
is called with `match.matchId`; `none` is the default branch (sport not
supported). -/
def fetchMatchData (env : Env) (m : Match) (w : World) : Option (JVal × World) :=
  if m.sport = "football" then some (fetchFootballMatchData env m.matchId w)
  else if m.sport = "cricket" then some (fetchCricketMatchData env m.matchId w)
  else if m.sport = "basketball" then some (fetchBasketballMatchData env m.matchId w)
  else if m.sport = "tennis" then some (fetchTennisMatchData env m.matchId w)
  else none

/-- Body of the `try` block of `updateSingleMatch(match)`.  In the default
branch of the switch the method returns.  A truthy result of the mapper is
written with `findOneAndUpdate`, the record returned by the store is published
when the service has a socket handle, and the final log line reads
`match.homeTeam.name` and `match.awayTeam.name`. -/
def updateSingleMatchBody (env : Env) (m : Match) (w : World) :
    Except JsError Unit × World :=
  match fetchMatchData env m w with
  | none => (.ok (), w)
  | some (updatedData, w1) =>
    if updatedData.truthy then
      let w2 := { w1 with storeWrites := w1.storeWrites + 1 }
      if env.updateRejects m.matchId then (.error .rejected, w2)
      else
        let res := findOneAndUpdate m.matchId (updateDocument env updatedData) w2.store
        let w3 := { w2 with store := res.2 }
        let logged : Except JsError Unit :=
          match m.homeTeam.get "name", m.awayTeam.get "name" with
          | .ok _, .ok _ => .ok ()
          | .error e, _ => .error e
          | _, .error e => .error e
        if env.notifier then
          if env.emitRaises (roomOf m.matchId) then (.error .rejected, w3)
          else (logged, { w3 with
            emitted := w3.emitted ++ [⟨roomOf m.matchId, "matchUpdate", res.1⟩] })
        else (logged, w3)
    else (.ok (), w1)

/-- The method `updateSingleMatch(match)`: the body inside `try`, any raise
caught and logged. -/
def updateSingleMatch (env : Env) (m : Match) (w : World) :
    Except JsError Unit × World :=
  tryCatch (updateSingleMatchBody env m w)

/-- Body of the `try` block of `updateLiveScores()`. -/
def updateLiveScoresBody (env : Env) (w : World) : Except JsError Unit × World :=
  if env.findRejects then (.error .rejected, w)
  else forEachM (updateSingleMatch env) (findLive w.store) w

/-- The method `updateLiveScores()`: the fast cycle. -/
def updateLiveScores (env : Env) (w : World) : Except JsError Unit × World :=
  tryCatch (updateLiveScoresBody env w)

/-! ## Discovery of upcoming matches -/

/-- The values of the `sport` enum of the schema. -/
def sportEnum : List String :=
  ["cricket", "football", "basketball", "tennis", "baseball", "hockey"]

/-- The cast of a value given for a String path of a new record: a nullish
value is kept, every other value becomes its string form, and a value without
one is a cast error, which fails the validation of `save`. -/
def castStringPath (v : JVal) : Except JsError JVal :=
  match castString v with
  | .ok (some s) => .ok (str s)
  | .ok none => .ok v
  | .error e => .error e

/-- The properties of a nested path that were given a value: a property whose
value is `undefined` is not set. -/
def definedFields (fields : List (String × JVal)) : List (String × JVal) :=
  fields.filter (fun kv =>
    match kv.2 with
    | .undefined => false
    | _ => true)

/-- The value stored for a nested path: the object of the properties that
were given a value, nothing when there is none. -/
def nestedPath (fields : List (String × JVal)) : JVal :=
  if (definedFields fields).isEmpty then undefined else obj (definedFields fields)

/-- The value a String path of a new record holds for a given value, when the
cast of the value succeeds. -/
def castValue (v : JVal) : JVal :=
  match castStringPath v with
  | .ok x => x
  | .error _ => undefined

/-- The record `new Match({ .. })` built by `saveUpcomingMatch` for an event
whose id casts to the string `id`, as validated by `save`.  The values given
for the String paths `league`, `id`, `name`, `logo` of the teams and `name`,
`city` of the venue are cast to strings.  The schema defaults are applied:
`score: 0` for both teams, `lastUpdated: Date.now`, and the empty array of
the array paths `liveData.events` and `cricketData.currentBatsmen`.  The
required paths `matchId`, `sport`, `league` and `startTime` must be present
and non-empty, `sport` must belong to the enum and the start time must be a
valid date. -/
def newMatch (env : Env) (eventData : JVal) (sport : String) (id : String) :
    Except JsError Match := do
  let strLeague ← eventData.get "strLeague"
  let idHomeTeam ← eventData.get "idHomeTeam"
  let strHomeTeam ← eventData.get "strHomeTeam"
  let strHomeTeamBadge ← eventData.get "strHomeTeamBadge"
  let idAwayTeam ← eventData.get "idAwayTeam"
  let strAwayTeam ← eventData.get "strAwayTeam"
  let strAwayTeamBadge ← eventData.get "strAwayTeamBadge"
  let dateEvent ← (← eventData.get "dateEvent").toStr
  let strTime ← (← eventData.get "strTime").toStr
  let strVenue ← eventData.get "strVenue"
  let strCity ← eventData.get "strCity"
  let league ← castStringPath strLeague
  let homeId ← castStringPath idHomeTeam
  let homeName ← castStringPath strHomeTeam
  let homeLogo ← castStringPath strHomeTeamBadge
  let awayId ← castStringPath idAwayTeam
  let awayName ← castStringPath strAwayTeam
  let awayLogo ← castStringPath strAwayTeamBadge
  let venueName ← castStringPath strVenue
  let venueCity ← castStringPath strCity
  if id = "" then .error .rejected
  else if !(sportEnum.contains sport) then .error .rejected
  else if league.nullish || league.isStr "" then .error .rejected
  else match env.parseDate (dateEvent ++ " " ++ strTime) with
    | none => .error .rejected
    | some t => pure {
        matchId := id
        sport := sport
        league := league
        homeTeam := nestedPath [("id", homeId), ("name", homeName),
          ("logo", homeLogo), ("score", num 0)]
        awayTeam := nestedPath [("id", awayId), ("name", awayName),
          ("logo", awayLogo), ("score", num 0)]
        status := str "scheduled"
        startTime := date t
        venue := nestedPath [("name", venueName), ("city", venueCity)]
        liveData := obj [("events", arr [])]
        cricketData := obj [("currentBatsmen", arr [])]
        lastUpdated := date env.now }

/-- Body of the `try` block of `saveUpcomingMatch(eventData, sport)`.  The id
of the event is cast to a string by the store; a nullish id matches no stored
record and fails the `required` validation of `save`.  The uniqueness index
on `matchId` is not relied on: `save` appends the record. -/
def saveUpcomingMatchBody (env : Env) (eventData : JVal) (sport : String) (w : World) :
    Except JsError Unit × World :=
  match eventData.get "idEvent" with
  | .error e => (.error e, w)
  | .ok idEvent =>
    match castString idEvent with
    | .error e => (.error e, w)
    | .ok none => (.error .rejected, w)
    | .ok (some id) =>
      if env.findOneRejects id then (.error .rejected, w)
      else if (findOne w.store id).isSome then (.ok (), w)
      else
        match newMatch env eventData sport id with
        | .error e => (.error e, w)
        | .ok doc =>
          if env.saveRejects id then
            (.error .rejected, { w with storeWrites := w.storeWrites + 1 })
          else
            (.ok (), { w with storeWrites := w.storeWrites + 1, store := w.store ++ [doc] })

/-- The method `saveUpcomingMatch(eventData, sport)`. -/
def saveUpcomingMatch (env : Env) (eventData : JVal) (sport : String) (w : World) :
    Except JsError Unit × World :=
  tryCatch (saveUpcomingMatchBody env eventData sport w)

/-- The values a `for .. of` loop visits: the elements of an array, the
characters of a string; other values are not iterable. -/
def iterate : JVal → Except JsError (List JVal)
  | .arr xs => .ok xs
  | .str s => .ok (s.data.map (fun c => str (String.singleton c)))
  | _ => .error .typeError

/-- Body of the `try` block of `fetchUpcomingMatches(sport)`. -/
def fetchUpcomingMatchesBody (env : Env) (sport : String) (w : World) :
    Except JsError Unit × World :=
  match env.eventsNext sport with
  | none => (.error .rejected, sendRequest (.eventsNext sport) w)
  | some data =>
    match data.get "events" with
    | .error e => (.error e, sendRequest (.eventsNext sport) w)
    | .ok events =>
      match iterate (events.or (arr [])) with
      | .error e => (.error e, sendRequest (.eventsNext sport) w)
      | .ok list =>
        forEachM (fun event => saveUpcomingMatch env event sport) list
          (sendRequest (.eventsNext sport) w)

/-- The method `fetchUpcomingMatches(sport)`. -/
def fetchUpcomingMatches (env : Env) (sport : String) (w : World) :
    Except JsError Unit × World :=
  tryCatch (fetchUpcomingMatchesBody env sport w)

/-- The sports visited by `updateUpcomingMatches`. -/
def discoverySports : List String :=
  ["football", "cricket", "basketball", "tennis"]

/-- The method `updateUpcomingMatches()`: the slow cycle. -/
def updateUpcomingMatches (env : Env) (w : World) : Except JsError Unit × World :=
  tryCatch (forEachM (fetchUpcomingMatches env) discoverySports w)

/-- One timer tick of the scheduler: a fast cycle or a slow cycle, each under
the environment of its time. -/
inductive Cycle where
  | fast (env : Env)
  | slow (env : Env)

/-- The state after one cycle. -/
def runCycle (w : World) : Cycle → World
  | .fast env => (updateLiveScores env w).2
  | .slow env => (updateUpcomingMatches env w).2

/-- The state after a sequence of cycles. -/
def runCycles (cycles : List Cycle) (w : World) : World :=
  cycles.foldl runCycle w

/-! ## Notions used to state the properties -/

/-- The match ids of the stored records, in store order. -/
def matchIds (store : List Match) : List String :=
  store.map (fun m => m.matchId)

/-- The body of an `eventslive.php` answer holds no event: its `events`
property is missing, `null` or an empty list. -/
def eventsMissingOrEmpty (data : JVal) : Bool :=
  match data with
  | .obj kvs => (match lookupProp kvs "events" with
    | .undefined => true
    | .null => true
    | .arr [] => true
    | _ => false)
  | _ => false

/-- The body of a `match_info` answer holds no `data`. -/
def dataMissing (body : JVal) : Bool :=
  match body with
  | .obj kvs => (lookupProp kvs "data").nullish
  | _ => false

/-- The provider answers the request for the match, and the answer holds no
event for it. -/
def NoEvent (env : Env) (m : Match) : Prop :=
  ((m.sport = "football" ∨ m.sport = "basketball" ∨ m.sport = "tennis") ∧
    ∃ data, env.eventsLive m.matchId = some data ∧ eventsMissingOrEmpty data = true) ∨
  (m.sport = "cricket" ∧
    ∃ body, env.matchInfo m.matchId = some body ∧ dataMissing body = true)

/-- A value returned by one of the four mappers: `null`, or an object literal
with the keys `homeTeam`, `awayTeam`, `status` and one payload key. -/
def IsUpdate (u : JVal) : Prop :=
  u = null ∨ ∃ a b c k d, (k = "liveData" ∨ k = "cricketData") ∧
    u = obj [("homeTeam", a), ("awayTeam", b), ("status", c), (k, d)]

/-- The value returned by the mapper that `updateSingleMatch` selects for the
match; `none` when the sport has no mapper. -/
def mapperResult (env : Env) (m : Match) : Option JVal :=
  (fetchMatchData env m ⟨[], [], [], 0⟩).map Prod.fst

/-- The request `updateSingleMatch` sends for a match of a supported sport. -/
def requestOf (m : Match) : Request :=
  if m.sport = "cricket" then .matchInfo m.matchId else .eventsLive m.matchId

/-- The update document `updateSingleMatch` hands to the store for the match,
`none` when it writes nothing: the sport has no mapper, the mapper returned
`null`, or the store rejects the write. -/
def syncDocument (env : Env) (m : Match) : Option (List (String × JVal)) :=
  match mapperResult env m with
  | some u =>
    if u.truthy && !env.updateRejects m.matchId then some (updateDocument env u) else none
  | none => none

/-- The record a fast cycle leaves in the place of the stored record `d`. -/
def syncRecord (env : Env) (d : Match) : Match :=
  match syncDocument env d with
  | some fields => d.applySet fields
  | none => d

/-- Effect of one `updateSingleMatch` on the store. -/
def storeStep (env : Env) (m : Match) (s : List Match) : List Match :=
  match syncDocument env m with
  | some fields => (findOneAndUpdate m.matchId fields s).2
  | none => s

/-- Effect of one `updateSingleMatch` on a record of a store with distinct
ids. -/
def recordStep (env : Env) (m d : Match) : Match :=
  if d.matchId = m.matchId then
    match syncDocument env m with
    | some fields => d.applySet fields
    | none => d
  else d

/-- The record `saveUpcomingMatch` appends to a store for an event, `none`
when it appends nothing: the event has no usable id, the store rejects the
query, a record with that id exists, the new record is invalid, or the store
rejects the insert. -/
def discovered (env : Env) (eventData : JVal) (sport : String) (s : List Match) :
    Option Match :=
  match eventData.get "idEvent" with
  | .error _ => none
  | .ok idEvent =>
    match castString idEvent with
    | .error _ => none
    | .ok none => none
    | .ok (some id) =>
      if env.findOneRejects id then none
      else if (findOne s id).isSome then none
      else
        match newMatch env eventData sport id with
        | .error _ => none
        | .ok doc => if env.saveRejects id then none else some doc

/-- The store after `saveUpcomingMatch`. -/
def saveStore (env : Env) (sport : String) (eventData : JVal) (s : List Match) : List Match :=
  s ++ (discovered env eventData sport s).toList

/-- The events `fetchUpcomingMatches` loops over, `none` when the request is
rejected or the body cannot be iterated. -/
def eventsList (env : Env) (sport : String) : Option (List JVal) :=
  match env.eventsNext sport with
  | none => none
  | some data =>
    match data.get "events" with
    | .error _ => none
    | .ok events =>
      match iterate (events.or (arr [])) with
      | .error _ => none
      | .ok list => some list

/-- The store after `fetchUpcomingMatches`. -/
def fetchStore (env : Env) (sport : String) (s : List Match) : List Match :=
  match eventsList env sport with
  | some events => events.foldl (fun acc e => saveStore env sport e acc) s
  | none => s

/-- The store after `updateUpcomingMatches`. -/
def cycleStore (env : Env) (s : List Match) : List Match :=
  discoverySports.foldl (fun acc sport => fetchStore env sport acc) s

/-- Every event the provider lists for the sport is already settled in the
store: `saveUpcomingMatch` would append nothing for it. -/
def SportSettled (env : Env) (sport : String) (s : List Match) : Prop :=
  ∀ events, eventsList env sport = some events →
    ∀ e ∈ events, discovered env e sport s = none

/-- Every match id of the first store is a match id of the second. -/
def Covers (s s1 : List Match) : Prop :=
  ∀ id, id ∈ matchIds s → id ∈ matchIds s1

/-- Two records agree on every path except `lastUpdated`. -/
def Match.sameExceptLastUpdated (a b : Match) : Prop :=
  a.matchId = b.matchId ∧ a.sport = b.sport ∧ a.league = b.league ∧
  a.homeTeam = b.homeTeam ∧ a.awayTeam = b.awayTeam ∧ a.status = b.status ∧
  a.startTime = b.startTime ∧ a.venue = b.venue ∧ a.liveData = b.liveData ∧
  a.cricketData = b.cricketData

/-! ## Concrete inputs (the scenario of the specification) -/

/-- The stored record of the scenario: match `evt123`, live, 1-1. -/
def sampleMatch : Match :=
  { matchId := "evt123"
    sport := "football"
    league := str "Premier League"
    homeTeam := obj [("id", str "133604"), ("name", str "Arsenal"), ("score", num 1)]
    awayTeam := obj [("id", str "133610"), ("name", str "Chelsea"), ("score", num 1)]
    status := str "live"
    startTime := date 1000
    venue := obj [("name", str "Emirates Stadium"), ("city", str "London")]
    liveData := undefined
    cricketData := undefined
    lastUpdated := date 1000 }

/-- A second stored record, not live. -/
def scheduledMatch : Match :=
  { sampleMatch with matchId := "evt200", status := str "scheduled" }

/-- The provider event of the scenario. -/
def sampleEvent : JVal :=
  obj [("idEvent", str "evt123"), ("strLeague", str "Premier League"),
       ("strHomeTeam", str "Arsenal"), ("intHomeScore", str "2"),
       ("strAwayTeam", str "Chelsea"), ("intAwayScore", str "1"),
       ("strStatus", str "Match Finished"),
       ("dateEvent", str "2024-05-01"), ("strTime", str "19:00:00")]

/-- An environment in which every request is answered with the event of the
scenario and nothing is rejected. -/
def sampleEnv : Env :=
  { now := 2000
    notifier := true
    eventsLive := fun _ => some (obj [("events", arr [sampleEvent])])
    matchInfo := fun _ => some (obj [("data", null)])
    eventsNext := fun _ => some (obj [("events", arr [sampleEvent, sampleEvent])])
    toFixed2 := fun _ _ => "0.00"
    parseDate := fun _ => some 1000
    findRejects := false
    findOneRejects := fun _ => false
    updateRejects := fun _ => false
    saveRejects := fun _ => false
    emitRaises := fun _ => false }

/-- The same environment with a provider that knows no event. -/
def quietEnv : Env :=
  { sampleEnv with eventsLive := fun _ => some (obj [("events", null)]) }

/-- The state of the scenario: the two stored records, nothing published. -/
def sampleWorld : World :=
  { store := [sampleMatch, scheduledMatch], emitted := [], requests := [], storeWrites := 0 }

/-- A live record whose provider request is rejected in `isolationEnv`. -/
def failingMatch : Match :=
  { sampleMatch with matchId := "evt999" }

/-- A live record whose write is rejected by the store in `isolationEnv`. -/
def rejectedMatch : Match :=
  { sampleMatch with matchId := "evt777" }

/-- The scenario environment, except that the request for `evt999` is
rejected by the provider and the write for `evt777` is rejected by the
store. -/
def isolationEnv : Env :=
  { sampleEnv with
    eventsLive := fun id =>
      if id = "evt999" then none else some (obj [("events", arr [sampleEvent])])
    updateRejects := fun id => id == "evt777" }

/-- A state with two failing live matches ahead of the live match of the
scenario and a scheduled match. -/
def isolationWorld : World :=
  { store := [failingMatch, rejectedMatch, sampleMatch, scheduledMatch],
    emitted := [], requests := [], storeWrites := 0 }

/-! ## Notions for the post-sync state -/

/-- A decimal digit. -/
def isDecimalDigit (c : Char) : Bool :=
  48 ≤ c.toNat && c.toNat ≤ 57

/-- The number a text of decimal digits denotes. -/
def decimalValue (cs : List Char) : Nat :=
  cs.foldl (fun acc c => acc * 10 + (c.toNat - 48)) 0

/-- A non-empty text of decimal digits. -/
def IsDigitString (s : String) : Prop :=
  s.data ≠ [] ∧ ∀ c ∈ s.data, isDecimalDigit c = true

/-- A non-empty text of decimal digits that denotes a number below `2^53`:
the range in which `parseInt` returns the number the digits denote. -/
def IsSafeDigits (s : String) : Prop :=
  IsDigitString s ∧ decimalValue s.data < 2 ^ 53

/-- The first event of an `eventslive.php` body: `response.data.events?.[0]`. -/
def firstEvent (data : JVal) : Except JsError JVal :=
  match data.get "events" with
  | .ok events => events.optIndex 0
  | .error e => .error e

/-- The value read by `v.k` on a value that is not nullish (so the read does
not raise); `undefined` otherwise. -/
def JVal.prop (v : JVal) (k : String) : JVal :=
  match v.get k with
  | .ok x => x
  | .error _ => undefined

/-- The object literal `fetchFootballMatchData` returns for the event
`matchData`. -/
def footballRecord (matchData : JVal) : Except JsError JVal := do
  let homeScore ← spreadScore (matchData.prop "intHomeScore")
  let awayScore ← spreadScore (matchData.prop "intAwayScore")
  let status ← mapStatus (matchData.prop "strStatus")
  let stats ← parseStats matchData
  pure (obj [
    ("homeTeam", obj (spreadName (matchData.prop "strHomeTeam") ++ homeScore)),
    ("awayTeam", obj (spreadName (matchData.prop "strAwayTeam") ++ awayScore)),
    ("status", status),
    ("liveData", obj [
      ("currentTime", (matchData.prop "strProgress").or (str "")),
      ("period", (matchData.prop "strProgress").or (str "")),
      ("events", parseEvents (matchData.prop "strEvents")),
      ("stats", stats)])])

/-- The object literal `fetchBasketballMatchData` returns for the event
`matchData`. -/
def basketballRecord (matchData : JVal) : Except JsError JVal := do
  let homeScore ← parseInt (matchData.prop "intHomeScore")
  let awayScore ← parseInt (matchData.prop "intAwayScore")
  let status ← mapStatus (matchData.prop "strStatus")
  let period ← mapBasketballPeriod (matchData.prop "strProgress")
  pure (obj [
    ("homeTeam", obj [("name", matchData.prop "strHomeTeam"), ("score", homeScore.or (num 0))]),
    ("awayTeam", obj [("name", matchData.prop "strAwayTeam"), ("score", awayScore.or (num 0))]),
    ("status", status),
    ("liveData", obj [
      ("currentTime", (matchData.prop "strProgress").or (str "")),
      ("period", period),
      ("events", parseEvents (matchData.prop "strEvents"))])])

/-- The object literal `fetchTennisMatchData` returns for the event
`matchData`. -/
def tennisRecord (matchData : JVal) : Except JsError JVal := do
  let status ← mapStatus (matchData.prop "strStatus")
  pure (obj [
    ("homeTeam", obj [("name", matchData.prop "strHomeTeam"),
      ("score", parseTennisScore (matchData.prop "strHomeScore"))]),
    ("awayTeam", obj [("name", matchData.prop "strAwayTeam"),
      ("score", parseTennisScore (matchData.prop "strAwayScore"))]),
    ("status", status),
    ("liveData", obj [
      ("currentTime", (matchData.prop "strProgress").or (str "")),
      ("period", (matchData.prop "strProgress").or (str ""))])])

/-- The value of `v?.[i]`, a read that does not raise. -/
def JVal.elem (v : JVal) (i : Nat) : JVal :=
  match v.optIndex i with
  | .ok x => x
  | .error _ => undefined

/-- The value of `v?.k`, a read that does not raise. -/
def JVal.optProp (v : JVal) (k : String) : JVal :=
  match v.optGet k with
  | .ok x => x
  | .error _ => undefined

/-- The entry `matchData.score?.[i]` of a cricket payload. -/
def cricketScore (matchData : JVal) (i : Nat) : JVal :=
  (matchData.prop "score").elem i

/-- The object literal `fetchCricketMatchData` returns for the payload
`matchData`. -/
def cricketRecord (env : Env) (matchData : JVal) : Except JsError JVal := do
  let homeName ← (matchData.prop "teams").index 0
  let awayName ← (matchData.prop "teams").index 1
  let status ← mapCricketStatus (matchData.prop "status")
  let homeRate ← calculateRunRate env (cricketScore matchData 0)
  let awayRate ← calculateRunRate env (cricketScore matchData 1)
  pure (obj [
    ("homeTeam", obj [("name", homeName),
      ("score", ((cricketScore matchData 0).optProp "r").or (num 0))]),
    ("awayTeam", obj [("name", awayName),
      ("score", ((cricketScore matchData 1).optProp "r").or (num 0))]),
    ("status", status),
    ("cricketData", obj [
      ("overs", obj [
        ("homeTeam", ((cricketScore matchData 0).optProp "o").or (num 0)),
        ("awayTeam", ((cricketScore matchData 1).optProp "o").or (num 0))]),
      ("wickets", obj [
        ("homeTeam", ((cricketScore matchData 0).optProp "w").or (num 0)),
        ("awayTeam", ((cricketScore matchData 1).optProp "w").or (num 0))]),
      ("runRate", obj [("homeTeam", homeRate), ("awayTeam", awayRate)])])])

/-- The event the `eventslive.php` answer holds for the match id: the first
element of `events` when the request is answered and that element is truthy. -/
def liveEvent (env : Env) (id : String) : Option JVal :=
  match env.eventsLive id with
  | none => none
  | some data =>
    match firstEvent data with
    | .ok ev => if ev.truthy then some ev else none
    | .error _ => none

/-- The payload the `match_info` answer holds for the match id: its `data`
property when the request is answered and the property is truthy. -/
def cricketPayload (env : Env) (id : String) : Option JVal :=
  match env.matchInfo id with
  | none => none
  | some body =>
    match body.get "data" with
    | .ok md => if md.truthy then some md else none
    | .error _ => none

/-- The object literal the mapper of the match's sport builds from the
provider's snapshot: `none` when the sport has no mapper or the provider has
no snapshot for the match; a raise of the literal is kept. -/
def snapshotRecord (env : Env) (m : Match) : Option (Except JsError JVal) :=
  if m.sport = "football" then (liveEvent env m.matchId).map footballRecord
  else if m.sport = "cricket" then (cricketPayload env m.matchId).map (cricketRecord env)
  else if m.sport = "basketball" then (liveEvent env m.matchId).map basketballRecord
  else if m.sport = "tennis" then (liveEvent env m.matchId).map tennisRecord
  else none

/-- The sport has a mapper. -/
def supportedSport (sport : String) : Prop :=
  sport = "football" ∨ sport = "cricket" ∨ sport = "basketball" ∨ sport = "tennis"

/-- The own property `score` of the team object `team` of an update, `none`
when the update carries no such property. -/
def scoreOf (u : JVal) (team : String) : Option JVal :=
  match u with
  | .obj kvs =>
    (match kvs.lookup team with
    | some (.obj t) => t.lookup "score"
    | _ => none)
  | _ => none

/-- Two records agree on the paths a sync must not touch: `matchId`, `sport`,
`league`, `startTime` and `venue`. -/
def Match.sameFrame (a b : Match) : Prop :=
  a.matchId = b.matchId ∧ a.sport = b.sport ∧ a.league = b.league ∧
  a.startTime = b.startTime ∧ a.venue = b.venue

/-- A stored record of a sport without a mapper. -/
def hockeyMatch : Match :=
  { sampleMatch with matchId := "evt300", sport := "hockey" }

/-- A cricket payload without `teams` and without `score`. -/
def bareCricketEnv : Env :=
  { sampleEnv with matchInfo := fun _ => some (obj [("data", obj [("status", str "live")])]) }

/-- The event of the scenario with a shot count that cannot be converted to a
string: an object whose own `toString` property is not a function. -/
def malformedShotsEvent : JVal :=
  obj [("strHomeTeam", str "Arsenal"), ("intHomeScore", str "2"),
       ("strAwayTeam", str "Chelsea"), ("intAwayScore", str "1"),
       ("strStatus", str "Match Finished"),
       ("intHomeShots", obj [("toString", num 1)])]

/-- The scenario environment answering with `malformedShotsEvent`. -/
def malformedShotsEnv : Env :=
  { sampleEnv with eventsLive := fun _ => some (obj [("events", arr [malformedShotsEvent])]) }

/-- The scenario environment for a service constructed without a socket
handle (`new LiveScoreService()`, as the `POST /refresh` route does). -/
def silentEnv : Env :=
  { sampleEnv with notifier := false }

/-- An event without any score property. -/
def scorelessEvent : JVal :=
  obj [("strHomeTeam", str "Arsenal"), ("strAwayTeam", str "Chelsea"),
       ("strStatus", str "In Progress")]

/-- The scenario environment answering with `scorelessEvent`. -/
def scorelessEnv : Env :=
  { sampleEnv with eventsLive := fun _ => some (obj [("events", arr [scorelessEvent])]) }

/-- An event whose scores are a negative number, a text without digits and a
tennis score text. -/
def oddScoresEvent : JVal :=
  obj [("strHomeTeam", str "Arsenal"), ("intHomeScore", str "-3"),
       ("strAwayTeam", str "Chelsea"), ("intAwayScore", str "abc"),
       ("strHomeScore", str "40"), ("strStatus", str "In Progress")]

/-- The scenario environment answering with `oddScoresEvent`. -/
def oddScoresEnv : Env :=
  { sampleEnv with eventsLive := fun _ => some (obj [("events", arr [oddScoresEvent])]) }

/-- The stored record of the scenario as a basketball match. -/
def basketballMatch : Match :=
  { sampleMatch with sport := "basketball" }

/-- The stored record of the scenario as a tennis match. -/
def tennisMatch : Match :=
  { sampleMatch with sport := "tennis" }

/-- An event of a match the provider reports as not started. -/
def notStartedEvent : JVal :=
  obj [("strHomeTeam", str "Arsenal"), ("intHomeScore", str "0"),
       ("strAwayTeam", str "Chelsea"), ("intAwayScore", str "0"),
       ("strStatus", str "Not Started")]

/-- The scenario environment answering with `notStartedEvent`. -/
def notStartedEnv : Env :=
  { sampleEnv with eventsLive := fun _ => some (obj [("events", arr [notStartedEvent])]) }

/-- An upcoming event the scenario's store does not hold. -/
def upcomingEvent : JVal :=
  obj [("idEvent", str "evt500"), ("strLeague", str "Premier League"),
       ("idHomeTeam", str "133604"), ("strHomeTeam", str "Arsenal"),
       ("idAwayTeam", str "133610"), ("strAwayTeam", str "Chelsea"),
       ("dateEvent", str "2024-05-08"), ("strTime", str "19:00:00"),
       ("strVenue", str "Emirates Stadium"), ("strCity", str "London")]

/-- An environment whose discovery call for football is rejected while the
calls for the other sports are answered with the event `evt500`. -/
def footballDownEnv : Env :=
  { sampleEnv with
    eventsNext := fun sport =>
      if sport = "football" then none else some (obj [("events", arr [upcomingEvent])]) }

/-- The scenario environment with a socket handle whose publish raises. -/
def publishFailsEnv : Env :=
  { sampleEnv with emitRaises := fun _ => true }

/-- The names of the own properties of an object, in order; none for a value
that is not an object. -/
def keysOf : JVal → List String
  | .obj kvs => kvs.map Prod.fst
  | _ => []

/-- The text of a segment before its first `:` (the whole segment when it has
none). -/
def beforeColon (segment : List Char) : List Char :=
  segment.takeWhile (fun c => c != ':')

/-- The text of a segment between its first and its second `:`: what follows
the first `:` up to the next `:` or the end; empty when the segment has no
`:`. -/
def betweenColons (segment : List Char) : List Char :=
  ((segment.dropWhile (fun c => c != ':')).drop 1).takeWhile (fun c => c != ':')

/-- The event the specification gives for a segment: `time` is the text before
the first `:`, `description` the text between the first and the second `:`,
`type` is `'event'`. -/
def eventOfSegment (segment : List Char) : JVal :=
  obj [("time", str (String.mk (beforeColon segment))),
       ("description", str (String.mk (betweenColons segment))),
       ("type", str "event")]

/-- The segments written one after the other with the separator between
them. -/
def joinWith (sep : Char) : List (List Char) → List Char
  | [] => []
  | [x] => x
  | x :: y :: rest => x ++ sep :: joinWith sep (y :: rest)

/-- A football event with seven home shots, no away shot count and a
possession field of its own. -/
def shotsEvent : List (String × JVal) :=
  [("strHomeTeam", str "Arsenal"), ("strAwayTeam", str "Chelsea"),
   ("intHomeShots", str "7"), ("intHomePossession", str "61"),
   ("intAwayPossession", str "39")]

/-- A score entry whose overs are the text `"0"`: a truthy value whose numeric
value is zero. -/
def zeroOversScore : JVal :=
  obj [("r", num 10), ("w", num 1), ("o", str "0")]

/-! ## Text helpers of the speech service (backend/services/ttsService.js)

A text is the list of its characters.  JavaScript counts UTF-16 code units;
for a text without characters outside the basic plane the two agree. -/

/-- The replacement `text.replace(/<[^>]*>/g, '')`, read from left to right.
`pending` holds, in reverse, the characters since a `<` that has not met its
`>` yet: they are dropped when the `>` arrives and kept when the text ends
first. -/
def removeTagsFrom : List Char → Option (List Char) → List Char
  | [], none => []
  | [], some pending => pending.reverse
  | c :: cs, none =>
    if c == '<' then removeTagsFrom cs (some ['<']) else c :: removeTagsFrom cs none
  | c :: cs, some pending =>
    if c == '>' then removeTagsFrom cs none else removeTagsFrom cs (some (c :: pending))

/-- The characters removed as markdown formatting: `*`, `_`, the backquote and
`#`. -/
def isMarkdownChar (c : Char) : Bool :=
  c == '*' || c == '_' || c.toNat == 96 || c == '#'

/-- The replacement `text.replace(/\s+/g, ' ')`: every run of white space
becomes one space.  `inRun` tells that the previous character was white
space. -/
def collapseSpacesFrom : List Char → Bool → List Char
  | [], _ => []
  | c :: cs, inRun =>
    if isJsSpace c then
      if inRun then collapseSpacesFrom cs true else ' ' :: collapseSpacesFrom cs true
    else c :: collapseSpacesFrom cs false

/-- Whether `https?:\/\/[^\s]+` matches at the front of the text: `http://` or
`https://` followed by a character that is not white space. -/
def urlStartsAt (l : List Char) : Bool :=
  ("https://".data.isPrefixOf l &&
      (match l.drop 8 with
      | c :: _ => !isJsSpace c
      | [] => false)) ||
  ("http://".data.isPrefixOf l &&
      (match l.drop 7 with
      | c :: _ => !isJsSpace c
      | [] => false))

/-- The replacement `text.replace(/https?:\/\/[^\s]+/g, '')`: a match runs
from its `h` to the next white space or the end of the text.  `inUrl` tells
that the characters read belong to a match. -/
def removeUrlsFrom : List Char → Bool → List Char
  | [], _ => []
  | c :: cs, inUrl =>
    if inUrl then
      if isJsSpace c then c :: removeUrlsFrom cs false else removeUrlsFrom cs true
    else if urlStartsAt (c :: cs) then removeUrlsFrom cs true
    else c :: removeUrlsFrom cs false

/-- The step `if (cleanText.length > 5000) cleanText = cleanText.substring(0, 5000) + '...'`. -/
def limitLength (cs : List Char) : List Char :=
  if cs.length > 5000 then cs.take 5000 ++ ['.', '.', '.'] else cs

/-- The method `String.prototype.trim`. -/
def trimChars (cs : List Char) : List Char :=
  ((cs.dropWhile isJsSpace).reverse.dropWhile isJsSpace).reverse

/-- The method `cleanTextForTTS(text)`. -/
def cleanTextForTTS (text : String) : String :=
  String.mk (trimChars (limitLength (removeUrlsFrom (collapseSpacesFrom
    ((removeTagsFrom text.data none).filter (fun c => !isMarkdownChar c)) false) false)))

/-- A text of 5001 letters. -/
def longText : String :=
  String.mk (List.replicate 5001 'a')

/-! ## Slugs (backend/models/Article.js, backend/services/ttsService.js) -/

/-- A character of the class `[a-z0-9]`. -/
def isSlugChar (c : Char) : Bool :=
  (97 ≤ c.toNat && c.toNat ≤ 122) || (48 ≤ c.toNat && c.toNat ≤ 57)

/-- The lower-case form of an ASCII character. -/
def asciiLower (c : Char) : Char :=
  if 65 ≤ c.toNat ∧ c.toNat ≤ 90 then Char.ofNat (c.toNat + 32) else c

/-- The method `String.prototype.toLowerCase`.  On a text of ASCII characters
it maps `A`..`Z` to `a`..`z` and keeps every other character; on a text with
other characters it follows the Unicode case mappings, which are not
interpreted: `other` gives the result. -/
def toLowerCase (other : List Char → List Char) (cs : List Char) : List Char :=
  if cs.all (fun c => c.toNat < 128) then cs.map asciiLower else other cs

/-- The replacement `.replace(/[^a-z0-9]+/g, '-')`: every run of characters
outside `[a-z0-9]` becomes one hyphen.  `inRun` tells that the previous
character was outside the class. -/
def hyphenate : List Char → Bool → List Char
  | [], _ => []
  | c :: cs, inRun =>
    if isSlugChar c then c :: hyphenate cs false
    else if inRun then hyphenate cs true
    else '-' :: hyphenate cs true

/-- The replacement `.replace(/^-+|-+$/g, '')`: the hyphens at the start and
at the end of the text are removed. -/
def stripHyphens (cs : List Char) : List Char :=
  (cs.dropWhile (fun c => c == '-')).rdropWhile (fun c => c == '-')

/-- The slug expression shared by the pre-save hook of the Article schema and
`generateFileName`:
`title.toLowerCase().replace(/[^a-z0-9]+/g, '-').replace(/^-+|-+$/g, '')`. -/
def slugify (other : List Char → List Char) (title : List Char) : List Char :=
  stripHyphens (hyphenate (toLowerCase other title) false)

/-- The slug part of the pre-save hook of the Article schema: the slug is
recomputed when the title was modified. -/
def preSaveSlug (other : List Char → List Char) (titleModified : Bool) (title slug : String) :
    String :=
  if titleModified then String.mk (slugify other title.data) else slug

/-- The method `generateFileName(title)`; `timestamp` is the reading of
`Date.now()`. -/
def generateFileName (other : List Char → List Char) (timestamp : Nat) (title : String) :
    String :=
  String.mk (slugify other title.data) ++ "-" ++ toString timestamp ++ ".mp3"

/-- The shape the specification gives for a slug: characters of `[a-z0-9]` and
hyphens only, no hyphen at the start, none at the end and no two hyphens in a
row.  The empty text has the shape. -/
def IsSlug (s : List Char) : Prop :=
  (∀ c ∈ s, isSlugChar c = true ∨ c = '-') ∧
  s.head? ≠ some '-' ∧ s.getLast? ≠ some '-' ∧
  s.Chain' (fun a b => ¬ (a = '-' ∧ b = '-'))

/-! ## Pagination of the article list (backend/routes/articles.js)

`page`, `limit` and `total` are the numbers the route computes with: the
validated and parsed query values and the count returned by the store.  They
are integers far below `2^53`, where the arithmetic of JavaScript numbers on
them is exact; the quotient `total / limit` is taken as a rational number. -/

/-- The number of articles skipped: `(page - 1) * limit`. -/
def skipOf (page limit : Int) : Int :=
  (page - 1) * limit

/-- The value `Math.ceil(total / limit)`. -/
def totalPagesOf (total limit : Int) : Int :=
  ⌈(total : ℚ) / (limit : ℚ)⌉

/-- The `pagination` object of the response. -/
structure Pagination where
  currentPage : Int
  totalPages : Int
  totalArticles : Int
  hasNextPage : Bool
  hasPrevPage : Bool
  deriving DecidableEq, Repr

/-- The `pagination` object built by `GET /` for the page, the limit and the
number of matching articles. -/
def paginationOf (page limit total : Int) : Pagination :=
  { currentPage := page
    totalPages := totalPagesOf total limit
    totalArticles := total
    hasNextPage := decide (page < totalPagesOf total limit)
    hasPrevPage := decide (page > 1) }

/-! # Theorems -/

/-! ## Handlers and loops -/

theorem tryCatch_fst (r : Except JsError Unit × World) : (tryCatch r).1 = .ok () := by
  unfold tryCatch
  split <;> rfl

theorem tryCatch_snd (r : Except JsError Unit × World) : (tryCatch r).2 = r.2 := by
  unfold tryCatch
  split <;> rfl

theorem forEachM_invariant {α : Type} (f : α → World → Except JsError Unit × World)
    (P : World → Prop) (hf : ∀ x w, P w → P (f x w).2) :
    ∀ (xs : List α) (w : World), P w → P (forEachM f xs w).2 := by
  intro xs
  induction xs with
  | nil => intro w hw; exact hw
  | cons x xs ih =>
    intro w hw
    have h1 := hf x w hw
    unfold forEachM
    cases hfx : f x w with
    | mk r w1 =>
      rw [hfx] at h1
      cases r with
      | ok v => exact ih w1 h1
      | error e => exact h1

theorem forEachM_of_ok {α : Type} (f : α → World → Except JsError Unit × World)
    (hf : ∀ x w, (f x w).1 = .ok ()) :
    ∀ (xs : List α) (w : World),
      forEachM f xs w = (.ok (), xs.foldl (fun acc x => (f x acc).2) w) := by
  intro xs
  induction xs with
  | nil => intro w; rfl
  | cons x xs ih =>
    intro w
    unfold forEachM
    have h1 := hf x w
    cases hfx : f x w with
    | mk r w1 =>
      rw [hfx] at h1
      simp only at h1
      subst h1
      simp only [List.foldl_cons, hfx]
      exact ih w1


/-! ## Status tables -/

theorem mapStatus_of_key :
    mapStatus (str "Match Finished") = .ok (str "finished") ∧
    mapStatus (str "Not Started") = .ok (str "scheduled") ∧
    mapStatus (str "In Progress") = .ok (str "live") ∧
    mapStatus (str "Half Time") = .ok (str "live") ∧
    mapStatus (str "Full Time") = .ok (str "finished") :=
  ⟨rfl, rfl, rfl, rfl, rfl⟩

theorem mapStatus_missing : mapStatus undefined = .ok (str "scheduled") := rfl

theorem lookupProp_none (kvs : List (String × JVal)) (k : String)
    (h1 : kvs.lookup k = none) (h2 : objectPrototypeKeys.contains k = false) :
    lookupProp kvs k = undefined := by
  unfold lookupProp
  rw [h1, h2]
  rfl

theorem mapStatus_other (s : String)
    (hkey : (statusMap.map Prod.fst).contains s = false)
    (hproto : objectPrototypeKeys.contains s = false) :
    mapStatus (str s) = .ok (str "scheduled") := by
  have hl : List.lookup s (statusMap.map (fun kv => (kv.1, str kv.2))) = none := by
    simp only [statusMap, List.map, List.contains_cons, List.contains_nil, Bool.or_false,
      Bool.or_eq_false_iff] at hkey
    obtain ⟨h1, h2, h3, h4, h5⟩ := hkey
    simp only [statusMap, List.map, List.lookup, h1, h2, h3, h4, h5]
  simp [mapStatus, tableLookup, toStr, lookupProp_none _ _ hl hproto, JVal.or, truthy]

/-- C1 (failing input): `mapStatus('constructor')` is the member that
`statusMap` inherits from `Object.prototype`, a truthy value, so the default
`'scheduled'` is not taken although the string is not a key of the table. -/
theorem mapStatus_inherited_member :
    (statusMap.map Prod.fst).contains "constructor" = false ∧
    mapStatus (str "constructor") = .ok (builtin "constructor") ∧
    mapStatus (str "constructor") ≠ .ok (str "scheduled") := by
  refine ⟨by decide, rfl, ?_⟩
  intro h
  have h2 : mapStatus (str "constructor") = .ok (builtin "constructor") := rfl
  rw [h2] at h
  cases h

theorem mapCricketStatus_of_key :
    mapCricketStatus (str "completed") = .ok (str "finished") ∧
    mapCricketStatus (str "live") = .ok (str "live") ∧
    mapCricketStatus (str "upcoming") = .ok (str "scheduled") :=
  ⟨rfl, rfl, rfl⟩

theorem mapCricketStatus_missing : mapCricketStatus undefined = .ok (str "scheduled") := rfl

theorem mapCricketStatus_other (s : String)
    (hkey : (cricketStatusMap.map Prod.fst).contains s = false)
    (hproto : objectPrototypeKeys.contains s = false) :
    mapCricketStatus (str s) = .ok (str "scheduled") := by
  have hl : List.lookup s (cricketStatusMap.map (fun kv => (kv.1, str kv.2))) = none := by
    simp only [cricketStatusMap, List.map, List.contains_cons, List.contains_nil, Bool.or_false,
      Bool.or_eq_false_iff] at hkey
    obtain ⟨h1, h2, h3⟩ := hkey
    simp only [cricketStatusMap, List.map, List.lookup, h1, h2, h3]
  simp [mapCricketStatus, tableLookup, toStr, lookupProp_none _ _ hl hproto, JVal.or, truthy]

/-- C2 (failing input): `mapCricketStatus('constructor')` is the member that
`statusMap` inherits from `Object.prototype`, not `'scheduled'`, so the result
is none of `scheduled`, `live`, `finished`. -/
theorem mapCricketStatus_inherited_member :
    (cricketStatusMap.map Prod.fst).contains "constructor" = false ∧
    mapCricketStatus (str "constructor") = .ok (builtin "constructor") ∧
    mapCricketStatus (str "constructor") ≠ .ok (str "scheduled") ∧
    mapCricketStatus (str "constructor") ≠ .ok (str "live") ∧
    mapCricketStatus (str "constructor") ≠ .ok (str "finished") := by
  have h2 : mapCricketStatus (str "constructor") = .ok (builtin "constructor") := rfl
  refine ⟨by decide, rfl, ?_, ?_, ?_⟩ <;>
  · intro h
    rw [h2] at h
    cases h

/-! ## Shape of the value returned by a mapper -/

theorem bind_eq_ok {α β : Type} {x : Except JsError α} {f : α → Except JsError β} {b : β}
    (h : (x >>= f) = .ok b) : ∃ a, x = .ok a ∧ f a = .ok b := by
  cases x with
  | error e => cases h
  | ok a => exact ⟨a, rfl, h⟩

theorem footballUpdate_shape (data u : JVal) (h : footballUpdate data = .ok u) :
    u = null ∨ ∃ a b c d,
      u = obj [("homeTeam", a), ("awayTeam", b), ("status", c), ("liveData", d)] := by
  unfold footballUpdate at h
  obtain ⟨events, -, h⟩ := bind_eq_ok h
  obtain ⟨md, -, h⟩ := bind_eq_ok h
  split at h
  · left; cases h; rfl
  · right
    repeat obtain ⟨_, -, h⟩ := bind_eq_ok h
    cases h
    exact ⟨_, _, _, _, rfl⟩

theorem cricketUpdate_shape (env : Env) (body u : JVal) (h : cricketUpdate env body = .ok u) :
    u = null ∨ ∃ a b c d,
      u = obj [("homeTeam", a), ("awayTeam", b), ("status", c), ("cricketData", d)] := by
  unfold cricketUpdate at h
  obtain ⟨md, -, h⟩ := bind_eq_ok h
  split at h
  · left; cases h; rfl
  · right
    repeat obtain ⟨_, -, h⟩ := bind_eq_ok h
    cases h
    exact ⟨_, _, _, _, rfl⟩

theorem basketballUpdate_shape (data u : JVal) (h : basketballUpdate data = .ok u) :
    u = null ∨ ∃ a b c d,
      u = obj [("homeTeam", a), ("awayTeam", b), ("status", c), ("liveData", d)] := by
  unfold basketballUpdate at h
  obtain ⟨events, -, h⟩ := bind_eq_ok h
  obtain ⟨md, -, h⟩ := bind_eq_ok h
  split at h
  · left; cases h; rfl
  · right
    repeat obtain ⟨_, -, h⟩ := bind_eq_ok h
    cases h
    exact ⟨_, _, _, _, rfl⟩

theorem tennisUpdate_shape (data u : JVal) (h : tennisUpdate data = .ok u) :
    u = null ∨ ∃ a b c d,
      u = obj [("homeTeam", a), ("awayTeam", b), ("status", c), ("liveData", d)] := by
  unfold tennisUpdate at h
  obtain ⟨events, -, h⟩ := bind_eq_ok h
  obtain ⟨md, -, h⟩ := bind_eq_ok h
  split at h
  · left; cases h; rfl
  · right
    repeat obtain ⟨_, -, h⟩ := bind_eq_ok h
    cases h
    exact ⟨_, _, _, _, rfl⟩

theorem fetchFootballMatchData_shape (env : Env) (id : String) (w : World) :
    (fetchFootballMatchData env id w).1 = null ∨ ∃ a b c d,
      (fetchFootballMatchData env id w).1 =
        obj [("homeTeam", a), ("awayTeam", b), ("status", c), ("liveData", d)] := by
  unfold fetchFootballMatchData
  cases env.eventsLive id with
  | none => left; rfl
  | some data =>
    dsimp only
    cases h : footballUpdate data with
    | error e => left; rfl
    | ok u => exact footballUpdate_shape data u h

theorem fetchCricketMatchData_shape (env : Env) (id : String) (w : World) :
    (fetchCricketMatchData env id w).1 = null ∨ ∃ a b c d,
      (fetchCricketMatchData env id w).1 =
        obj [("homeTeam", a), ("awayTeam", b), ("status", c), ("cricketData", d)] := by
  unfold fetchCricketMatchData
  cases env.matchInfo id with
  | none => left; rfl
  | some body =>
    dsimp only
    cases h : cricketUpdate env body with
    | error e => left; rfl
    | ok u => exact cricketUpdate_shape env body u h

theorem fetchBasketballMatchData_shape (env : Env) (id : String) (w : World) :
    (fetchBasketballMatchData env id w).1 = null ∨ ∃ a b c d,
      (fetchBasketballMatchData env id w).1 =
        obj [("homeTeam", a), ("awayTeam", b), ("status", c), ("liveData", d)] := by
  unfold fetchBasketballMatchData
  cases env.eventsLive id with
  | none => left; rfl
  | some data =>
    dsimp only
    cases h : basketballUpdate data with
    | error e => left; rfl
    | ok u => exact basketballUpdate_shape data u h

theorem fetchTennisMatchData_shape (env : Env) (id : String) (w : World) :
    (fetchTennisMatchData env id w).1 = null ∨ ∃ a b c d,
      (fetchTennisMatchData env id w).1 =
        obj [("homeTeam", a), ("awayTeam", b), ("status", c), ("liveData", d)] := by
  unfold fetchTennisMatchData
  cases env.eventsLive id with
  | none => left; rfl
  | some data =>
    dsimp only
    cases h : tennisUpdate data with
    | error e => left; rfl
    | ok u => exact tennisUpdate_shape data u h

/-- C6: sport-payload exclusivity.  Whatever the provider answers, the value
returned by the cricket mapper has no own property `liveData`, and the values
returned by the football, basketball and tennis mappers have no own property
`cricketData`. -/
theorem mapper_payload_exclusive (env : Env) (id : String) (w : World) :
    (fetchCricketMatchData env id w).1.hasOwn "liveData" = false ∧
    (fetchFootballMatchData env id w).1.hasOwn "cricketData" = false ∧
    (fetchBasketballMatchData env id w).1.hasOwn "cricketData" = false ∧
    (fetchTennisMatchData env id w).1.hasOwn "cricketData" = false := by
  refine ⟨?_, ?_, ?_, ?_⟩
  · rcases fetchCricketMatchData_shape env id w with h | ⟨a, b, c, d, h⟩ <;> rw [h] <;> rfl
  · rcases fetchFootballMatchData_shape env id w with h | ⟨a, b, c, d, h⟩ <;> rw [h] <;> rfl
  · rcases fetchBasketballMatchData_shape env id w with h | ⟨a, b, c, d, h⟩ <;> rw [h] <;> rfl
  · rcases fetchTennisMatchData_shape env id w with h | ⟨a, b, c, d, h⟩ <;> rw [h] <;> rfl

/-! ## No event, no update -/

theorem first_event_missing (data : JVal) (h : eventsMissingOrEmpty data = true) :
    (data.get "events" >>= fun events => events.optIndex 0) = .ok undefined := by
  cases data with
  | obj kvs =>
    simp only [eventsMissingOrEmpty] at h
    simp only [JVal.get]
    generalize lookupProp kvs "events" = ev at h
    cases ev with
    | arr xs =>
      cases xs with
      | nil => rfl
      | cons x r => simp at h
    | undefined => rfl
    | null => rfl
    | _ => simp at h
  | _ => simp [eventsMissingOrEmpty] at h

theorem footballUpdate_no_event (data : JVal) (h : eventsMissingOrEmpty data = true) :
    footballUpdate data = .ok null := by
  have h1 := first_event_missing data h
  unfold footballUpdate
  cases hd : data.get "events" with
  | error e => rw [hd] at h1; cases h1
  | ok events =>
    rw [hd] at h1
    have h2 : events.optIndex 0 = .ok undefined := h1
    simp only [bind, Except.bind, h2]
    rfl

theorem basketballUpdate_no_event (data : JVal) (h : eventsMissingOrEmpty data = true) :
    basketballUpdate data = .ok null := by
  have h1 := first_event_missing data h
  unfold basketballUpdate
  cases hd : data.get "events" with
  | error e => rw [hd] at h1; cases h1
  | ok events =>
    rw [hd] at h1
    have h2 : events.optIndex 0 = .ok undefined := h1
    simp only [bind, Except.bind, h2]
    rfl

theorem tennisUpdate_no_event (data : JVal) (h : eventsMissingOrEmpty data = true) :
    tennisUpdate data = .ok null := by
  have h1 := first_event_missing data h
  unfold tennisUpdate
  cases hd : data.get "events" with
  | error e => rw [hd] at h1; cases h1
  | ok events =>
    rw [hd] at h1
    have h2 : events.optIndex 0 = .ok undefined := h1
    simp only [bind, Except.bind, h2]
    rfl

theorem cricketUpdate_no_data (env : Env) (body : JVal) (h : dataMissing body = true) :
    cricketUpdate env body = .ok null := by
  cases body with
  | obj kvs =>
    simp only [dataMissing] at h
    unfold cricketUpdate
    simp only [JVal.get, bind, Except.bind]
    generalize lookupProp kvs "data" = d at h
    cases d <;> first | rfl | simp [nullish] at h
  | _ => simp [dataMissing] at h

theorem updateSingleMatch_of_falsy (env : Env) (m : Match) (w w1 : World) (u : JVal)
    (hf : fetchMatchData env m w = some (u, w1)) (hu : u.truthy = false) :
    updateSingleMatch env m w = (.ok (), w1) := by
  simp [updateSingleMatch, updateSingleMatchBody, tryCatch, hf, hu]

theorem fetchMatchData_no_event (env : Env) (m : Match) (w : World) (h : NoEvent env m) :
    ∃ req, fetchMatchData env m w = some (null, sendRequest req w) := by
  unfold fetchMatchData
  rcases h with ⟨hs, data, hd, he⟩ | ⟨hs, body, hd, he⟩
  · rcases hs with hs | hs | hs
    · refine ⟨.eventsLive m.matchId, ?_⟩
      simp [hs, fetchFootballMatchData, hd, footballUpdate_no_event data he]
    · refine ⟨.eventsLive m.matchId, ?_⟩
      simp [hs, fetchBasketballMatchData, hd, basketballUpdate_no_event data he]
    · refine ⟨.eventsLive m.matchId, ?_⟩
      simp [hs, fetchTennisMatchData, hd, tennisUpdate_no_event data he]
  · refine ⟨.matchInfo m.matchId, ?_⟩
    simp [hs, fetchCricketMatchData, hd, cricketUpdate_no_data env body he]

/-- C3: no-event no-op.  When the provider answers the request for a match of
a supported sport with a body that holds no event (`events` missing, `null` or
empty for football, basketball and tennis; `data` missing for cricket), the
mapper returns `null` and `updateSingleMatch` returns normally with the store
unchanged, no write issued to the store and no notification published. -/
theorem no_event_no_op (env : Env) (m : Match) (w : World) (h : NoEvent env m) :
    mapperResult env m = some null ∧
    (updateSingleMatch env m w).1 = .ok () ∧
    (updateSingleMatch env m w).2.store = w.store ∧
    (updateSingleMatch env m w).2.storeWrites = w.storeWrites ∧
    (updateSingleMatch env m w).2.emitted = w.emitted := by
  obtain ⟨req, hf⟩ := fetchMatchData_no_event env m w h
  obtain ⟨req0, hf0⟩ := fetchMatchData_no_event env m ⟨[], [], [], 0⟩ h
  rw [updateSingleMatch_of_falsy env m w _ null hf rfl]
  refine ⟨?_, rfl, rfl, rfl, rfl⟩
  simp [mapperResult, hf0]

/-- Witness of C3: the live match `evt123` under a provider whose answer is
`{ events: null }`. -/
theorem no_event_no_op_witness :
    NoEvent quietEnv sampleMatch ∧
    mapperResult quietEnv sampleMatch = some null ∧
    (updateSingleMatch quietEnv sampleMatch sampleWorld).1 = .ok () ∧
    (updateSingleMatch quietEnv sampleMatch sampleWorld).2.store = sampleWorld.store ∧
    (updateSingleMatch quietEnv sampleMatch sampleWorld).2.storeWrites = sampleWorld.storeWrites ∧
    (updateSingleMatch quietEnv sampleMatch sampleWorld).2.emitted = sampleWorld.emitted :=
  have h : NoEvent quietEnv sampleMatch := Or.inl ⟨Or.inl rfl, _, rfl, rfl⟩
  ⟨h, no_event_no_op quietEnv sampleMatch sampleWorld h⟩

/-! ## The write of a sync -/

theorem applySet_liveData (env : Env) (a b c d : JVal) (x : Match) :
    x.applySet (updateDocument env
        (obj [("homeTeam", a), ("awayTeam", b), ("status", c), ("liveData", d)])) =
      { x with homeTeam := a, awayTeam := b, status := c, liveData := d,
               lastUpdated := date env.now } := rfl

theorem applySet_cricketData (env : Env) (a b c d : JVal) (x : Match) :
    x.applySet (updateDocument env
        (obj [("homeTeam", a), ("awayTeam", b), ("status", c), ("cricketData", d)])) =
      { x with homeTeam := a, awayTeam := b, status := c, cricketData := d,
               lastUpdated := date env.now } := rfl

theorem mapperResult_isUpdate (env : Env) (m : Match) (u : JVal)
    (h : mapperResult env m = some u) : IsUpdate u := by
  unfold mapperResult fetchMatchData at h
  split at h
  · simp only [Option.map_some', Option.some.injEq] at h
    rcases fetchFootballMatchData_shape env m.matchId ⟨[], [], [], 0⟩ with e | ⟨a, b, c, d, e⟩
    · left; rw [← h, e]
    · right; exact ⟨a, b, c, _, d, Or.inl rfl, by rw [← h, e]⟩
  · split at h
    · simp only [Option.map_some', Option.some.injEq] at h
      rcases fetchCricketMatchData_shape env m.matchId ⟨[], [], [], 0⟩ with e | ⟨a, b, c, d, e⟩
      · left; rw [← h, e]
      · right; exact ⟨a, b, c, _, d, Or.inr rfl, by rw [← h, e]⟩
    · split at h
      · simp only [Option.map_some', Option.some.injEq] at h
        rcases fetchBasketballMatchData_shape env m.matchId ⟨[], [], [], 0⟩ with e | ⟨a, b, c, d, e⟩
        · left; rw [← h, e]
        · right; exact ⟨a, b, c, _, d, Or.inl rfl, by rw [← h, e]⟩
      · split at h
        · simp only [Option.map_some', Option.some.injEq] at h
          rcases fetchTennisMatchData_shape env m.matchId ⟨[], [], [], 0⟩ with e | ⟨a, b, c, d, e⟩
          · left; rw [← h, e]
          · right; exact ⟨a, b, c, _, d, Or.inl rfl, by rw [← h, e]⟩
        · simp at h

/-- What a sync document does to a record: the team objects, the status, one
payload and `lastUpdated` are replaced, every other path is kept. -/
theorem syncDocument_effect (env : Env) (m : Match) (fields : List (String × JVal))
    (h : syncDocument env m = some fields) :
    ∃ a b c d, (∀ x : Match, x.applySet fields =
        { x with homeTeam := a, awayTeam := b, status := c, liveData := d,
                 lastUpdated := date env.now }) ∨
      (∀ x : Match, x.applySet fields =
        { x with homeTeam := a, awayTeam := b, status := c, cricketData := d,
                 lastUpdated := date env.now }) := by
  unfold syncDocument at h
  cases hm : mapperResult env m with
  | none => rw [hm] at h; cases h
  | some u =>
    rw [hm] at h
    dsimp only at h
    split at h
    · rename_i ht
      simp only [Bool.and_eq_true] at ht
      cases h
      rcases mapperResult_isUpdate env m u hm with e | ⟨a, b, c, k, d, hk, e⟩
      · rw [e] at ht; simp [truthy] at ht
      · rcases hk with hk | hk
        · subst hk; subst e
          exact ⟨a, b, c, d, Or.inl (fun x => applySet_liveData env a b c d x)⟩
        · subst hk; subst e
          exact ⟨a, b, c, d, Or.inr (fun x => applySet_cricketData env a b c d x)⟩
    · cases h

theorem fetchMatchData_eq (env : Env) (m : Match) (w : World) :
    fetchMatchData env m w =
      (mapperResult env m).map (fun u => (u, sendRequest (requestOf m) w)) := by
  unfold mapperResult fetchMatchData requestOf
  by_cases h1 : m.sport = "football"
  · simp [h1, fetchFootballMatchData]
  · by_cases h2 : m.sport = "cricket"
    · simp [h2, fetchCricketMatchData]
    · by_cases h3 : m.sport = "basketball"
      · simp [h3, fetchBasketballMatchData]
      · by_cases h4 : m.sport = "tennis"
        · simp [h4, fetchTennisMatchData]
        · simp [h1, h2, h3, h4]

theorem mapperResult_now (env : Env) (t : Int) (m : Match) :
    mapperResult { env with now := t } m = mapperResult env m := rfl

theorem updateSingleMatch_ok (env : Env) (m : Match) (w : World) :
    (updateSingleMatch env m w).1 = .ok () := by
  exact tryCatch_fst _

theorem updateSingleMatch_snd (env : Env) (m : Match) (w : World) :
    (updateSingleMatch env m w).2 = (updateSingleMatchBody env m w).2 := by
  exact tryCatch_snd _

theorem updateSingleMatch_store (env : Env) (m : Match) (w : World) :
    (updateSingleMatch env m w).2.store =
      match syncDocument env m with
      | some fields => (findOneAndUpdate m.matchId fields w.store).2
      | none => w.store := by
  rw [updateSingleMatch_snd]
  unfold updateSingleMatchBody syncDocument
  rw [fetchMatchData_eq]
  cases mapperResult env m with
  | none => rfl
  | some u =>
    cases hu : u.truthy with
    | false => simp [hu, sendRequest]
    | true =>
      cases hr : env.updateRejects m.matchId with
      | true => simp [hu, hr, sendRequest]
      | false =>
        simp only [Option.map_some', hu, hr, sendRequest]
        cases env.notifier <;> cases env.emitRaises (roomOf m.matchId) <;> simp

theorem syncDocument_some (env : Env) (m : Match) (fields : List (String × JVal))
    (h : syncDocument env m = some fields) :
    ∃ u, mapperResult env m = some u ∧ u.truthy = true ∧
      env.updateRejects m.matchId = false ∧ fields = updateDocument env u := by
  unfold syncDocument at h
  cases hm : mapperResult env m with
  | none => rw [hm] at h; cases h
  | some u =>
    rw [hm] at h
    dsimp only at h
    split at h
    · rename_i ht
      simp only [Bool.and_eq_true, Bool.not_eq_true'] at ht
      cases h
      exact ⟨u, rfl, ht.1, ht.2, rfl⟩
    · cases h

theorem syncDocument_now (env : Env) (t : Int) (m : Match) :
    syncDocument { env with now := t } m =
      (syncDocument env m).map (fun _ =>
        match mapperResult env m with
        | some u => updateDocument { env with now := t } u
        | none => []) := by
  unfold syncDocument
  rw [mapperResult_now]
  cases mapperResult env m with
  | none => rfl
  | some u =>
    dsimp only
    split <;> rfl

theorem sameExceptLastUpdated_refl (x : Match) : x.sameExceptLastUpdated x :=
  ⟨rfl, rfl, rfl, rfl, rfl, rfl, rfl, rfl, rfl, rfl⟩

theorem forall₂_sameExceptLastUpdated_refl (s : List Match) :
    List.Forall₂ Match.sameExceptLastUpdated s s := by
  induction s with
  | nil => exact .nil
  | cons x s ih => exact .cons (sameExceptLastUpdated_refl x) ih

theorem findOneAndUpdate_ids (id : String) (fields : List (String × JVal))
    (hid : ∀ x : Match, (x.applySet fields).matchId = x.matchId) (s : List Match) :
    matchIds (findOneAndUpdate id fields s).2 = matchIds s := by
  induction s with
  | nil => rfl
  | cons m rest ih =>
    unfold findOneAndUpdate
    split
    · simp [matchIds, hid]
    · simp only [matchIds, List.map_cons] at ih ⊢
      rw [ih]

theorem findOneAndUpdate_twice (id : String) (f1 f2 : List (String × JVal))
    (hid : ∀ x : Match, (x.applySet f1).matchId = x.matchId)
    (hsame : ∀ x : Match, ((x.applySet f1).applySet f2).sameExceptLastUpdated (x.applySet f1))
    (s : List Match) :
    List.Forall₂ Match.sameExceptLastUpdated
      (findOneAndUpdate id f2 (findOneAndUpdate id f1 s).2).2 (findOneAndUpdate id f1 s).2 := by
  induction s with
  | nil => exact .nil
  | cons m rest ih =>
    by_cases hm : (m.matchId == id) = true
    · have e1 : (findOneAndUpdate id f1 (m :: rest)).2 = m.applySet f1 :: rest := by
        simp [findOneAndUpdate, hm]
      have hm2 : ((m.applySet f1).matchId == id) = true := by rw [hid]; exact hm
      rw [e1]
      have e2 : (findOneAndUpdate id f2 (m.applySet f1 :: rest)).2 =
          (m.applySet f1).applySet f2 :: rest := by
        simp [findOneAndUpdate, hm2]
      rw [e2]
      exact .cons (hsame m) (forall₂_sameExceptLastUpdated_refl rest)
    · have e1 : (findOneAndUpdate id f1 (m :: rest)).2 = m :: (findOneAndUpdate id f1 rest).2 := by
        simp [findOneAndUpdate, hm]
      rw [e1]
      have e2 : (findOneAndUpdate id f2 (m :: (findOneAndUpdate id f1 rest).2)).2 =
          m :: (findOneAndUpdate id f2 (findOneAndUpdate id f1 rest).2).2 := by
        simp [findOneAndUpdate, hm]
      rw [e2]
      exact .cons (sameExceptLastUpdated_refl m) ih

theorem updateDocument_effect (env : Env) (u : JVal) (hu : IsUpdate u) (ht : u.truthy = true) :
    ∃ a b c d, (∀ x : Match, x.applySet (updateDocument env u) =
        { x with homeTeam := a, awayTeam := b, status := c, liveData := d,
                 lastUpdated := date env.now }) ∨
      (∀ x : Match, x.applySet (updateDocument env u) =
        { x with homeTeam := a, awayTeam := b, status := c, cricketData := d,
                 lastUpdated := date env.now }) := by
  rcases hu with e | ⟨a, b, c, k, d, hk, e⟩
  · rw [e] at ht; simp [truthy] at ht
  · rcases hk with hk | hk
    · subst hk; subst e
      exact ⟨a, b, c, d, Or.inl (fun x => applySet_liveData env a b c d x)⟩
    · subst hk; subst e
      exact ⟨a, b, c, d, Or.inr (fun x => applySet_cricketData env a b c d x)⟩

theorem syncDocument_preserves_id (env : Env) (m : Match) (fields : List (String × JVal))
    (h : syncDocument env m = some fields) (x : Match) :
    (x.applySet fields).matchId = x.matchId := by
  obtain ⟨a, b, c, d, hx | hx⟩ := syncDocument_effect env m fields h <;> rw [hx]

/-- C4: idempotence of a sync.  Running `updateSingleMatch` for a match a
second time under the same provider answers and store behaviour, at any later
clock reading `t`, leaves every stored record with the same fields as after
the first run, except `lastUpdated`. -/
theorem sync_idempotent (env : Env) (t : Int) (m : Match) (w : World) :
    List.Forall₂ Match.sameExceptLastUpdated
      (updateSingleMatch { env with now := t } m (updateSingleMatch env m w).2).2.store
      (updateSingleMatch env m w).2.store := by
  rw [updateSingleMatch_store { env with now := t }, updateSingleMatch_store env,
    syncDocument_now]
  cases h : syncDocument env m with
  | none => exact forall₂_sameExceptLastUpdated_refl _
  | some f1 =>
    obtain ⟨u, hm, ht, -, hf⟩ := syncDocument_some env m f1 h
    simp only [Option.map_some', hm]
    subst hf
    have hu := mapperResult_isUpdate env m u hm
    apply findOneAndUpdate_twice
    · exact syncDocument_preserves_id env m _ h
    · intro x
      rcases hu with e | ⟨a, b, c, k, d, hk, e⟩
      · rw [e] at ht; simp [truthy] at ht
      · rcases hk with hk | hk <;> subst hk <;> subst e
        · rw [applySet_liveData, applySet_liveData]
          exact ⟨rfl, rfl, rfl, rfl, rfl, rfl, rfl, rfl, rfl, rfl⟩
        · rw [applySet_cricketData, applySet_cricketData]
          exact ⟨rfl, rfl, rfl, rfl, rfl, rfl, rfl, rfl, rfl, rfl⟩

theorem updateSingleMatch_ids (env : Env) (m : Match) (w : World) :
    matchIds (updateSingleMatch env m w).2.store = matchIds w.store := by
  rw [updateSingleMatch_store]
  cases h : syncDocument env m with
  | none => rfl
  | some fields =>
    exact findOneAndUpdate_ids _ _ (syncDocument_preserves_id env m fields h) _

theorem updateLiveScores_snd (env : Env) (w : World) :
    (updateLiveScores env w).2 =
      if env.findRejects then w
      else (findLive w.store).foldl (fun acc m => (updateSingleMatch env m acc).2) w := by
  unfold updateLiveScores updateLiveScoresBody
  rw [tryCatch_snd]
  split
  · rfl
  · rw [forEachM_of_ok _ (updateSingleMatch_ok env)]

theorem updateLiveScores_ids (env : Env) (w : World) :
    matchIds (updateLiveScores env w).2.store = matchIds w.store := by
  unfold updateLiveScores updateLiveScoresBody
  rw [tryCatch_snd]
  split
  · rfl
  · exact forEachM_invariant (updateSingleMatch env)
      (fun w1 => matchIds w1.store = matchIds w.store)
      (fun x w1 h => (updateSingleMatch_ids env x w1).trans h) _ w rfl

/-- C9: the live-sync path never creates a record.  For every environment,
every state and every match handed to `updateSingleMatch` (stored or not), the
match ids of the store are the same, in the same order, before and after; the
same holds for a whole fast cycle.  Records are added by discovery:
`saveUpcomingMatch` on the event of the scenario and an empty store appends
the record of `evt123`. -/
theorem live_sync_never_creates (env : Env) (m : Match) (w : World) :
    matchIds (updateSingleMatch env m w).2.store = matchIds w.store ∧
    matchIds (updateLiveScores env w).2.store = matchIds w.store ∧
    matchIds (saveUpcomingMatch sampleEnv sampleEvent "football" ⟨[], [], [], 0⟩).2.store =
      ["evt123"] :=
  ⟨updateSingleMatch_ids env m w, updateLiveScores_ids env w, rfl⟩

/-! ## The fast cycle, record by record -/

theorem fold_store (env : Env) (ms : List Match) :
    ∀ w : World, (ms.foldl (fun acc m => (updateSingleMatch env m acc).2) w).store =
      ms.foldl (fun s m => storeStep env m s) w.store := by
  induction ms with
  | nil => intro w; rfl
  | cons m ms ih =>
    intro w
    simp only [List.foldl_cons]
    rw [ih, updateSingleMatch_store]
    rfl

theorem findOneAndUpdate_nodup (id : String) (fields : List (String × JVal)) :
    ∀ s : List Match, (matchIds s).Nodup →
      (findOneAndUpdate id fields s).2 =
        s.map (fun d => if d.matchId = id then d.applySet fields else d) := by
  intro s
  induction s with
  | nil => intro _; rfl
  | cons m rest ih =>
    intro hn
    simp only [matchIds, List.map_cons, List.nodup_cons] at hn
    obtain ⟨hm, hrest⟩ := hn
    by_cases he : m.matchId = id
    · have hb : (m.matchId == id) = true := by simp [he]
      have e1 : (findOneAndUpdate id fields (m :: rest)).2 = m.applySet fields :: rest := by
        simp [findOneAndUpdate, hb]
      have e2 : rest.map (fun d => if d.matchId = id then d.applySet fields else d) = rest := by
        conv_rhs => rw [← List.map_id rest]
        apply List.map_congr_left
        intro d hd
        have hne : d.matchId ≠ id := by
          intro hc
          apply hm
          rw [he, ← hc]
          exact List.mem_map_of_mem _ hd
        simp [hne]
      rw [e1, List.map_cons, if_pos he, e2]
    · have hb : (m.matchId == id) = false := by simp [he]
      have e1 : (findOneAndUpdate id fields (m :: rest)).2 =
          m :: (findOneAndUpdate id fields rest).2 := by
        simp [findOneAndUpdate, hb]
      rw [e1, List.map_cons, if_neg he, ih hrest]

theorem storeStep_eq_map (env : Env) (m : Match) (s : List Match) (hn : (matchIds s).Nodup) :
    storeStep env m s = s.map (recordStep env m) := by
  unfold storeStep
  cases h : syncDocument env m with
  | none =>
    simp only
    symm
    calc s.map (recordStep env m) = s.map id := by
          apply List.map_congr_left
          intro d _
          simp [recordStep, h]
      _ = s := List.map_id s
  | some fields =>
    simp only
    rw [findOneAndUpdate_nodup _ _ s hn]
    apply List.map_congr_left
    intro d _
    simp [recordStep, h]

theorem recordStep_id (env : Env) (m d : Match) : (recordStep env m d).matchId = d.matchId := by
  unfold recordStep
  split
  · cases h : syncDocument env m with
    | none => rfl
    | some fields => exact syncDocument_preserves_id env m fields h d
  · rfl

theorem storeStep_ids (env : Env) (m : Match) (s : List Match) :
    matchIds (storeStep env m s) = matchIds s := by
  unfold storeStep
  cases h : syncDocument env m with
  | none => rfl
  | some fields => exact findOneAndUpdate_ids _ _ (syncDocument_preserves_id env m fields h) s

theorem find_none_of_not_mem (id : String) (ms : List Match) (h : id ∉ matchIds ms) :
    ms.find? (fun m => m.matchId == id) = none := by
  rw [List.find?_eq_none]
  intro x hx hc
  apply h
  have : x.matchId = id := by simpa using hc
  rw [← this]
  exact List.mem_map_of_mem _ hx

theorem fold_storeStep (env : Env) (ms : List Match) :
    ∀ s : List Match, (matchIds s).Nodup → (matchIds ms).Nodup →
      ms.foldl (fun acc m => storeStep env m acc) s =
        s.map (fun d =>
          match ms.find? (fun m => m.matchId == d.matchId) with
          | some m => recordStep env m d
          | none => d) := by
  induction ms with
  | nil =>
    intro s _ _
    simp
  | cons m ms ih =>
    intro s hs hms
    simp only [matchIds, List.map_cons, List.nodup_cons] at hms
    obtain ⟨hm, hms⟩ := hms
    simp only [List.foldl_cons]
    rw [ih (storeStep env m s) (by rw [storeStep_ids]; exact hs) hms,
      storeStep_eq_map env m s hs, List.map_map]
    apply List.map_congr_left
    intro d _
    simp only [Function.comp, recordStep_id]
    by_cases he : m.matchId = d.matchId
    · have hb : (m.matchId == d.matchId) = true := by simp [he]
      simp only [List.find?_cons, hb]
      rw [find_none_of_not_mem d.matchId ms (by rw [← he]; exact hm)]
    · have hb : (m.matchId == d.matchId) = false := by simp [he]
      simp only [List.find?_cons, hb]
      have hd : recordStep env m d = d := by
        unfold recordStep
        rw [if_neg (fun hc => he hc.symm)]
      rw [hd]

theorem find_in_filter (p : Match → Bool) :
    ∀ (s : List Match) (d : Match), (matchIds s).Nodup → d ∈ s →
      (s.filter p).find? (fun m => m.matchId == d.matchId) = if p d then some d else none := by
  intro s
  induction s with
  | nil => intro d _ hd; cases hd
  | cons x rest ih =>
    intro d hn hd
    simp only [matchIds, List.map_cons, List.nodup_cons] at hn
    obtain ⟨hx, hrest⟩ := hn
    rcases List.mem_cons.mp hd with e | hd'
    · subst e
      have hnone : (rest.filter p).find? (fun m => m.matchId == d.matchId) = none := by
        rw [List.find?_eq_none]
        intro y hy hc
        apply hx
        have : y.matchId = d.matchId := by simpa using hc
        rw [← this]
        exact List.mem_map_of_mem _ (List.mem_filter.mp hy).1
      cases hp : p d with
      | true => simp [List.filter_cons, hp]
      | false => simp [List.filter_cons, hp, hnone]
    · have hne : x.matchId ≠ d.matchId := by
        intro hc
        apply hx
        rw [hc]
        exact List.mem_map_of_mem _ hd'
      have hb : (x.matchId == d.matchId) = false := by simp [hne]
      cases hp : p x with
      | true =>
        simp only [List.filter_cons, hp, if_true, List.find?_cons, hb]
        exact ih d hrest hd'
      | false =>
        simp only [List.filter_cons, hp]
        exact ih d hrest hd'

theorem recordStep_self (env : Env) (d : Match) : recordStep env d d = syncRecord env d := by
  unfold recordStep syncRecord
  simp

/-- The store after a fast cycle, for a store with distinct match ids: every
live record is replaced by its own synced record, every other record is kept. -/
theorem updateLiveScores_store (env : Env) (w : World) (hn : (matchIds w.store).Nodup)
    (hfind : env.findRejects = false) :
    (updateLiveScores env w).2.store =
      w.store.map (fun d => if d.status.isStr "live" then syncRecord env d else d) := by
  rw [updateLiveScores_snd, hfind]
  simp only [Bool.false_eq_true, if_false]
  rw [fold_store, fold_storeStep env _ _ hn]
  · apply List.map_congr_left
    intro d hd
    unfold findLive
    rw [find_in_filter _ w.store d hn hd]
    cases d.status.isStr "live" with
    | true => simp [recordStep_self]
    | false => simp
  · unfold findLive matchIds
    exact hn.sublist ((List.filter_sublist _).map _)

theorem updateSingleMatch_requests (env : Env) (m : Match) (w : World) :
    (updateSingleMatch env m w).2.requests =
      w.requests ++ (if (mapperResult env m).isSome then [requestOf m] else []) := by
  rw [updateSingleMatch_snd]
  unfold updateSingleMatchBody
  rw [fetchMatchData_eq]
  cases mapperResult env m with
  | none => simp
  | some u =>
    cases hu : u.truthy with
    | false => simp [hu, sendRequest]
    | true =>
      cases hr : env.updateRejects m.matchId with
      | true => simp [hu, hr, sendRequest]
      | false =>
        simp only [Option.map_some', hu, hr, sendRequest]
        cases env.notifier <;> cases env.emitRaises (roomOf m.matchId) <;> simp

theorem fold_requests_mono (env : Env) (ms : List Match) :
    ∀ (w : World) (r : Request), r ∈ w.requests →
      r ∈ (ms.foldl (fun acc m => (updateSingleMatch env m acc).2) w).requests := by
  induction ms with
  | nil => intro w r h; exact h
  | cons m ms ih =>
    intro w r h
    simp only [List.foldl_cons]
    apply ih
    rw [updateSingleMatch_requests]
    exact List.mem_append_left _ h

theorem fold_requests_mem (env : Env) (ms : List Match) :
    ∀ (w : World) (d : Match), d ∈ ms → (mapperResult env d).isSome = true →
      requestOf d ∈ (ms.foldl (fun acc m => (updateSingleMatch env m acc).2) w).requests := by
  induction ms with
  | nil => intro w d h; cases h
  | cons m ms ih =>
    intro w d hd hs
    simp only [List.foldl_cons]
    rcases List.mem_cons.mp hd with e | hd'
    · subst e
      apply fold_requests_mono
      rw [updateSingleMatch_requests, hs]
      simp
    · exact ih _ d hd' hs

theorem updateLiveScores_ok (env : Env) (w : World) : (updateLiveScores env w).1 = .ok () :=
  tryCatch_fst _

/-- C5: failure isolation in the fast cycle.  `updateSingleMatch` never
raises.  In a store with distinct match ids that can be queried, whatever the
provider and the store do for the other matches (rejected requests, malformed
bodies, rejected writes, rejected publications), the cycle returns normally, a
request is sent for every live match of a supported sport, and every live
match whose own mapper returns an update and whose own write is accepted is
stored as that update merged into its record. -/
theorem failure_isolation (env : Env) (w : World) (hn : (matchIds w.store).Nodup)
    (hfind : env.findRejects = false) :
    (∀ (m : Match) (w1 : World), (updateSingleMatch env m w1).1 = .ok ()) ∧
    (updateLiveScores env w).1 = .ok () ∧
    (∀ d ∈ w.store, d.status.isStr "live" = true → (mapperResult env d).isSome = true →
      requestOf d ∈ (updateLiveScores env w).2.requests) ∧
    (∀ (i : Nat) (d : Match) (u : JVal), w.store[i]? = some d →
      d.status.isStr "live" = true → mapperResult env d = some u → u.truthy = true →
      env.updateRejects d.matchId = false →
      (updateLiveScores env w).2.store[i]? = some (d.applySet (updateDocument env u))) := by
  refine ⟨updateSingleMatch_ok env, updateLiveScores_ok env w, ?_, ?_⟩
  · intro d hd hl hs
    rw [updateLiveScores_snd, hfind]
    simp only [Bool.false_eq_true, if_false]
    apply fold_requests_mem _ _ _ _ _ hs
    unfold findLive
    exact List.mem_filter.mpr ⟨hd, hl⟩
  · intro i d u hi hl hm ht hr
    rw [updateLiveScores_store env w hn hfind, List.getElem?_map, hi]
    simp [hl, syncRecord, syncDocument, hm, ht, hr]

/-- Witness of C5: the request for `evt999` is rejected and the write for
`evt777` is rejected, and the live match `evt123` behind them is still synced
to the snapshot of the scenario. -/
theorem failure_isolation_witness :
    (matchIds isolationWorld.store).Nodup ∧ isolationEnv.findRejects = false ∧
    mapperResult isolationEnv failingMatch = some null ∧
    isolationEnv.updateRejects rejectedMatch.matchId = true ∧
    (updateLiveScores isolationEnv isolationWorld).1 = .ok () ∧
    requestOf failingMatch ∈ (updateLiveScores isolationEnv isolationWorld).2.requests ∧
    (updateLiveScores isolationEnv isolationWorld).2.store[2]? =
      some { sampleMatch with
        homeTeam := obj [("name", str "Arsenal"), ("score", num 2)]
        awayTeam := obj [("name", str "Chelsea"), ("score", num 1)]
        status := str "finished"
        liveData := obj [("currentTime", str ""), ("period", str ""), ("events", arr []),
          ("stats", obj [("possession", obj [("home", num 0), ("away", num 0)]),
                         ("shots", obj [("home", num 0), ("away", num 0)])])]
        lastUpdated := date 2000 } :=
  have h := failure_isolation isolationEnv isolationWorld (by decide) rfl
  ⟨by decide, rfl, rfl, rfl, h.2.1,
   h.2.2.1 failingMatch (by simp [isolationWorld]) rfl rfl,
   h.2.2.2 2 sampleMatch _ rfl rfl rfl rfl rfl⟩

/-- C10: only live matches are candidates for the fast cycle.  In a store with
distinct match ids, `updateLiveScores` returns normally and leaves every
record whose status is not `'live'` unchanged, in place, whatever the provider
answers; when no record is live the cycle changes nothing at all: the store,
the published notifications, the requests and the write count are the same. -/
theorem only_live_matches_synced (env : Env) (w : World) (hn : (matchIds w.store).Nodup) :
    (updateLiveScores env w).1 = .ok () ∧
    (∀ (i : Nat) (d : Match), w.store[i]? = some d → d.status.isStr "live" = false →
      (updateLiveScores env w).2.store[i]? = some d) ∧
    (findLive w.store = [] → updateLiveScores env w = (.ok (), w)) := by
  refine ⟨updateLiveScores_ok env w, ?_, ?_⟩
  · intro i d hi hl
    cases hfind : env.findRejects with
    | true =>
      rw [updateLiveScores_snd, hfind]
      exact hi
    | false =>
      rw [updateLiveScores_store env w hn hfind, List.getElem?_map, hi]
      simp [hl]
  · intro hnone
    apply Prod.ext
    · exact updateLiveScores_ok env w
    · rw [updateLiveScores_snd, hnone]
      simp

/-- Witness of C10: the scheduled match `evt200` is unchanged by a cycle that
syncs `evt123`. -/
theorem only_live_matches_synced_witness :
    (matchIds isolationWorld.store).Nodup ∧
    (updateLiveScores isolationEnv isolationWorld).1 = .ok () ∧
    (updateLiveScores isolationEnv isolationWorld).2.store[3]? = some scheduledMatch :=
  have h := only_live_matches_synced isolationEnv isolationWorld (by decide)
  ⟨by decide, h.1, h.2.1 3 scheduledMatch rfl rfl⟩

/-! ## Discovery -/

theorem saveUpcomingMatch_ok (env : Env) (e : JVal) (sport : String) (w : World) :
    (saveUpcomingMatch env e sport w).1 = .ok () := tryCatch_fst _

theorem saveUpcomingMatch_store (env : Env) (e : JVal) (sport : String) (w : World) :
    (saveUpcomingMatch env e sport w).2.store = saveStore env sport e w.store := by
  unfold saveUpcomingMatch
  rw [tryCatch_snd]
  unfold saveUpcomingMatchBody saveStore discovered
  cases e.get "idEvent" with
  | error err => simp
  | ok idEvent =>
    dsimp only
    cases castString idEvent with
    | error err => simp
    | ok idc =>
      cases idc with
      | none => simp
      | some id =>
        dsimp only
        cases env.findOneRejects id with
        | true => simp
        | false =>
          cases (findOne w.store id).isSome with
          | true => simp
          | false =>
            simp only [Bool.false_eq_true, if_false]
            cases newMatch env e sport id with
            | error err => simp
            | ok doc =>
              cases env.saveRejects id <;> simp

theorem newMatch_id (env : Env) (e : JVal) (sport id : String) (doc : Match)
    (h : newMatch env e sport id = .ok doc) : doc.matchId = id := by
  unfold newMatch at h
  repeat obtain ⟨_, -, h⟩ := bind_eq_ok h
  split at h
  · cases h
  · split at h
    · cases h
    · split at h
      · cases h
      · split at h
        · cases h
        · cases h
          rfl

theorem newMatch_now (env : Env) (t : Int) (e : JVal) (sport id : String) :
    (newMatch { env with now := t } e sport id).toOption.isSome =
      (newMatch env e sport id).toOption.isSome := by
  unfold newMatch
  simp only [bind, Except.bind, pure, Except.pure]
  repeat' split
  all_goals rfl

theorem findOne_isSome_iff (s : List Match) (id : String) :
    (findOne s id).isSome = true ↔ id ∈ matchIds s := by
  unfold findOne matchIds
  rw [List.find?_isSome]
  constructor
  · rintro ⟨x, hx, hb⟩
    have : x.matchId = id := by simpa using hb
    rw [← this]
    exact List.mem_map_of_mem _ hx
  · intro h
    obtain ⟨x, hx, e⟩ := List.mem_map.mp h
    exact ⟨x, hx, by simp [e]⟩

theorem discovered_some (env : Env) (e : JVal) (sport : String) (s : List Match) (doc : Match)
    (h : discovered env e sport s = some doc) :
    ∃ idEvent, e.get "idEvent" = .ok idEvent ∧ castString idEvent = .ok (some doc.matchId) ∧
      doc.matchId ∉ matchIds s := by
  unfold discovered at h
  cases h1 : e.get "idEvent" with
  | error err => rw [h1] at h; cases h
  | ok idEvent =>
    rw [h1] at h
    dsimp only at h
    cases h2 : castString idEvent with
    | error err => rw [h2] at h; cases h
    | ok idc =>
      rw [h2] at h
      cases idc with
      | none => cases h
      | some id =>
        dsimp only at h
        split at h
        · cases h
        · split at h
          · cases h
          · rename_i hfound
            cases h3 : newMatch env e sport id with
            | error err => rw [h3] at h; cases h
            | ok d =>
              rw [h3] at h
              dsimp only at h
              split at h
              · cases h
              · cases h
                have hid := newMatch_id env e sport id doc h3
                refine ⟨idEvent, rfl, by rw [hid]; exact h2, ?_⟩
                rw [hid]
                intro hc
                exact hfound ((findOne_isSome_iff s id).mpr hc)

theorem discovered_of_mem (env : Env) (e idEvent : JVal) (sport id : String) (s : List Match)
    (h1 : e.get "idEvent" = .ok idEvent) (h2 : castString idEvent = .ok (some id))
    (hm : id ∈ matchIds s) : discovered env e sport s = none := by
  unfold discovered
  rw [h1]
  dsimp only
  rw [h2]
  dsimp only
  split
  · rfl
  · rw [if_pos ((findOne_isSome_iff s id).mpr hm)]

theorem discovered_mono (env : Env) (e : JVal) (sport : String) (s s1 : List Match)
    (hc : Covers s s1) (h : discovered env e sport s = none) :
    discovered env e sport s1 = none := by
  unfold discovered at h ⊢
  cases h1 : e.get "idEvent" with
  | error err => rfl
  | ok idEvent =>
    rw [h1] at h
    dsimp only at h ⊢
    cases h2 : castString idEvent with
    | error err => rfl
    | ok idc =>
      rw [h2] at h
      cases idc with
      | none => rfl
      | some id =>
        dsimp only at h ⊢
        cases h3 : env.findOneRejects id with
        | true => simp
        | false =>
          rw [h3] at h
          simp only [Bool.false_eq_true, if_false] at h ⊢
          by_cases h4 : (findOne s1 id).isSome = true
          · rw [if_pos h4]
          · rw [if_neg h4]
            have h5 : ¬ (findOne s id).isSome = true := by
              intro hf
              apply h4
              exact (findOne_isSome_iff s1 id).mpr (hc id ((findOne_isSome_iff s id).mp hf))
            rw [if_neg h5] at h
            exact h

theorem discovered_now (env : Env) (t : Int) (e : JVal) (sport : String) (s : List Match)
    (h : discovered env e sport s = none) :
    discovered { env with now := t } e sport s = none := by
  unfold discovered at h ⊢
  cases h1 : e.get "idEvent" with
  | error err => rfl
  | ok idEvent =>
    rw [h1] at h
    dsimp only at h ⊢
    cases h2 : castString idEvent with
    | error err => rfl
    | ok idc =>
      rw [h2] at h
      cases idc with
      | none => rfl
      | some id =>
        dsimp only at h ⊢
        cases h3 : env.findOneRejects id with
        | true => simp
        | false =>
          rw [h3] at h
          simp only [Bool.false_eq_true, if_false] at h ⊢
          by_cases h4 : (findOne s id).isSome = true
          · rw [if_pos h4]
          · rw [if_neg h4] at h ⊢
            have h5 := newMatch_now env t e sport id
            cases h6 : newMatch env e sport id with
            | error err =>
              rw [h6] at h5
              cases h7 : newMatch { env with now := t } e sport id with
              | error err2 => rfl
              | ok d => rw [h7] at h5; simp [Except.toOption] at h5
            | ok d =>
              rw [h6] at h
              dsimp only at h
              cases h8 : env.saveRejects id with
              | true =>
                cases h7 : newMatch { env with now := t } e sport id with
                | error err2 => rfl
                | ok d2 => simp
              | false => rw [h8] at h; simp at h

theorem covers_refl (s : List Match) : Covers s s := fun _ h => h

theorem covers_trans {s s1 s2 : List Match} (h1 : Covers s s1) (h2 : Covers s1 s2) :
    Covers s s2 := fun id h => h2 id (h1 id h)

theorem saveStore_covers (env : Env) (sport : String) (e : JVal) (s : List Match) :
    Covers s (saveStore env sport e s) := by
  intro id h
  unfold saveStore matchIds
  rw [List.map_append]
  exact List.mem_append_left _ h

theorem saveStore_settles (env : Env) (sport : String) (e : JVal) (s : List Match) :
    discovered env e sport (saveStore env sport e s) = none := by
  cases h : discovered env e sport s with
  | none =>
    unfold saveStore
    rw [h]
    simpa using h
  | some doc =>
    obtain ⟨idEvent, h1, h2, -⟩ := discovered_some env e sport s doc h
    apply discovered_of_mem env e idEvent sport doc.matchId _ h1 h2
    unfold saveStore matchIds
    rw [h]
    simp

theorem saveStore_of_none (env : Env) (sport : String) (e : JVal) (s : List Match)
    (h : discovered env e sport s = none) : saveStore env sport e s = s := by
  unfold saveStore
  rw [h]
  simp

theorem saveStore_nodup (env : Env) (sport : String) (e : JVal) (s : List Match)
    (hn : (matchIds s).Nodup) : (matchIds (saveStore env sport e s)).Nodup := by
  cases h : discovered env e sport s with
  | none => rw [saveStore_of_none env sport e s h]; exact hn
  | some doc =>
    obtain ⟨-, -, -, hnot⟩ := discovered_some env e sport s doc h
    unfold saveStore matchIds
    rw [h]
    simp only [Option.toList_some, List.map_append, List.map_cons, List.map_nil]
    rw [List.nodup_append]
    refine ⟨hn, List.nodup_singleton _, ?_⟩
    intro a ha hb
    rw [List.mem_singleton] at hb
    subst hb
    exact hnot ha

theorem foldl_project {α : Type} (F : α → World → World) (f : α → List Match → List Match)
    (h : ∀ a w, (F a w).store = f a w.store) :
    ∀ (xs : List α) (w : World),
      (xs.foldl (fun acc a => F a acc) w).store = xs.foldl (fun acc a => f a acc) w.store := by
  intro xs
  induction xs with
  | nil => intro w; rfl
  | cons x xs ih =>
    intro w
    simp only [List.foldl_cons]
    rw [ih, h]

theorem foldl_invariant {α : Type} (f : α → List Match → List Match) (P : List Match → Prop)
    (h : ∀ a s, P s → P (f a s)) :
    ∀ (xs : List α) (s : List Match), P s → P (xs.foldl (fun acc a => f a acc) s) := by
  intro xs
  induction xs with
  | nil => intro s hs; exact hs
  | cons x xs ih =>
    intro s hs
    simp only [List.foldl_cons]
    exact ih _ (h x s hs)

theorem foldl_settles {α : Type} (f : α → List Match → List Match)
    (B : α → List Match → Prop)
    (hgrow : ∀ a s, Covers s (f a s)) (hafter : ∀ a s, B a (f a s))
    (hmono : ∀ a s s1, Covers s s1 → B a s → B a s1) :
    ∀ (xs : List α) (s : List Match),
      Covers s (xs.foldl (fun acc a => f a acc) s) ∧
      ∀ a ∈ xs, B a (xs.foldl (fun acc a => f a acc) s) := by
  intro xs
  induction xs with
  | nil =>
    intro s
    exact ⟨covers_refl s, fun a ha => by cases ha⟩
  | cons x xs ih =>
    intro s
    simp only [List.foldl_cons]
    obtain ⟨hc, hb⟩ := ih (f x s)
    refine ⟨covers_trans (hgrow x s) hc, ?_⟩
    intro a ha
    rcases List.mem_cons.mp ha with e | ha'
    · subst e
      exact hmono a _ _ hc (hafter a s)
    · exact hb a ha'

theorem foldl_fixed {α : Type} (f : α → List Match → List Match) (B : α → List Match → Prop)
    (hfix : ∀ a s, B a s → f a s = s) :
    ∀ (xs : List α) (s : List Match), (∀ a ∈ xs, B a s) →
      xs.foldl (fun acc a => f a acc) s = s := by
  intro xs
  induction xs with
  | nil => intro s _; rfl
  | cons x xs ih =>
    intro s h
    simp only [List.foldl_cons]
    rw [hfix x s (h x (List.mem_cons_self _ _))]
    exact ih s (fun a ha => h a (List.mem_cons_of_mem _ ha))

theorem fetchUpcomingMatches_ok (env : Env) (sport : String) (w : World) :
    (fetchUpcomingMatches env sport w).1 = .ok () := tryCatch_fst _

theorem fetchUpcomingMatches_store (env : Env) (sport : String) (w : World) :
    (fetchUpcomingMatches env sport w).2.store = fetchStore env sport w.store := by
  unfold fetchUpcomingMatches
  rw [tryCatch_snd]
  unfold fetchUpcomingMatchesBody fetchStore eventsList
  cases env.eventsNext sport with
  | none => rfl
  | some data =>
    dsimp only
    cases data.get "events" with
    | error err => rfl
    | ok events =>
      dsimp only
      cases iterate (events.or (arr [])) with
      | error err => rfl
      | ok list =>
        dsimp only
        rw [forEachM_of_ok _ (fun e w1 => saveUpcomingMatch_ok env e sport w1)]
        exact foldl_project (fun e acc => (saveUpcomingMatch env e sport acc).2)
          (saveStore env sport) (fun e w1 => saveUpcomingMatch_store env e sport w1) list _

theorem updateUpcomingMatches_store (env : Env) (w : World) :
    (updateUpcomingMatches env w).2.store = cycleStore env w.store := by
  unfold updateUpcomingMatches cycleStore
  rw [tryCatch_snd, forEachM_of_ok _ (fetchUpcomingMatches_ok env)]
  exact foldl_project (fun sp acc => (fetchUpcomingMatches env sp acc).2)
    (fetchStore env) (fetchUpcomingMatches_store env) discoverySports w

theorem fetchStore_covers (env : Env) (sport : String) (s : List Match) :
    Covers s (fetchStore env sport s) := by
  unfold fetchStore
  cases eventsList env sport with
  | none => exact covers_refl s
  | some events =>
    exact (foldl_settles (saveStore env sport) (fun e s1 => discovered env e sport s1 = none)
      (fun e s1 => saveStore_covers env sport e s1) (fun e s1 => saveStore_settles env sport e s1)
      (fun e s1 s2 hc h => discovered_mono env e sport s1 s2 hc h) events s).1

theorem fetchStore_settles (env : Env) (sport : String) (s : List Match) :
    SportSettled env sport (fetchStore env sport s) := by
  intro events he
  unfold fetchStore
  rw [he]
  exact (foldl_settles (saveStore env sport) (fun e s1 => discovered env e sport s1 = none)
    (fun e s1 => saveStore_covers env sport e s1) (fun e s1 => saveStore_settles env sport e s1)
    (fun e s1 s2 hc h => discovered_mono env e sport s1 s2 hc h) events s).2

theorem sportSettled_mono (env : Env) (sport : String) (s s1 : List Match) (hc : Covers s s1)
    (h : SportSettled env sport s) : SportSettled env sport s1 :=
  fun events he e hm => discovered_mono env e sport s s1 hc (h events he e hm)

theorem fetchStore_fixed (env : Env) (t : Int) (sport : String) (s : List Match)
    (h : SportSettled env sport s) : fetchStore { env with now := t } sport s = s := by
  unfold fetchStore
  have he : eventsList { env with now := t } sport = eventsList env sport := rfl
  rw [he]
  cases hl : eventsList env sport with
  | none => rfl
  | some events =>
    exact foldl_fixed (saveStore { env with now := t } sport)
      (fun e s1 => discovered { env with now := t } e sport s1 = none)
      (fun e s1 hb => saveStore_of_none _ sport e s1 hb) events s
      (fun e hm => discovered_now env t e sport s (h events hl e hm))

theorem fetchStore_nodup (env : Env) (sport : String) (s : List Match)
    (hn : (matchIds s).Nodup) : (matchIds (fetchStore env sport s)).Nodup := by
  unfold fetchStore
  cases eventsList env sport with
  | none => exact hn
  | some events =>
    exact foldl_invariant (saveStore env sport) (fun s1 => (matchIds s1).Nodup)
      (fun e s1 h => saveStore_nodup env sport e s1 h) events s hn

theorem cycleStore_nodup (env : Env) (s : List Match) (hn : (matchIds s).Nodup) :
    (matchIds (cycleStore env s)).Nodup :=
  foldl_invariant (fetchStore env) (fun s1 => (matchIds s1).Nodup)
    (fun sp s1 h => fetchStore_nodup env sp s1 h) discoverySports s hn

/-- C7: discovery dedup.  Running discovery a second time under the same
provider answers and store behaviour, at any later clock reading `t`, creates
no record: the store after the second run of `fetchUpcomingMatches` for a
sport equals the store after the first, and likewise for a whole slow cycle
(`updateUpcomingMatches`, all four sports). -/
theorem discovery_dedup (env : Env) (t : Int) (sport : String) (w : World) :
    (fetchUpcomingMatches { env with now := t } sport
        (fetchUpcomingMatches env sport w).2).2.store =
      (fetchUpcomingMatches env sport w).2.store ∧
    (updateUpcomingMatches { env with now := t } (updateUpcomingMatches env w).2).2.store =
      (updateUpcomingMatches env w).2.store := by
  constructor
  · rw [fetchUpcomingMatches_store, fetchUpcomingMatches_store]
    exact fetchStore_fixed env t sport _ (fetchStore_settles env sport w.store)
  · rw [updateUpcomingMatches_store, updateUpcomingMatches_store]
    have h := foldl_settles (fetchStore env) (SportSettled env)
      (fetchStore_covers env) (fetchStore_settles env)
      (fun sp s s1 hc hb => sportSettled_mono env sp s s1 hc hb) discoverySports w.store
    exact foldl_fixed (fetchStore { env with now := t }) (SportSettled env)
      (fun sp s hb => fetchStore_fixed env t sp s hb) discoverySports _ h.2

theorem runCycle_nodup (c : Cycle) (w : World) (hn : (matchIds w.store).Nodup) :
    (matchIds (runCycle w c).store).Nodup := by
  cases c with
  | fast env =>
    show (matchIds (updateLiveScores env w).2.store).Nodup
    rw [updateLiveScores_ids]
    exact hn
  | slow env =>
    show (matchIds (updateUpcomingMatches env w).2.store).Nodup
    rw [updateUpcomingMatches_store]
    exact cycleStore_nodup env w.store hn

/-- C8: `matchId` uniqueness is an invariant of the service.  If no two
stored records share a match id, then after any sequence of fast cycles
(live sync) and slow cycles (discovery), each under an arbitrary environment
(event lists may repeat an `idEvent` within a sport and across sports), no two
stored records share a match id. -/
theorem matchId_unique_invariant (cycles : List Cycle) (w : World)
    (hn : (matchIds w.store).Nodup) : (matchIds (runCycles cycles w).store).Nodup := by
  unfold runCycles
  induction cycles generalizing w with
  | nil => exact hn
  | cons c cs ih =>
    simp only [List.foldl_cons]
    exact ih (runCycle w c) (runCycle_nodup c w hn)

/-- Witness of C8: a slow, a fast and a slow cycle whose event lists repeat
`evt123` within every sport and across the four sports. -/
theorem matchId_unique_invariant_witness :
    (matchIds sampleWorld.store).Nodup ∧
    (matchIds (runCycles [.slow isolationEnv, .fast sampleEnv, .slow sampleEnv]
      sampleWorld).store).Nodup :=
  ⟨by decide, matchId_unique_invariant _ sampleWorld (by decide)⟩

/-! ## The scenario, evaluated -/

/-- The scenario of the specification: the stored record of `evt123` after a
sync with the snapshot Arsenal 2, Chelsea 1, `Match Finished`. -/
theorem sync_sample :
    (updateSingleMatch sampleEnv sampleMatch sampleWorld).2.store =
      [{ sampleMatch with
          homeTeam := obj [("name", str "Arsenal"), ("score", num 2)]
          awayTeam := obj [("name", str "Chelsea"), ("score", num 1)]
          status := str "finished"
          liveData := obj [("currentTime", str ""), ("period", str ""), ("events", arr []),
            ("stats", obj [("possession", obj [("home", num 0), ("away", num 0)]),
                           ("shots", obj [("home", num 0), ("away", num 0)])])]
          lastUpdated := date 2000 },
       scheduledMatch] := rfl

/-- Discovery on an empty store creates the record of `evt123` once, and a
second slow cycle creates nothing. -/
theorem discovery_sample :
    matchIds (updateUpcomingMatches sampleEnv ⟨[], [], [], 0⟩).2.store = ["evt123"] ∧
    matchIds (updateUpcomingMatches { sampleEnv with now := 3000 }
      (updateUpcomingMatches sampleEnv ⟨[], [], [], 0⟩).2).2.store = ["evt123"] :=
  ⟨rfl, rfl⟩

/-! ## Parsing a text of decimal digits -/

theorem isJsSpace_of_digit (c : Char) (h : isDecimalDigit c = true) : isJsSpace c = false := by
  simp only [isDecimalDigit, Bool.and_eq_true, decide_eq_true_eq] at h
  simp only [isJsSpace, Bool.or_eq_false_iff, beq_eq_false_iff_ne, Bool.and_eq_false_iff,
    decide_eq_false_iff_not, ne_eq]
  omega

theorem digitValue_of_digit (c : Char) (h : isDecimalDigit c = true) :
    digitValue 10 c = some (c.toNat - 48) := by
  simp only [isDecimalDigit, Bool.and_eq_true, decide_eq_true_eq] at h
  have h1 : (decide (48 ≤ c.toNat) && decide (c.toNat ≤ 57)) = true := by simp [h]
  have h2 : c.toNat - 48 < 10 := by omega
  simp [digitValue, h1, h2]

theorem readDigits_of_digits (cs : List Char) (h : ∀ c ∈ cs, isDecimalDigit c = true) :
    ∀ acc cnt, readDigits 10 cs acc cnt =
      (cs.foldl (fun a c => a * 10 + (c.toNat - 48)) acc, cnt + cs.length) := by
  induction cs with
  | nil => intro acc cnt; rfl
  | cons c cs ih =>
    intro acc cnt
    have hc := digitValue_of_digit c (h c (List.mem_cons_self _ _))
    simp only [readDigits, hc, List.foldl_cons, List.length_cons]
    rw [ih (fun x hx => h x (List.mem_cons_of_mem _ hx))]
    congr 1
    omega

theorem toNumber_of_lt (m : Nat) (h : m < 2 ^ 53) : toNumber false m = num (m : Int) := by
  unfold toNumber roundToDouble
  rw [if_pos h]
  rfl

theorem parseIntChars_of_digits (cs : List Char) (hne : cs ≠ [])
    (h : ∀ c ∈ cs, isDecimalDigit c = true) (hb : decimalValue cs < 2 ^ 53) :
    parseIntChars cs = num (decimalValue cs) := by
  cases cs with
  | nil => exact absurd rfl hne
  | cons c r =>
    have hc := h c (List.mem_cons_self _ _)
    have hsp := isJsSpace_of_digit c hc
    have hcn : 48 ≤ c.toNat ∧ c.toNat ≤ 57 := by
      simpa [isDecimalDigit] using hc
    have hminus : c ≠ '-' := by
      intro e; rw [e] at hcn; revert hcn; decide
    have hplus : c ≠ '+' := by
      intro e; rw [e] at hcn; revert hcn; decide
    have hx : ∀ r2, r ≠ 'x' :: r2 := by
      intro r2 e
      have := h 'x' (by rw [e]; simp)
      revert this; decide
    have hX : ∀ r2, r ≠ 'X' :: r2 := by
      intro r2 e
      have := h 'X' (by rw [e]; simp)
      revert this; decide
    have hrd := readDigits_of_digits (c :: r) h 0 0
    have e1 : stripSign (c :: r) = (false, c :: r) := by
      unfold stripSign
      split
      · rename_i heq
        simp only [List.cons.injEq] at heq
        exact absurd heq.1 hminus
      · rename_i heq
        simp only [List.cons.injEq] at heq
        exact absurd heq.1 hplus
      · rfl
    have e2 : stripRadix (c :: r) = (10, c :: r) := by
      unfold stripRadix
      split
      · rename_i heq
        simp only [List.cons.injEq] at heq
        exact absurd heq.2 (hx _)
      · rename_i heq
        simp only [List.cons.injEq] at heq
        exact absurd heq.2 (hX _)
      · rfl
    unfold parseIntChars
    simp only [List.dropWhile_cons, hsp, Bool.false_eq_true, if_false, e1, e2, hrd]
    have e3 : (0 + (c :: r).length == 0) = false := by simp
    rw [e3]
    exact toNumber_of_lt _ hb
/-! ## The mappers, event by event -/

theorem get_of_truthy (v : JVal) (k : String) (h : v.truthy = true) :
    v.get k = .ok (v.prop k) := by
  cases v <;> first | rfl | simp [truthy] at h

theorem footballUpdate_eq (data : JVal) :
    footballUpdate data =
      match firstEvent data with
      | .ok ev => if ev.truthy then footballRecord ev else .ok null
      | .error e => .error e := by
  unfold footballUpdate firstEvent
  simp only [bind, Except.bind]
  cases data.get "events" with
  | error e => rfl
  | ok events =>
    dsimp only
    cases events.optIndex 0 with
    | error e => rfl
    | ok ev =>
      dsimp only
      cases ht : ev.truthy with
      | false => rfl
      | true =>
        simp only [get_of_truthy ev _ ht, footballRecord, bind, Except.bind]
        rfl

theorem basketballUpdate_eq (data : JVal) :
    basketballUpdate data =
      match firstEvent data with
      | .ok ev => if ev.truthy then basketballRecord ev else .ok null
      | .error e => .error e := by
  unfold basketballUpdate firstEvent
  simp only [bind, Except.bind]
  cases data.get "events" with
  | error e => rfl
  | ok events =>
    dsimp only
    cases events.optIndex 0 with
    | error e => rfl
    | ok ev =>
      dsimp only
      cases ht : ev.truthy with
      | false => rfl
      | true =>
        simp only [get_of_truthy ev _ ht, basketballRecord, bind, Except.bind]
        rfl

theorem tennisUpdate_eq (data : JVal) :
    tennisUpdate data =
      match firstEvent data with
      | .ok ev => if ev.truthy then tennisRecord ev else .ok null
      | .error e => .error e := by
  unfold tennisUpdate firstEvent
  simp only [bind, Except.bind]
  cases data.get "events" with
  | error e => rfl
  | ok events =>
    dsimp only
    cases events.optIndex 0 with
    | error e => rfl
    | ok ev =>
      dsimp only
      cases ht : ev.truthy with
      | false => rfl
      | true =>
        simp only [get_of_truthy ev _ ht, tennisRecord, bind, Except.bind]
        rfl

theorem optIndex_eq (v : JVal) (i : Nat) : v.optIndex i = .ok (v.elem i) := by
  cases v <;> rfl

theorem optGet_eq (v : JVal) (k : String) : v.optGet k = .ok (v.optProp k) := by
  cases v <;> rfl

theorem cricketUpdate_eq (env : Env) (body : JVal) :
    cricketUpdate env body =
      match body.get "data" with
      | .ok md => if md.truthy then cricketRecord env md else .ok null
      | .error e => .error e := by
  unfold cricketUpdate
  simp only [bind, Except.bind]
  cases body.get "data" with
  | error e => rfl
  | ok md =>
    dsimp only
    cases ht : md.truthy with
    | false => rfl
    | true =>
      simp only [get_of_truthy md _ ht, optIndex_eq, optGet_eq, cricketRecord, cricketScore,
        bind, Except.bind]
      rfl

theorem fetchFootball_fst (env : Env) (id : String) (w : World) :
    (fetchFootballMatchData env id w).1 =
      match (liveEvent env id).map footballRecord with
      | some (.ok u) => u
      | _ => null := by
  unfold fetchFootballMatchData liveEvent
  cases env.eventsLive id with
  | none => rfl
  | some data =>
    dsimp only
    rw [footballUpdate_eq]
    cases firstEvent data with
    | error e => rfl
    | ok ev =>
      dsimp only
      cases ev.truthy with
      | false => rfl
      | true =>
        simp only [if_true, Option.map_some']
        cases footballRecord ev <;> rfl

theorem fetchBasketball_fst (env : Env) (id : String) (w : World) :
    (fetchBasketballMatchData env id w).1 =
      match (liveEvent env id).map basketballRecord with
      | some (.ok u) => u
      | _ => null := by
  unfold fetchBasketballMatchData liveEvent
  cases env.eventsLive id with
  | none => rfl
  | some data =>
    dsimp only
    rw [basketballUpdate_eq]
    cases firstEvent data with
    | error e => rfl
    | ok ev =>
      dsimp only
      cases ev.truthy with
      | false => rfl
      | true =>
        simp only [if_true, Option.map_some']
        cases basketballRecord ev <;> rfl

theorem fetchTennis_fst (env : Env) (id : String) (w : World) :
    (fetchTennisMatchData env id w).1 =
      match (liveEvent env id).map tennisRecord with
      | some (.ok u) => u
      | _ => null := by
  unfold fetchTennisMatchData liveEvent
  cases env.eventsLive id with
  | none => rfl
  | some data =>
    dsimp only
    rw [tennisUpdate_eq]
    cases firstEvent data with
    | error e => rfl
    | ok ev =>
      dsimp only
      cases ev.truthy with
      | false => rfl
      | true =>
        simp only [if_true, Option.map_some']
        cases tennisRecord ev <;> rfl

theorem fetchCricket_fst (env : Env) (id : String) (w : World) :
    (fetchCricketMatchData env id w).1 =
      match (cricketPayload env id).map (cricketRecord env) with
      | some (.ok u) => u
      | _ => null := by
  unfold fetchCricketMatchData cricketPayload
  cases env.matchInfo id with
  | none => rfl
  | some body =>
    dsimp only
    rw [cricketUpdate_eq]
    cases body.get "data" with
    | error e => rfl
    | ok md =>
      dsimp only
      cases md.truthy with
      | false => rfl
      | true =>
        simp only [if_true, Option.map_some']
        cases cricketRecord env md <;> rfl

theorem mapperResult_eq (env : Env) (m : Match) (hs : supportedSport m.sport) :
    mapperResult env m = some (match snapshotRecord env m with
      | some (.ok u) => u
      | _ => null) := by
  unfold mapperResult fetchMatchData snapshotRecord
  by_cases h1 : m.sport = "football"
  · rw [if_pos h1, if_pos h1, Option.map_some', fetchFootball_fst]
  · rw [if_neg h1, if_neg h1]
    by_cases h2 : m.sport = "cricket"
    · rw [if_pos h2, if_pos h2, Option.map_some', fetchCricket_fst]
    · rw [if_neg h2, if_neg h2]
      by_cases h3 : m.sport = "basketball"
      · rw [if_pos h3, if_pos h3, Option.map_some', fetchBasketball_fst]
      · rw [if_neg h3, if_neg h3]
        by_cases h4 : m.sport = "tennis"
        · rw [if_pos h4, if_pos h4, Option.map_some', fetchTennis_fst]
        · rcases hs with h | h | h | h <;> contradiction

theorem mapperResult_none (env : Env) (m : Match) (hs : ¬ supportedSport m.sport) :
    mapperResult env m = none := by
  unfold supportedSport at hs
  simp only [not_or] at hs
  obtain ⟨h1, h2, h3, h4⟩ := hs
  simp [mapperResult, fetchMatchData, h1, h2, h3, h4]

theorem mapperResult_supported (env : Env) (m : Match) (u : JVal)
    (h : mapperResult env m = some u) : supportedSport m.sport := by
  by_contra hs
  rw [mapperResult_none env m hs] at h
  cases h

/-- A truthy value returned by the mapper is the object literal built from
the provider's snapshot. -/
theorem snapshotRecord_of_truthy (env : Env) (m : Match) (u : JVal)
    (h : mapperResult env m = some u) (ht : u.truthy = true) :
    snapshotRecord env m = some (.ok u) := by
  rw [mapperResult_eq env m (mapperResult_supported env m u h)] at h
  simp only [Option.some.injEq] at h
  split at h
  · rename_i u1 heq
    rw [heq, h]
  · rw [← h] at ht
    simp [truthy] at ht

theorem mapperResult_of_snapshot (env : Env) (m : Match) (u : JVal)
    (h : snapshotRecord env m = some (.ok u)) : mapperResult env m = some u := by
  have hs : supportedSport m.sport := by
    by_contra hs
    unfold supportedSport at hs
    simp only [not_or] at hs
    obtain ⟨h1, h2, h3, h4⟩ := hs
    simp [snapshotRecord, h1, h2, h3, h4] at h
  rw [mapperResult_eq env m hs, h]

/-! ## Unsupported sports, frame and totality of the mappers -/

/-- C11: unsupported sports are skipped.  For a match whose sport is none of
football, cricket, basketball and tennis, `updateSingleMatch` returns normally
and leaves the whole state as it was: no request is sent to a provider, no
write is issued to the store, the store is unchanged and nothing is
published. -/
theorem unsupported_sport_skipped (env : Env) (m : Match) (w : World)
    (h : ¬ supportedSport m.sport) :
    updateSingleMatch env m w = (.ok (), w) := by
  unfold supportedSport at h
  simp only [not_or] at h
  obtain ⟨h1, h2, h3, h4⟩ := h
  simp [updateSingleMatch, updateSingleMatchBody, fetchMatchData, tryCatch, h1, h2, h3, h4]

/-- Witness of C11: a hockey match. -/
theorem unsupported_sport_skipped_witness :
    ¬ supportedSport hockeyMatch.sport ∧
    updateSingleMatch sampleEnv hockeyMatch sampleWorld = (.ok (), sampleWorld) :=
  have h : ¬ supportedSport hockeyMatch.sport := by
    unfold supportedSport
    decide
  ⟨h, unsupported_sport_skipped sampleEnv hockeyMatch sampleWorld h⟩

theorem sameFrame_refl (x : Match) : x.sameFrame x := ⟨rfl, rfl, rfl, rfl, rfl⟩

theorem findOneAndUpdate_forall₂ (R : Match → Match → Prop) (hrefl : ∀ x, R x x)
    (id : String) (fields : List (String × JVal)) (hR : ∀ x : Match, R (x.applySet fields) x) :
    ∀ s : List Match, List.Forall₂ R (findOneAndUpdate id fields s).2 s := by
  intro s
  induction s with
  | nil => exact .nil
  | cons m rest ih =>
    unfold findOneAndUpdate
    split
    · refine .cons (hR m) ?_
      clear ih
      induction rest with
      | nil => exact .nil
      | cons y ys ih2 => exact .cons (hrefl y) ih2
    · exact .cons (hrefl m) ih

theorem forall₂_of_refl (R : Match → Match → Prop) (hrefl : ∀ x, R x x) :
    ∀ s : List Match, List.Forall₂ R s s := by
  intro s
  induction s with
  | nil => exact .nil
  | cons y ys ih => exact .cons (hrefl y) ih

theorem isUpdate_frame_keys (u : JVal) (h : IsUpdate u) :
    u.hasOwn "matchId" = false ∧ u.hasOwn "sport" = false ∧ u.hasOwn "league" = false ∧
    u.hasOwn "startTime" = false ∧ u.hasOwn "venue" = false := by
  rcases h with e | ⟨a, b, c, k, d, hk, e⟩
  · subst e
    exact ⟨rfl, rfl, rfl, rfl, rfl⟩
  · rcases hk with hk | hk <;> subst hk <;> subst e <;> exact ⟨rfl, rfl, rfl, rfl, rfl⟩

/-- C14: frame of a sync.  Whatever the provider answers, after
`updateSingleMatch` every stored record has the `matchId`, `sport`, `league`,
`startTime` and `venue` it had before, and the value returned by the mapper
has none of these five properties. -/
theorem sync_frame (env : Env) (m : Match) (w : World) :
    List.Forall₂ Match.sameFrame (updateSingleMatch env m w).2.store w.store ∧
    ∀ u, mapperResult env m = some u →
      u.hasOwn "matchId" = false ∧ u.hasOwn "sport" = false ∧ u.hasOwn "league" = false ∧
      u.hasOwn "startTime" = false ∧ u.hasOwn "venue" = false := by
  constructor
  · rw [updateSingleMatch_store]
    cases h : syncDocument env m with
    | none => exact forall₂_of_refl _ sameFrame_refl _
    | some fields =>
      apply findOneAndUpdate_forall₂ _ sameFrame_refl
      intro x
      obtain ⟨a, b, c, d, hx | hx⟩ := syncDocument_effect env m fields h <;> rw [hx] <;>
        exact ⟨rfl, rfl, rfl, rfl, rfl⟩
  · intro u hu
    exact isUpdate_frame_keys u (mapperResult_isUpdate env m u hu)

/-- C15: mappers never throw.  Each of the four mappers is a total function of
the provider outcome: it returns `null` or an object literal with the keys
`homeTeam`, `awayTeam`, `status` and its payload key.  A rejected request
gives `null`, and so does a raise while the body is read: a cricket payload
without `teams` makes the object literal raise a TypeError, which the mapper
catches. -/
theorem mappers_never_throw (env : Env) (id : String) (w : World) :
    IsUpdate (fetchFootballMatchData env id w).1 ∧
    IsUpdate (fetchCricketMatchData env id w).1 ∧
    IsUpdate (fetchBasketballMatchData env id w).1 ∧
    IsUpdate (fetchTennisMatchData env id w).1 ∧
    (fetchFootballMatchData { env with eventsLive := fun _ => none } id w).1 = null ∧
    (fetchBasketballMatchData { env with eventsLive := fun _ => none } id w).1 = null ∧
    (fetchTennisMatchData { env with eventsLive := fun _ => none } id w).1 = null ∧
    (fetchCricketMatchData { env with matchInfo := fun _ => none } id w).1 = null ∧
    cricketUpdate bareCricketEnv (obj [("data", obj [("status", str "live")])]) =
      .error .typeError ∧
    (fetchCricketMatchData bareCricketEnv id w).1 = null := by
  refine ⟨?_, ?_, ?_, ?_, rfl, rfl, rfl, rfl, rfl, rfl⟩
  · rcases fetchFootballMatchData_shape env id w with h | ⟨a, b, c, d, h⟩
    · exact Or.inl h
    · exact Or.inr ⟨a, b, c, _, d, Or.inl rfl, h⟩
  · rcases fetchCricketMatchData_shape env id w with h | ⟨a, b, c, d, h⟩
    · exact Or.inl h
    · exact Or.inr ⟨a, b, c, _, d, Or.inr rfl, h⟩
  · rcases fetchBasketballMatchData_shape env id w with h | ⟨a, b, c, d, h⟩
    · exact Or.inl h
    · exact Or.inr ⟨a, b, c, _, d, Or.inl rfl, h⟩
  · rcases fetchTennisMatchData_shape env id w with h | ⟨a, b, c, d, h⟩
    · exact Or.inl h
    · exact Or.inr ⟨a, b, c, _, d, Or.inl rfl, h⟩
/-! ## Post-sync state -/

theorem updateSingleMatch_getElem (env : Env) (w : World) (i : Nat) (d : Match)
    (hn : (matchIds w.store).Nodup) (hi : w.store[i]? = some d) :
    (updateSingleMatch env d w).2.store[i]? = some (syncRecord env d) := by
  rw [updateSingleMatch_store]
  have h := storeStep_eq_map env d w.store hn
  unfold storeStep at h
  rw [h, List.getElem?_map, hi, Option.map_some', recordStep_self]

theorem syncRecord_of_update (env : Env) (d : Match) (u : JVal)
    (hm : mapperResult env d = some u) (ht : u.truthy = true)
    (hw : env.updateRejects d.matchId = false) :
    syncRecord env d = d.applySet (updateDocument env u) := by
  simp [syncRecord, syncDocument, hm, ht, hw]

theorem mapStatus_of_mem (st mapped : String) (h : (st, mapped) ∈ statusMap) :
    mapStatus (str st) = .ok (str mapped) := by
  simp only [statusMap, List.mem_cons, Prod.mk.injEq, List.mem_singleton, List.not_mem_nil,
    or_false] at h
  rcases h with ⟨rfl, rfl⟩ | ⟨rfl, rfl⟩ | ⟨rfl, rfl⟩ | ⟨rfl, rfl⟩ | ⟨rfl, rfl⟩ <;> rfl

theorem spreadScore_of_digits (s : String) (h : IsSafeDigits s) :
    spreadScore (str s) = .ok [("score", num (decimalValue s.data))] := by
  have hne : s ≠ "" := by
    intro e
    apply h.1.1
    rw [e]
  have ht : (str s).truthy = true := by simp [truthy, hne]
  unfold spreadScore
  rw [if_pos ht]
  simp only [parseInt, toStr, parseIntChars_of_digits s.data h.1.1 h.1.2 h.2]
  rfl

theorem prop_score_spread (name n : JVal) :
    (obj (spreadName name ++ [("score", n)])).prop "score" = n := by
  unfold spreadName
  split <;> rfl

theorem footballRecord_of_digits (ev : JVal) (hsc asc st mapped : String) (stats : JVal)
    (hh : ev.prop "intHomeScore" = str hsc) (hhd : IsSafeDigits hsc)
    (ha : ev.prop "intAwayScore" = str asc) (had : IsSafeDigits asc)
    (hst : ev.prop "strStatus" = str st) (hkey : (st, mapped) ∈ statusMap)
    (hstats : parseStats ev = .ok stats) :
    footballRecord ev = .ok (obj [
      ("homeTeam", obj (spreadName (ev.prop "strHomeTeam") ++
        [("score", num (decimalValue hsc.data))])),
      ("awayTeam", obj (spreadName (ev.prop "strAwayTeam") ++
        [("score", num (decimalValue asc.data))])),
      ("status", str mapped),
      ("liveData", obj [
        ("currentTime", (ev.prop "strProgress").or (str "")),
        ("period", (ev.prop "strProgress").or (str "")),
        ("events", parseEvents (ev.prop "strEvents")),
        ("stats", stats)])]) := by
  unfold footballRecord
  rw [hh, ha, hst, spreadScore_of_digits hsc hhd, spreadScore_of_digits asc had,
    mapStatus_of_mem st mapped hkey, hstats]
  rfl

/-- C12 (as amended): post-sync state for a football snapshot.  For a stored
football match in a store with distinct match ids and a snapshot whose
`intHomeScore` and `intAwayScore` are strings of decimal digits denoting
numbers below `2^53`, whose `strStatus` is a key of the status table and whose
shot counts can be parsed, when the store accepts the write, after
`updateSingleMatch` the stored record has the mapped status, the home and away
scores equal to the numbers the digits denote, and `lastUpdated` equal to the
clock reading of the sync. -/
theorem football_post_sync_state (env : Env) (w : World) (i : Nat) (d : Match) (ev : JVal)
    (hsc asc st mapped : String) (stats : JVal)
    (hn : (matchIds w.store).Nodup) (hi : w.store[i]? = some d)
    (hsport : d.sport = "football") (hev : liveEvent env d.matchId = some ev)
    (hh : ev.prop "intHomeScore" = str hsc) (hhd : IsSafeDigits hsc)
    (ha : ev.prop "intAwayScore" = str asc) (had : IsSafeDigits asc)
    (hst : ev.prop "strStatus" = str st) (hkey : (st, mapped) ∈ statusMap)
    (hstats : parseStats ev = .ok stats)
    (hw : env.updateRejects d.matchId = false) :
    ∃ d1, (updateSingleMatch env d w).2.store[i]? = some d1 ∧
      d1.status = str mapped ∧
      d1.homeTeam.prop "score" = num (decimalValue hsc.data) ∧
      d1.awayTeam.prop "score" = num (decimalValue asc.data) ∧
      d1.lastUpdated = date env.now := by
  have hrec := footballRecord_of_digits ev hsc asc st mapped stats hh hhd ha had hst hkey hstats
  have hsnap : snapshotRecord env d = some (footballRecord ev) := by
    unfold snapshotRecord
    rw [if_pos hsport, hev, Option.map_some']
  rw [hrec] at hsnap
  have hm := mapperResult_of_snapshot env d _ hsnap
  refine ⟨_, updateSingleMatch_getElem env w i d hn hi, ?_⟩
  rw [syncRecord_of_update env d _ hm rfl hw, applySet_liveData]
  exact ⟨rfl, prop_score_spread _ _, prop_score_spread _ _, rfl⟩

/-- Witness of C12: the scenario of the specification, `evt123` stored live at
1-1 and the snapshot Arsenal 2, Chelsea 1, `Match Finished`. -/
theorem football_post_sync_state_witness :
    (matchIds sampleWorld.store).Nodup ∧ sampleWorld.store[0]? = some sampleMatch ∧
    sampleMatch.sport = "football" ∧
    liveEvent sampleEnv sampleMatch.matchId = some sampleEvent ∧
    sampleEvent.prop "intHomeScore" = str "2" ∧ IsSafeDigits "2" ∧
    sampleEvent.prop "intAwayScore" = str "1" ∧ IsSafeDigits "1" ∧
    sampleEvent.prop "strStatus" = str "Match Finished" ∧
    ("Match Finished", "finished") ∈ statusMap ∧
    sampleEnv.updateRejects sampleMatch.matchId = false ∧
    ∃ d1, (updateSingleMatch sampleEnv sampleMatch sampleWorld).2.store[0]? = some d1 ∧
      d1.status = str "finished" ∧
      d1.homeTeam.prop "score" = num 2 ∧
      d1.awayTeam.prop "score" = num 1 ∧
      d1.lastUpdated = date 2000 :=
  ⟨by decide, rfl, rfl, rfl, rfl, ⟨⟨by decide, by decide⟩, by decide⟩, rfl,
   ⟨⟨by decide, by decide⟩, by decide⟩, rfl, by decide, rfl,
   football_post_sync_state sampleEnv sampleWorld 0 sampleMatch sampleEvent
    "2" "1" "Match Finished" "finished" _
    (by decide) rfl rfl rfl rfl ⟨⟨by decide, by decide⟩, by decide⟩ rfl
    ⟨⟨by decide, by decide⟩, by decide⟩ rfl (by decide) rfl rfl⟩

/-- C12 (counterexample): the snapshot has the scores `"2"` and `"1"` and the
status `Match Finished`, but its `intHomeShots` cannot be converted to a
string; `parseStats` raises, the mapper returns `null`, and the stored record
stays live at 1-1. -/
theorem football_post_sync_state_counterexample :
    liveEvent malformedShotsEnv sampleMatch.matchId = some malformedShotsEvent ∧
    malformedShotsEvent.prop "intHomeScore" = str "2" ∧
    malformedShotsEvent.prop "intAwayScore" = str "1" ∧
    malformedShotsEvent.prop "strStatus" = str "Match Finished" ∧
    mapperResult malformedShotsEnv sampleMatch = some null ∧
    (updateSingleMatch malformedShotsEnv sampleMatch sampleWorld).2.store[0]? =
      some sampleMatch ∧
    sampleMatch.status = str "live" ∧
    sampleMatch.homeTeam.prop "score" = num 1 :=
  ⟨rfl, rfl, rfl, rfl, rfl, rfl, rfl, rfl⟩

/-! ## Notification -/

theorem updateSingleMatch_emitted (env : Env) (m : Match) (w : World) :
    (updateSingleMatch env m w).2.emitted =
      match syncDocument env m with
      | some fields =>
        if env.notifier && !env.emitRaises (roomOf m.matchId) then
          w.emitted ++ [⟨roomOf m.matchId, "matchUpdate",
            (findOneAndUpdate m.matchId fields w.store).1⟩]
        else w.emitted
      | none => w.emitted := by
  rw [updateSingleMatch_snd]
  unfold updateSingleMatchBody syncDocument
  rw [fetchMatchData_eq]
  cases mapperResult env m with
  | none => rfl
  | some u =>
    cases hu : u.truthy with
    | false => simp [hu, sendRequest]
    | true =>
      cases hr : env.updateRejects m.matchId with
      | true => simp [hu, hr, sendRequest]
      | false =>
        simp only [Option.map_some', hu, hr, sendRequest]
        cases env.notifier <;> cases env.emitRaises (roomOf m.matchId) <;> simp

theorem findOneAndUpdate_fst_of_mem (fields : List (String × JVal)) (d : Match) :
    ∀ s : List Match, (matchIds s).Nodup → d ∈ s →
      (findOneAndUpdate d.matchId fields s).1 = some (d.applySet fields) := by
  intro s
  induction s with
  | nil => intro _ hd; cases hd
  | cons m rest ih =>
    intro hn hd
    simp only [matchIds, List.map_cons, List.nodup_cons] at hn
    obtain ⟨hm, hrest⟩ := hn
    unfold findOneAndUpdate
    rcases List.mem_cons.mp hd with e | hd1
    · subst e
      simp
    · have hne : m.matchId ≠ d.matchId := by
        intro hc
        apply hm
        rw [hc]
        exact List.mem_map_of_mem _ hd1
      have hb : (m.matchId == d.matchId) = false := by simp [hne]
      simp only [hb, Bool.false_eq_true, if_false]
      exact ih hrest hd1

/-- C13 (as amended): notification on successful sync.  For a stored match in
a store with distinct match ids and a snapshot for which the mapper returns a
non-null update, when the service has a socket handle, the store accepts the
write and the publication does not raise, `updateSingleMatch` publishes
exactly one notification: the event `matchUpdate` to the room
`match_<matchId>`, whose payload is the merged record as stored after the
write. -/
theorem sync_notification (env : Env) (w : World) (i : Nat) (d : Match) (u : JVal)
    (hn : (matchIds w.store).Nodup) (hi : w.store[i]? = some d)
    (hm : mapperResult env d = some u) (ht : u.truthy = true)
    (hio : env.notifier = true) (hw : env.updateRejects d.matchId = false)
    (he : env.emitRaises (roomOf d.matchId) = false) :
    (updateSingleMatch env d w).2.emitted =
      w.emitted ++ [⟨"match_" ++ d.matchId, "matchUpdate",
        some (d.applySet (updateDocument env u))⟩] ∧
    (updateSingleMatch env d w).2.store[i]? = some (d.applySet (updateDocument env u)) := by
  have hdoc : syncDocument env d = some (updateDocument env u) := by
    simp [syncDocument, hm, ht, hw]
  constructor
  · rw [updateSingleMatch_emitted, hdoc]
    simp only [hio, he, Bool.not_false, Bool.and_self, if_true]
    rw [findOneAndUpdate_fst_of_mem _ d w.store hn (List.getElem?_mem hi)]
    rfl
  · rw [updateSingleMatch_getElem env w i d hn hi, syncRecord_of_update env d u hm ht hw]

/-- Witness of C13: the scenario of the specification. -/
theorem sync_notification_witness :
    (matchIds sampleWorld.store).Nodup ∧ sampleWorld.store[0]? = some sampleMatch ∧
    sampleEnv.notifier = true ∧ sampleEnv.updateRejects sampleMatch.matchId = false ∧
    sampleEnv.emitRaises (roomOf sampleMatch.matchId) = false ∧
    (updateSingleMatch sampleEnv sampleMatch sampleWorld).2.emitted.map (fun e => e.room) =
      ["match_evt123"] ∧
    (updateSingleMatch sampleEnv sampleMatch sampleWorld).2.emitted.map (fun e => e.payload) =
      [(updateSingleMatch sampleEnv sampleMatch sampleWorld).2.store[0]?] :=
  have h := sync_notification sampleEnv sampleWorld 0 sampleMatch _
    (by decide) rfl rfl rfl rfl rfl rfl
  ⟨by decide, rfl, rfl, rfl, rfl, by rw [h.1]; rfl, by rw [h.1, h.2]; rfl⟩

/-- C13 (counterexample): in the scenario the one notification goes to the
room `match_evt123`, which is not the match id `evt123`; and the same sync by
a service constructed without a socket handle writes the same record and
publishes nothing. -/
theorem sync_notification_counterexample :
    (updateSingleMatch sampleEnv sampleMatch sampleWorld).2.emitted.map (fun e => e.room) =
      ["match_evt123"] ∧
    "match_evt123" ≠ sampleMatch.matchId ∧
    (∃ u, mapperResult silentEnv sampleMatch = some u ∧ u.truthy = true) ∧
    (updateSingleMatch silentEnv sampleMatch sampleWorld).2.store =
      (updateSingleMatch sampleEnv sampleMatch sampleWorld).2.store ∧
    (updateSingleMatch silentEnv sampleMatch sampleWorld).2.emitted.length = 0 :=
  ⟨rfl, by decide, ⟨_, rfl, rfl⟩, rfl, rfl⟩

/-! ## Scores carried by an update -/

theorem snapshot_football (env : Env) (m : Match) (u : JVal) (hs : m.sport = "football")
    (hm : mapperResult env m = some u) (ht : u.truthy = true) :
    ∃ ev, liveEvent env m.matchId = some ev ∧ footballRecord ev = .ok u := by
  have h := snapshotRecord_of_truthy env m u hm ht
  unfold snapshotRecord at h
  rw [if_pos hs] at h
  cases hl : liveEvent env m.matchId with
  | none => rw [hl] at h; cases h
  | some ev =>
    rw [hl] at h
    simp only [Option.map_some', Option.some.injEq] at h
    exact ⟨ev, rfl, h⟩

theorem snapshot_cricket (env : Env) (m : Match) (u : JVal) (hs : m.sport = "cricket")
    (hm : mapperResult env m = some u) (ht : u.truthy = true) :
    ∃ md, cricketPayload env m.matchId = some md ∧ cricketRecord env md = .ok u := by
  have h := snapshotRecord_of_truthy env m u hm ht
  unfold snapshotRecord at h
  rw [if_neg (by rw [hs]; decide), if_pos hs] at h
  cases hl : cricketPayload env m.matchId with
  | none => rw [hl] at h; cases h
  | some md =>
    rw [hl] at h
    simp only [Option.map_some', Option.some.injEq] at h
    exact ⟨md, rfl, h⟩

theorem snapshot_basketball (env : Env) (m : Match) (u : JVal) (hs : m.sport = "basketball")
    (hm : mapperResult env m = some u) (ht : u.truthy = true) :
    ∃ ev, liveEvent env m.matchId = some ev ∧ basketballRecord ev = .ok u := by
  have h := snapshotRecord_of_truthy env m u hm ht
  unfold snapshotRecord at h
  rw [if_neg (by rw [hs]; decide), if_neg (by rw [hs]; decide), if_pos hs] at h
  cases hl : liveEvent env m.matchId with
  | none => rw [hl] at h; cases h
  | some ev =>
    rw [hl] at h
    simp only [Option.map_some', Option.some.injEq] at h
    exact ⟨ev, rfl, h⟩

theorem snapshot_tennis (env : Env) (m : Match) (u : JVal) (hs : m.sport = "tennis")
    (hm : mapperResult env m = some u) (ht : u.truthy = true) :
    ∃ ev, liveEvent env m.matchId = some ev ∧ tennisRecord ev = .ok u := by
  have h := snapshotRecord_of_truthy env m u hm ht
  unfold snapshotRecord at h
  rw [if_neg (by rw [hs]; decide), if_neg (by rw [hs]; decide), if_neg (by rw [hs]; decide),
    if_pos hs] at h
  cases hl : liveEvent env m.matchId with
  | none => rw [hl] at h; cases h
  | some ev =>
    rw [hl] at h
    simp only [Option.map_some', Option.some.injEq] at h
    exact ⟨ev, rfl, h⟩

theorem lookup_score_spreadName (name : JVal) (l : List (String × JVal)) :
    (spreadName name ++ l).lookup "score" = l.lookup "score" := by
  unfold spreadName
  split <;> rfl

/-- The score the football mapper carries for a provider score `x`: none when
`x` is falsy, else the value of `parseInt(x)`. -/
theorem footballRecord_scores (ev u : JVal) (h : footballRecord ev = .ok u) :
    ∃ hsv asv,
      spreadScore (ev.prop "intHomeScore") = .ok hsv ∧
      spreadScore (ev.prop "intAwayScore") = .ok asv ∧
      scoreOf u "homeTeam" = hsv.lookup "score" ∧
      scoreOf u "awayTeam" = asv.lookup "score" := by
  unfold footballRecord at h
  obtain ⟨hsv, h1, h⟩ := bind_eq_ok h
  obtain ⟨asv, h2, h⟩ := bind_eq_ok h
  obtain ⟨st, -, h⟩ := bind_eq_ok h
  obtain ⟨stats, -, h⟩ := bind_eq_ok h
  cases h
  exact ⟨hsv, asv, h1, h2, lookup_score_spreadName _ _, lookup_score_spreadName _ _⟩

theorem toNumber_cases (negative : Bool) (m : Nat) :
    (∃ n : Int, toNumber negative m = num n) ∨ toNumber negative m = inf negative := by
  unfold toNumber
  cases roundToDouble m with
  | none => exact Or.inr rfl
  | some d =>
    left
    dsimp only
    split
    · exact ⟨_, rfl⟩
    · exact ⟨_, rfl⟩

/-- The result of `parseInt` is `NaN`, an integral Number or an infinity. -/
theorem parseIntChars_cases (cs : List Char) :
    parseIntChars cs = nan ∨ (∃ n : Int, parseIntChars cs = num n) ∨
      ∃ b : Bool, parseIntChars cs = inf b := by
  unfold parseIntChars
  dsimp only
  split
  · exact Or.inl rfl
  · right
    rcases toNumber_cases _ _ with h | h
    · exact Or.inl h
    · exact Or.inr ⟨_, h⟩

theorem parseInt_cases (x v : JVal) (h : parseInt x = .ok v) :
    v = nan ∨ (∃ n : Int, v = num n) ∨ ∃ b : Bool, v = inf b := by
  unfold parseInt at h
  cases hs : x.toStr with
  | error e => rw [hs] at h; cases h
  | ok s =>
    rw [hs] at h
    cases h
    exact parseIntChars_cases s.data

theorem spreadScore_lookup_falsy (x : JVal) (l : List (String × JVal))
    (h : spreadScore x = .ok l) (hx : x.truthy = false) : l.lookup "score" = none := by
  unfold spreadScore at h
  rw [hx] at h
  cases h
  rfl

theorem spreadScore_lookup_cases (x : JVal) (l : List (String × JVal)) (v : JVal)
    (h : spreadScore x = .ok l) (hv : l.lookup "score" = some v) :
    v = nan ∨ (∃ n : Int, v = num n) ∨ ∃ b : Bool, v = inf b := by
  unfold spreadScore at h
  split at h
  · cases hp : parseInt x with
    | error e => rw [hp] at h; cases h
    | ok n =>
      rw [hp] at h
      cases h
      have : v = n := by
        simp [List.lookup] at hv
        exact hv.symm
      rw [this]
      exact parseInt_cases x n hp
  · cases h
    cases hv

theorem spreadScore_lookup_digits (s : String) (l : List (String × JVal))
    (h : spreadScore (str s) = .ok l) (hd : IsSafeDigits s) :
    l.lookup "score" = some (num (decimalValue s.data)) := by
  rw [spreadScore_of_digits s hd] at h
  cases h
  rfl

theorem nullish_falsy (x : JVal) (h : x.nullish = true) : x.truthy = false := by
  cases x <;> first | rfl | cases h

theorem basketballRecord_scores (ev u : JVal) (h : basketballRecord ev = .ok u) :
    ∃ hp ap,
      parseInt (ev.prop "intHomeScore") = .ok hp ∧
      parseInt (ev.prop "intAwayScore") = .ok ap ∧
      scoreOf u "homeTeam" = some (hp.or (num 0)) ∧
      scoreOf u "awayTeam" = some (ap.or (num 0)) := by
  unfold basketballRecord at h
  obtain ⟨hp, h1, h⟩ := bind_eq_ok h
  obtain ⟨ap, h2, h⟩ := bind_eq_ok h
  obtain ⟨st, -, h⟩ := bind_eq_ok h
  obtain ⟨pd, -, h⟩ := bind_eq_ok h
  cases h
  exact ⟨hp, ap, h1, h2, rfl, rfl⟩

theorem tennisRecord_scores (ev u : JVal) (h : tennisRecord ev = .ok u) :
    scoreOf u "homeTeam" = some ((ev.prop "strHomeScore").or (str "0")) ∧
    scoreOf u "awayTeam" = some ((ev.prop "strAwayScore").or (str "0")) := by
  unfold tennisRecord at h
  obtain ⟨st, -, h⟩ := bind_eq_ok h
  cases h
  exact ⟨rfl, rfl⟩

theorem cricketRecord_scores (env : Env) (md u : JVal) (h : cricketRecord env md = .ok u) :
    scoreOf u "homeTeam" = some (((cricketScore md 0).optProp "r").or (num 0)) ∧
    scoreOf u "awayTeam" = some (((cricketScore md 1).optProp "r").or (num 0)) := by
  unfold cricketRecord at h
  obtain ⟨hn, -, h⟩ := bind_eq_ok h
  obtain ⟨an, -, h⟩ := bind_eq_ok h
  obtain ⟨st, -, h⟩ := bind_eq_ok h
  obtain ⟨hr, -, h⟩ := bind_eq_ok h
  obtain ⟨ar, -, h⟩ := bind_eq_ok h
  cases h
  exact ⟨rfl, rfl⟩

theorem parseInt_nullish (x : JVal) (h : x.nullish = true) : parseInt x = .ok nan := by
  cases x <;> first | rfl | cases h

theorem num_or_zero (n : Int) : (num n).or (num 0) = num n := by
  unfold JVal.or truthy
  by_cases h : n = 0
  · subst h; rfl
  · simp [h]

theorem or_of_falsy (x y : JVal) (h : x.truthy = false) : x.or y = y := by
  simp [JVal.or, h]

/-- The value of `parseInt(x) || 0` is an integral Number or an infinity. -/
theorem parsed_or_zero (x v : JVal) (h : parseInt x = .ok v) :
    (∃ n : Int, v.or (num 0) = num n) ∨ ∃ b : Bool, v.or (num 0) = inf b := by
  rcases parseInt_cases x v h with e | ⟨n, e⟩ | ⟨b, e⟩
  · exact Or.inl ⟨0, by rw [e]; rfl⟩
  · exact Or.inl ⟨n, by rw [e, num_or_zero]⟩
  · exact Or.inr ⟨b, by rw [e]; rfl⟩

theorem parseInt_of_digits (s : String) (hd : IsSafeDigits s) :
    parseInt (str s) = .ok (num (decimalValue s.data)) := by
  simp only [parseInt, toStr, parseIntChars_of_digits s.data hd.1.1 hd.1.2 hd.2]

/-- C16 (as amended): absent scores.  For a snapshot that holds an event but
no score for a team (the score property is missing or `null`), the update
returned by the basketball mapper and by the cricket mapper sets that team's
score to the number 0; the update returned by the football mapper carries no
score for that team; the update returned by the tennis mapper sets it to the
string `'0'`. -/
theorem absent_scores (env : Env) (m : Match) (u : JVal)
    (hm : mapperResult env m = some u) (ht : u.truthy = true) :
    (m.sport = "basketball" → ∃ ev, liveEvent env m.matchId = some ev ∧
      ((ev.prop "intHomeScore").nullish = true → scoreOf u "homeTeam" = some (num 0)) ∧
      ((ev.prop "intAwayScore").nullish = true → scoreOf u "awayTeam" = some (num 0))) ∧
    (m.sport = "cricket" → ∃ md, cricketPayload env m.matchId = some md ∧
      (((cricketScore md 0).optProp "r").nullish = true →
        scoreOf u "homeTeam" = some (num 0)) ∧
      (((cricketScore md 1).optProp "r").nullish = true →
        scoreOf u "awayTeam" = some (num 0))) ∧
    (m.sport = "football" → ∃ ev, liveEvent env m.matchId = some ev ∧
      ((ev.prop "intHomeScore").nullish = true → scoreOf u "homeTeam" = none) ∧
      ((ev.prop "intAwayScore").nullish = true → scoreOf u "awayTeam" = none)) ∧
    (m.sport = "tennis" → ∃ ev, liveEvent env m.matchId = some ev ∧
      ((ev.prop "strHomeScore").nullish = true → scoreOf u "homeTeam" = some (str "0")) ∧
      ((ev.prop "strAwayScore").nullish = true → scoreOf u "awayTeam" = some (str "0"))) := by
  refine ⟨?_, ?_, ?_, ?_⟩
  · intro hs
    obtain ⟨ev, hev, hrec⟩ := snapshot_basketball env m u hs hm ht
    obtain ⟨hp, ap, h1, h2, e1, e2⟩ := basketballRecord_scores ev u hrec
    refine ⟨ev, hev, ?_, ?_⟩
    · intro hx
      rw [parseInt_nullish _ hx] at h1
      cases h1
      exact e1
    · intro hx
      rw [parseInt_nullish _ hx] at h2
      cases h2
      exact e2
  · intro hs
    obtain ⟨md, hmd, hrec⟩ := snapshot_cricket env m u hs hm ht
    obtain ⟨e1, e2⟩ := cricketRecord_scores env md u hrec
    refine ⟨md, hmd, ?_, ?_⟩
    · intro hx
      rw [e1, or_of_falsy _ _ (nullish_falsy _ hx)]
    · intro hx
      rw [e2, or_of_falsy _ _ (nullish_falsy _ hx)]
  · intro hs
    obtain ⟨ev, hev, hrec⟩ := snapshot_football env m u hs hm ht
    obtain ⟨hsv, asv, h1, h2, e1, e2⟩ := footballRecord_scores ev u hrec
    refine ⟨ev, hev, ?_, ?_⟩
    · intro hx
      rw [e1]
      exact spreadScore_lookup_falsy _ _ h1 (nullish_falsy _ hx)
    · intro hx
      rw [e2]
      exact spreadScore_lookup_falsy _ _ h2 (nullish_falsy _ hx)
  · intro hs
    obtain ⟨ev, hev, hrec⟩ := snapshot_tennis env m u hs hm ht
    obtain ⟨e1, e2⟩ := tennisRecord_scores ev u hrec
    refine ⟨ev, hev, ?_, ?_⟩
    · intro hx
      rw [e1, or_of_falsy _ _ (nullish_falsy _ hx)]
    · intro hx
      rw [e2, or_of_falsy _ _ (nullish_falsy _ hx)]

/-- Witness of C16: a basketball match whose event carries no score. -/
theorem absent_scores_witness :
    ∃ u, mapperResult scorelessEnv basketballMatch = some u ∧ u.truthy = true ∧
      scoreOf u "homeTeam" = some (num 0) ∧ scoreOf u "awayTeam" = some (num 0) := by
  obtain ⟨ev, hev, h1, h2⟩ := (absent_scores scorelessEnv basketballMatch _ rfl rfl).1 rfl
  have e : scorelessEvent = ev := Option.some.inj hev
  subst e
  exact ⟨_, rfl, rfl, h1 rfl, h2 rfl⟩

/-- C16 (counterexample): for an event without scores the update of the
football mapper has no score property for either team, and the update of the
tennis mapper carries the string `'0'`; neither sets the number 0. -/
theorem absent_scores_counterexample :
    liveEvent scorelessEnv sampleMatch.matchId = some scorelessEvent ∧
    scorelessEvent.prop "intHomeScore" = undefined ∧
    scorelessEvent.prop "strHomeScore" = undefined ∧
    (∃ u, mapperResult scorelessEnv sampleMatch = some u ∧ u.truthy = true ∧
      scoreOf u "homeTeam" = none ∧ scoreOf u "awayTeam" = none) ∧
    (∃ u, mapperResult scorelessEnv tennisMatch = some u ∧ u.truthy = true ∧
      scoreOf u "homeTeam" = some (str "0") ∧ scoreOf u "homeTeam" ≠ some (num 0)) :=
  ⟨rfl, rfl, rfl, ⟨_, rfl, rfl, rfl, rfl⟩, ⟨_, rfl, rfl, rfl, fun h => by cases h⟩⟩

/-- C17 (as amended): scores are the provider's values, parsed but not
validated.  For every snapshot with a non-null update: the football mapper
carries, when it carries a score at all, the result of `parseInt`: an
integral Number of either sign, `Infinity`, `-Infinity` or NaN; the
basketball mapper always carries an integral Number of either sign or an
infinity (NaN and 0 both give 0); both carry the non-negative integer denoted
by the provider's score when that is a text of decimal digits denoting a
number below `2^53`; the tennis mapper carries the provider's score value
itself, or the string `'0'` when that is falsy; the cricket mapper carries
the provider's runs value itself, or the number 0 when that is falsy. -/
theorem scores_as_parsed (env : Env) (m : Match) (u : JVal)
    (hm : mapperResult env m = some u) (ht : u.truthy = true) :
    (m.sport = "football" → ∃ ev, liveEvent env m.matchId = some ev ∧
      (∀ v, scoreOf u "homeTeam" = some v →
        v = nan ∨ (∃ n : Int, v = num n) ∨ ∃ b : Bool, v = inf b) ∧
      (∀ v, scoreOf u "awayTeam" = some v →
        v = nan ∨ (∃ n : Int, v = num n) ∨ ∃ b : Bool, v = inf b) ∧
      (∀ s, IsSafeDigits s → ev.prop "intHomeScore" = str s →
        scoreOf u "homeTeam" = some (num (decimalValue s.data))) ∧
      (∀ s, IsSafeDigits s → ev.prop "intAwayScore" = str s →
        scoreOf u "awayTeam" = some (num (decimalValue s.data)))) ∧
    (m.sport = "basketball" → ∃ ev, liveEvent env m.matchId = some ev ∧
      ((∃ n : Int, scoreOf u "homeTeam" = some (num n)) ∨
        ∃ b : Bool, scoreOf u "homeTeam" = some (inf b)) ∧
      ((∃ n : Int, scoreOf u "awayTeam" = some (num n)) ∨
        ∃ b : Bool, scoreOf u "awayTeam" = some (inf b)) ∧
      (∀ s, IsSafeDigits s → ev.prop "intHomeScore" = str s →
        scoreOf u "homeTeam" = some (num (decimalValue s.data))) ∧
      (∀ s, IsSafeDigits s → ev.prop "intAwayScore" = str s →
        scoreOf u "awayTeam" = some (num (decimalValue s.data)))) ∧
    (m.sport = "tennis" → ∃ ev, liveEvent env m.matchId = some ev ∧
      scoreOf u "homeTeam" = some ((ev.prop "strHomeScore").or (str "0")) ∧
      scoreOf u "awayTeam" = some ((ev.prop "strAwayScore").or (str "0"))) ∧
    (m.sport = "cricket" → ∃ md, cricketPayload env m.matchId = some md ∧
      scoreOf u "homeTeam" = some (((cricketScore md 0).optProp "r").or (num 0)) ∧
      scoreOf u "awayTeam" = some (((cricketScore md 1).optProp "r").or (num 0))) := by
  refine ⟨?_, ?_, ?_, ?_⟩
  · intro hs
    obtain ⟨ev, hev, hrec⟩ := snapshot_football env m u hs hm ht
    obtain ⟨hsv, asv, h1, h2, e1, e2⟩ := footballRecord_scores ev u hrec
    refine ⟨ev, hev, ?_, ?_, ?_, ?_⟩
    · intro v hv
      rw [e1] at hv
      exact spreadScore_lookup_cases _ _ v h1 hv
    · intro v hv
      rw [e2] at hv
      exact spreadScore_lookup_cases _ _ v h2 hv
    · intro s hd hx
      rw [hx] at h1
      rw [e1]
      exact spreadScore_lookup_digits s _ h1 hd
    · intro s hd hx
      rw [hx] at h2
      rw [e2]
      exact spreadScore_lookup_digits s _ h2 hd
  · intro hs
    obtain ⟨ev, hev, hrec⟩ := snapshot_basketball env m u hs hm ht
    obtain ⟨hp, ap, h1, h2, e1, e2⟩ := basketballRecord_scores ev u hrec
    refine ⟨ev, hev, ?_, ?_, ?_, ?_⟩
    · rcases parsed_or_zero _ _ h1 with ⟨n, hn⟩ | ⟨b, hb⟩
      · exact Or.inl ⟨n, by rw [e1, hn]⟩
      · exact Or.inr ⟨b, by rw [e1, hb]⟩
    · rcases parsed_or_zero _ _ h2 with ⟨n, hn⟩ | ⟨b, hb⟩
      · exact Or.inl ⟨n, by rw [e2, hn]⟩
      · exact Or.inr ⟨b, by rw [e2, hb]⟩
    · intro s hd hx
      rw [hx, parseInt_of_digits s hd] at h1
      cases h1
      rw [e1, num_or_zero]
    · intro s hd hx
      rw [hx, parseInt_of_digits s hd] at h2
      cases h2
      rw [e2, num_or_zero]
  · intro hs
    obtain ⟨ev, hev, hrec⟩ := snapshot_tennis env m u hs hm ht
    exact ⟨ev, hev, tennisRecord_scores ev u hrec⟩
  · intro hs
    obtain ⟨md, hmd, hrec⟩ := snapshot_cricket env m u hs hm ht
    exact ⟨md, hmd, cricketRecord_scores env md u hrec⟩

/-- Witness of C17: the football match of the scenario, whose event carries
the scores "2" and "1". -/
theorem scores_as_parsed_witness :
    ∃ u, mapperResult sampleEnv sampleMatch = some u ∧ u.truthy = true ∧
      scoreOf u "homeTeam" = some (num 2) ∧ scoreOf u "awayTeam" = some (num 1) := by
  obtain ⟨ev, hev, -, -, h1, h2⟩ := (scores_as_parsed sampleEnv sampleMatch _ rfl rfl).1 rfl
  have e : sampleEvent = ev := Option.some.inj hev
  subst e
  exact ⟨_, rfl, rfl, h1 "2" ⟨⟨by decide, by decide⟩, by decide⟩ rfl,
    h2 "1" ⟨⟨by decide, by decide⟩, by decide⟩ rfl⟩

/-- C17 (counterexample): for an event with the scores "-3" and "abc" the
football update carries the negative number -3 and NaN, the basketball update
carries -3, and for the tennis score "40" the tennis update carries that
string. -/
theorem scores_as_parsed_counterexample :
    (∃ u, mapperResult oddScoresEnv sampleMatch = some u ∧ u.truthy = true ∧
      scoreOf u "homeTeam" = some (num (-3)) ∧ scoreOf u "awayTeam" = some nan) ∧
    (∃ u, mapperResult oddScoresEnv basketballMatch = some u ∧ u.truthy = true ∧
      scoreOf u "homeTeam" = some (num (-3))) ∧
    (∃ u, mapperResult oddScoresEnv tennisMatch = some u ∧ u.truthy = true ∧
      scoreOf u "homeTeam" = some (str "40")) :=
  ⟨⟨_, rfl, rfl, rfl, rfl⟩, ⟨_, rfl, rfl, rfl⟩, ⟨_, rfl, rfl, rfl⟩⟩

/-! ## Status lifecycle under sync -/

theorem mapCricketStatus_of_mem (st mapped : String) (h : (st, mapped) ∈ cricketStatusMap) :
    mapCricketStatus (str st) = .ok (str mapped) := by
  simp only [cricketStatusMap, List.mem_cons, Prod.mk.injEq, List.mem_singleton,
    List.not_mem_nil, or_false] at h
  rcases h with ⟨rfl, rfl⟩ | ⟨rfl, rfl⟩ | ⟨rfl, rfl⟩ <;> rfl

theorem footballRecord_status (ev u : JVal) (h : footballRecord ev = .ok u) :
    ∃ a b st l, mapStatus (ev.prop "strStatus") = .ok st ∧
      u = obj [("homeTeam", a), ("awayTeam", b), ("status", st), ("liveData", l)] := by
  unfold footballRecord at h
  obtain ⟨hsv, -, h⟩ := bind_eq_ok h
  obtain ⟨asv, -, h⟩ := bind_eq_ok h
  obtain ⟨st, hst, h⟩ := bind_eq_ok h
  obtain ⟨stats, -, h⟩ := bind_eq_ok h
  cases h
  exact ⟨_, _, st, _, hst, rfl⟩

theorem basketballRecord_status (ev u : JVal) (h : basketballRecord ev = .ok u) :
    ∃ a b st l, mapStatus (ev.prop "strStatus") = .ok st ∧
      u = obj [("homeTeam", a), ("awayTeam", b), ("status", st), ("liveData", l)] := by
  unfold basketballRecord at h
  obtain ⟨hp, -, h⟩ := bind_eq_ok h
  obtain ⟨ap, -, h⟩ := bind_eq_ok h
  obtain ⟨st, hst, h⟩ := bind_eq_ok h
  obtain ⟨pd, -, h⟩ := bind_eq_ok h
  cases h
  exact ⟨_, _, st, _, hst, rfl⟩

theorem tennisRecord_status (ev u : JVal) (h : tennisRecord ev = .ok u) :
    ∃ a b st l, mapStatus (ev.prop "strStatus") = .ok st ∧
      u = obj [("homeTeam", a), ("awayTeam", b), ("status", st), ("liveData", l)] := by
  unfold tennisRecord at h
  obtain ⟨st, hst, h⟩ := bind_eq_ok h
  cases h
  exact ⟨_, _, st, _, hst, rfl⟩

theorem cricketRecord_status (env : Env) (md u : JVal) (h : cricketRecord env md = .ok u) :
    ∃ a b st l, mapCricketStatus (md.prop "status") = .ok st ∧
      u = obj [("homeTeam", a), ("awayTeam", b), ("status", st), ("cricketData", l)] := by
  unfold cricketRecord at h
  obtain ⟨hn, -, h⟩ := bind_eq_ok h
  obtain ⟨an, -, h⟩ := bind_eq_ok h
  obtain ⟨st, hst, h⟩ := bind_eq_ok h
  obtain ⟨hr, -, h⟩ := bind_eq_ok h
  obtain ⟨ar, -, h⟩ := bind_eq_ok h
  cases h
  exact ⟨_, _, st, _, hst, rfl⟩

/-- The status of a synced record: the stored status when nothing is written,
else the status the mapper of the sport derives from the provider's status. -/
theorem syncRecord_status (env : Env) (d : Match) :
    (syncRecord env d).status = d.status ∨
    (d.sport ≠ "cricket" ∧ ∃ ev, liveEvent env d.matchId = some ev ∧
      mapStatus (ev.prop "strStatus") = .ok (syncRecord env d).status) ∨
    (d.sport = "cricket" ∧ ∃ md, cricketPayload env d.matchId = some md ∧
      mapCricketStatus (md.prop "status") = .ok (syncRecord env d).status) := by
  cases hm : mapperResult env d with
  | none => left; simp [syncRecord, syncDocument, hm]
  | some u =>
    cases ht : u.truthy with
    | false => left; simp [syncRecord, syncDocument, hm, ht]
    | true =>
      cases hw : env.updateRejects d.matchId with
      | true => left; simp [syncRecord, syncDocument, hm, ht, hw]
      | false =>
        right
        rw [syncRecord_of_update env d u hm ht hw]
        rcases mapperResult_supported env d u hm with hs | hs | hs | hs
        · left
          obtain ⟨ev, hev, hrec⟩ := snapshot_football env d u hs hm ht
          obtain ⟨a, b, st, l, hst, rfl⟩ := footballRecord_status ev _ hrec
          rw [applySet_liveData]
          exact ⟨by rw [hs]; decide, ev, hev, hst⟩
        · right
          obtain ⟨md, hmd, hrec⟩ := snapshot_cricket env d u hs hm ht
          obtain ⟨a, b, st, l, hst, rfl⟩ := cricketRecord_status env md _ hrec
          rw [applySet_cricketData]
          exact ⟨hs, md, hmd, hst⟩
        · left
          obtain ⟨ev, hev, hrec⟩ := snapshot_basketball env d u hs hm ht
          obtain ⟨a, b, st, l, hst, rfl⟩ := basketballRecord_status ev _ hrec
          rw [applySet_liveData]
          exact ⟨by rw [hs]; decide, ev, hev, hst⟩
        · left
          obtain ⟨ev, hev, hrec⟩ := snapshot_tennis env d u hs hm ht
          obtain ⟨a, b, st, l, hst, rfl⟩ := tennisRecord_status ev _ hrec
          rw [applySet_liveData]
          exact ⟨by rw [hs]; decide, ev, hev, hst⟩

/-- C18 (as amended): a sync keeps a live match live or finished as long as
the provider does.  For a store with distinct match ids, a stored match with
status `'live'`, and provider answers whose status, whenever the answer holds
an event for the match, is one the status table of the sport maps to `'live'`
or `'finished'` (`In Progress`, `Half Time`, `Match Finished`, `Full Time`;
for cricket `live`, `completed`): after `updateSingleMatch` the stored status
of the match is `'live'` or `'finished'`. -/
theorem live_status_lifecycle (env : Env) (w : World) (i : Nat) (d : Match)
    (hn : (matchIds w.store).Nodup) (hi : w.store[i]? = some d)
    (hlive : d.status = str "live")
    (hev : d.sport ≠ "cricket" → ∀ ev, liveEvent env d.matchId = some ev →
      ∃ k v, ev.prop "strStatus" = str k ∧ (k, v) ∈ statusMap ∧
        (v = "live" ∨ v = "finished"))
    (hmd : d.sport = "cricket" → ∀ md, cricketPayload env d.matchId = some md →
      ∃ k v, md.prop "status" = str k ∧ (k, v) ∈ cricketStatusMap ∧
        (v = "live" ∨ v = "finished")) :
    ∃ d1, (updateSingleMatch env d w).2.store[i]? = some d1 ∧
      (d1.status = str "live" ∨ d1.status = str "finished") := by
  refine ⟨syncRecord env d, updateSingleMatch_getElem env w i d hn hi, ?_⟩
  rcases syncRecord_status env d with h | ⟨hs, ev, he, hst⟩ | ⟨hs, md, he, hst⟩
  · left; rw [h, hlive]
  · obtain ⟨k, v, hk, hmem, hv⟩ := hev hs ev he
    rw [hk, mapStatus_of_mem k v hmem] at hst
    have e := Except.ok.inj hst
    rw [← e]
    rcases hv with rfl | rfl
    · left; rfl
    · right; rfl
  · obtain ⟨k, v, hk, hmem, hv⟩ := hmd hs md he
    rw [hk, mapCricketStatus_of_mem k v hmem] at hst
    have e := Except.ok.inj hst
    rw [← e]
    rcases hv with rfl | rfl
    · left; rfl
    · right; rfl

/-- Witness of C18: the scenario of the specification; the live match `evt123`
is reported `Match Finished` and is stored as finished. -/
theorem live_status_lifecycle_witness :
    (matchIds sampleWorld.store).Nodup ∧ sampleWorld.store[0]? = some sampleMatch ∧
    sampleMatch.status = str "live" ∧
    liveEvent sampleEnv sampleMatch.matchId = some sampleEvent ∧
    sampleEvent.prop "strStatus" = str "Match Finished" ∧
    ("Match Finished", "finished") ∈ statusMap ∧
    ∃ d1, (updateSingleMatch sampleEnv sampleMatch sampleWorld).2.store[0]? = some d1 ∧
      (d1.status = str "live" ∨ d1.status = str "finished") :=
  ⟨by decide, rfl, rfl, rfl, rfl, by decide,
   live_status_lifecycle sampleEnv sampleWorld 0 sampleMatch (by decide) rfl rfl
    (fun _ ev he => by
      have e : sampleEvent = ev := Option.some.inj he
      subst e
      exact ⟨"Match Finished", "finished", rfl, by decide, Or.inr rfl⟩)
    (fun hs => absurd hs (by decide))⟩

/-- C18 (counterexample): the live football match `evt123` of the scenario,
with the provider reporting the status `Not Started`: after `updateSingleMatch`
the stored status is `'scheduled'`. -/
theorem live_status_lifecycle_counterexample :
    sampleWorld.store[0]? = some sampleMatch ∧ sampleMatch.status = str "live" ∧
    liveEvent notStartedEnv sampleMatch.matchId = some notStartedEvent ∧
    notStartedEvent.prop "strStatus" = str "Not Started" ∧
    ∃ d1, (updateSingleMatch notStartedEnv sampleMatch sampleWorld).2.store[0]? = some d1 ∧
      d1.status = str "scheduled" :=
  ⟨rfl, rfl, rfl, rfl, _, rfl, rfl⟩

/-! ## Shape of a discovered match -/

theorem prop_of_get (v : JVal) (k : String) (x : JVal) (h : v.get k = .ok x) :
    v.prop k = x := by
  unfold JVal.prop
  rw [h]

theorem castValue_of_ok (v x : JVal) (h : castStringPath v = .ok x) : castValue v = x := by
  unfold castValue
  rw [h]

/-- A cast value that is neither nullish nor the empty string is the string
form of the value given. -/
theorem castStringPath_string (v x : JVal) (h : castStringPath v = .ok x)
    (hx : (x.nullish || x.isStr "") = false) :
    ∃ s, castString v = .ok (some s) ∧ s ≠ "" ∧ x = str s := by
  unfold castStringPath at h
  cases hc : castString v with
  | error err => rw [hc] at h; cases h
  | ok r =>
    rw [hc] at h
    cases r with
    | some s =>
      cases h
      refine ⟨s, rfl, ?_, rfl⟩
      intro e
      rw [e] at hx
      simp [JVal.nullish, JVal.isStr] at hx
    | none =>
      cases h
      exfalso
      cases v <;> simp [castString] at hc <;> simp [JVal.nullish] at hx
      all_goals (split at hc <;> first | cases hc | (split at hc <;> cases hc))

/-- The record built for an event: every path is the value read from the
event, cast to a string where the schema says so, or a default of the
schema. -/
theorem newMatch_shape (env : Env) (e : JVal) (sport id : String) (doc : Match)
    (h : newMatch env e sport id = .ok doc) :
    ∃ lg ds ts t, castString (e.prop "strLeague") = .ok (some lg) ∧ lg ≠ "" ∧
      (e.prop "dateEvent").toStr = .ok ds ∧ (e.prop "strTime").toStr = .ok ts ∧
      env.parseDate (ds ++ " " ++ ts) = some t ∧
      (∀ k ∈ ["idHomeTeam", "strHomeTeam", "strHomeTeamBadge", "idAwayTeam", "strAwayTeam",
          "strAwayTeamBadge", "strVenue", "strCity"],
        castStringPath (e.prop k) = .ok (castValue (e.prop k))) ∧
      doc = { matchId := id
              sport := sport
              league := str lg
              homeTeam := nestedPath [("id", castValue (e.prop "idHomeTeam")),
                ("name", castValue (e.prop "strHomeTeam")),
                ("logo", castValue (e.prop "strHomeTeamBadge")), ("score", num 0)]
              awayTeam := nestedPath [("id", castValue (e.prop "idAwayTeam")),
                ("name", castValue (e.prop "strAwayTeam")),
                ("logo", castValue (e.prop "strAwayTeamBadge")), ("score", num 0)]
              status := str "scheduled"
              startTime := date t
              venue := nestedPath [("name", castValue (e.prop "strVenue")),
                ("city", castValue (e.prop "strCity"))]
              liveData := obj [("events", arr [])]
              cricketData := obj [("currentBatsmen", arr [])]
              lastUpdated := date env.now } := by
  unfold newMatch at h
  obtain ⟨v1, h1, h⟩ := bind_eq_ok h
  obtain ⟨v2, h2, h⟩ := bind_eq_ok h
  obtain ⟨v3, h3, h⟩ := bind_eq_ok h
  obtain ⟨v4, h4, h⟩ := bind_eq_ok h
  obtain ⟨v5, h5, h⟩ := bind_eq_ok h
  obtain ⟨v6, h6, h⟩ := bind_eq_ok h
  obtain ⟨v7, h7, h⟩ := bind_eq_ok h
  obtain ⟨v8, h8, h⟩ := bind_eq_ok h
  obtain ⟨ds, h9, h⟩ := bind_eq_ok h
  obtain ⟨v10, h10, h⟩ := bind_eq_ok h
  obtain ⟨ts, h11, h⟩ := bind_eq_ok h
  obtain ⟨v12, h12, h⟩ := bind_eq_ok h
  obtain ⟨v13, h13, h⟩ := bind_eq_ok h
  obtain ⟨league, c1, h⟩ := bind_eq_ok h
  obtain ⟨homeId, c2, h⟩ := bind_eq_ok h
  obtain ⟨homeName, c3, h⟩ := bind_eq_ok h
  obtain ⟨homeLogo, c4, h⟩ := bind_eq_ok h
  obtain ⟨awayId, c5, h⟩ := bind_eq_ok h
  obtain ⟨awayName, c6, h⟩ := bind_eq_ok h
  obtain ⟨awayLogo, c7, h⟩ := bind_eq_ok h
  obtain ⟨venueName, c8, h⟩ := bind_eq_ok h
  obtain ⟨venueCity, c9, h⟩ := bind_eq_ok h
  rw [prop_of_get e _ _ h1, prop_of_get e _ _ h2, prop_of_get e _ _ h3, prop_of_get e _ _ h4,
    prop_of_get e _ _ h5, prop_of_get e _ _ h6, prop_of_get e _ _ h7, prop_of_get e _ _ h8,
    prop_of_get e _ _ h10, prop_of_get e _ _ h12, prop_of_get e _ _ h13,
    castValue_of_ok _ _ c2, castValue_of_ok _ _ c3, castValue_of_ok _ _ c4,
    castValue_of_ok _ _ c5, castValue_of_ok _ _ c6, castValue_of_ok _ _ c7,
    castValue_of_ok _ _ c8, castValue_of_ok _ _ c9]
  have hcasts : ∀ k ∈ ["idHomeTeam", "strHomeTeam", "strHomeTeamBadge", "idAwayTeam",
      "strAwayTeam", "strAwayTeamBadge", "strVenue", "strCity"],
      castStringPath (e.prop k) = .ok (castValue (e.prop k)) := by
    intro k hk
    simp only [List.mem_cons, List.mem_singleton, List.not_mem_nil, or_false] at hk
    rcases hk with rfl | rfl | rfl | rfl | rfl | rfl | rfl | rfl
    · rw [prop_of_get e _ _ h2, castValue_of_ok _ _ c2, c2]
    · rw [prop_of_get e _ _ h3, castValue_of_ok _ _ c3, c3]
    · rw [prop_of_get e _ _ h4, castValue_of_ok _ _ c4, c4]
    · rw [prop_of_get e _ _ h5, castValue_of_ok _ _ c5, c5]
    · rw [prop_of_get e _ _ h6, castValue_of_ok _ _ c6, c6]
    · rw [prop_of_get e _ _ h7, castValue_of_ok _ _ c7, c7]
    · rw [prop_of_get e _ _ h12, castValue_of_ok _ _ c8, c8]
    · rw [prop_of_get e _ _ h13, castValue_of_ok _ _ c9, c9]
  split at h
  · cases h
  · split at h
    · cases h
    · split at h
      · cases h
      · rename_i hlg
        obtain ⟨lg, hl1, hl2, rfl⟩ := castStringPath_string v1 league c1 (by simpa using hlg)
        split at h
        · cases h
        · rename_i t ht
          cases h
          exact ⟨lg, ds, ts, t, hl1, hl2, h9, h11, ht, hcasts, rfl⟩

theorem lookup_definedFields_cons (k : String) (x : JVal) (rest : List (String × JVal))
    (hk : k ≠ "score") :
    (definedFields ((k, x) :: rest)).lookup "score" = (definedFields rest).lookup "score" := by
  have hb : ("score" == k) = false := by
    simp only [beq_eq_false_iff_ne, ne_eq]
    exact fun e => hk e.symm
  unfold definedFields
  rw [List.filter_cons]
  split
  · rw [List.lookup_cons, hb]
  · rfl

/-- The team object of a new record has the score 0. -/
theorem nestedPath_score (a b c : JVal) :
    (nestedPath [("id", a), ("name", b), ("logo", c), ("score", num 0)]).prop "score" =
      num 0 := by
  have hl : (definedFields [("id", a), ("name", b), ("logo", c), ("score", num 0)]).lookup
      "score" = some (num 0) := by
    rw [lookup_definedFields_cons _ _ _ (by decide), lookup_definedFields_cons _ _ _ (by decide),
      lookup_definedFields_cons _ _ _ (by decide)]
    rfl
  unfold nestedPath
  cases hd : definedFields [("id", a), ("name", b), ("logo", c), ("score", num 0)] with
  | nil => rw [hd] at hl; cases hl
  | cons p ps =>
    rw [hd] at hl
    simp only [List.isEmpty_cons, Bool.false_eq_true, if_false]
    show lookupProp (p :: ps) "score" = num 0
    unfold lookupProp
    rw [hl]

theorem saveUpcomingMatchBody_fresh (env : Env) (e : JVal) (sport id : String) (w : World)
    (hid : castString (e.prop "idEvent") = .ok (some id))
    (hfresh : id ∉ matchIds w.store)
    (hsave : (saveUpcomingMatchBody env e sport w).1 = .ok ()) :
    ∃ doc, newMatch env e sport id = .ok doc ∧
      saveUpcomingMatchBody env e sport w =
        (.ok (), { w with storeWrites := w.storeWrites + 1, store := w.store ++ [doc] }) := by
  have hnone : (findOne w.store id).isSome = false := by
    cases hf : (findOne w.store id).isSome with
    | false => rfl
    | true => exact absurd ((findOne_isSome_iff w.store id).mp hf) hfresh
  unfold saveUpcomingMatchBody at hsave ⊢
  cases hg : e.get "idEvent" with
  | error err => rw [hg] at hsave; cases hsave
  | ok idEvent =>
    rw [prop_of_get e _ _ hg] at hid
    rw [hg] at hsave
    dsimp only at hsave ⊢
    rw [hid] at hsave ⊢
    dsimp only at hsave ⊢
    cases hr : env.findOneRejects id with
    | true => rw [hr] at hsave; simp at hsave
    | false =>
      rw [hr, hnone] at hsave
      rw [hnone]
      simp only [Bool.false_eq_true, if_false] at hsave ⊢
      cases hnew : newMatch env e sport id with
      | error err => rw [hnew] at hsave; cases hsave
      | ok doc =>
        rw [hnew] at hsave
        dsimp only at hsave ⊢
        cases hs : env.saveRejects id with
        | true => rw [hs] at hsave; simp at hsave
        | false =>
          exact ⟨doc, rfl, by simp⟩

/-- C19: shape of a discovered match.  For an event whose `idEvent` (as the
store casts it to a string) is the id of no stored record and for which the
`try` block of `saveUpcomingMatch` completes, the save included, the store
after `saveUpcomingMatch` is the store before with exactly one record added
at its end, and that record has `matchId` = the event's id, the given sport,
status `'scheduled'`, the league of the event as a string, both teams with
the id, name and logo of the event as strings (a property the event does not
give is not set) and score 0, the start time parsed from the event's date and
time, the venue name and city of the event as strings, and no live payload:
`liveData` holds nothing but the empty `events` list and `cricketData`
nothing but the empty `currentBatsmen` list, the defaults of the schema's
array paths. -/
theorem discovered_match_shape (env : Env) (e : JVal) (sport id : String) (w : World)
    (hid : castString (e.prop "idEvent") = .ok (some id))
    (hfresh : id ∉ matchIds w.store)
    (hsave : (saveUpcomingMatchBody env e sport w).1 = .ok ()) :
    ∃ doc lg ds ts t,
      (saveUpcomingMatch env e sport w).2.store = w.store ++ [doc] ∧
      doc.matchId = id ∧ doc.sport = sport ∧ doc.status = str "scheduled" ∧
      castString (e.prop "strLeague") = .ok (some lg) ∧ doc.league = str lg ∧
      (∀ k ∈ ["idHomeTeam", "strHomeTeam", "strHomeTeamBadge", "idAwayTeam", "strAwayTeam",
          "strAwayTeamBadge", "strVenue", "strCity"],
        castStringPath (e.prop k) = .ok (castValue (e.prop k))) ∧
      doc.homeTeam = nestedPath [("id", castValue (e.prop "idHomeTeam")),
        ("name", castValue (e.prop "strHomeTeam")),
        ("logo", castValue (e.prop "strHomeTeamBadge")), ("score", num 0)] ∧
      doc.awayTeam = nestedPath [("id", castValue (e.prop "idAwayTeam")),
        ("name", castValue (e.prop "strAwayTeam")),
        ("logo", castValue (e.prop "strAwayTeamBadge")), ("score", num 0)] ∧
      doc.homeTeam.prop "score" = num 0 ∧ doc.awayTeam.prop "score" = num 0 ∧
      (e.prop "dateEvent").toStr = .ok ds ∧ (e.prop "strTime").toStr = .ok ts ∧
      env.parseDate (ds ++ " " ++ ts) = some t ∧ doc.startTime = date t ∧
      doc.venue = nestedPath [("name", castValue (e.prop "strVenue")),
        ("city", castValue (e.prop "strCity"))] ∧
      doc.liveData = obj [("events", arr [])] ∧
      doc.cricketData = obj [("currentBatsmen", arr [])] := by
  obtain ⟨doc, hnew, hbody⟩ := saveUpcomingMatchBody_fresh env e sport id w hid hfresh hsave
  obtain ⟨lg, ds, ts, t, hl, -, h1, h2, h3, hc, hdoc⟩ := newMatch_shape env e sport id doc hnew
  refine ⟨doc, lg, ds, ts, t, ?_, ?_⟩
  · unfold saveUpcomingMatch
    rw [tryCatch_snd, hbody]
  · rw [hdoc]
    exact ⟨rfl, rfl, rfl, hl, rfl, hc, rfl, rfl, nestedPath_score _ _ _, nestedPath_score _ _ _,
      h1, h2, h3, rfl, rfl, rfl, rfl⟩

/-- Witness of C19: the event `evt500`, which gives no team logo, is saved as
a football match into the store of the scenario. -/
theorem discovered_match_shape_witness :
    castString (upcomingEvent.prop "idEvent") = .ok (some "evt500") ∧
    "evt500" ∉ matchIds sampleWorld.store ∧
    (saveUpcomingMatchBody sampleEnv upcomingEvent "football" sampleWorld).1 = .ok () ∧
    ∃ doc, (saveUpcomingMatch sampleEnv upcomingEvent "football" sampleWorld).2.store =
        sampleWorld.store ++ [doc] ∧
      doc.matchId = "evt500" ∧ doc.sport = "football" ∧ doc.status = str "scheduled" ∧
      doc.league = str "Premier League" ∧
      doc.homeTeam = obj [("id", str "133604"), ("name", str "Arsenal"), ("score", num 0)] ∧
      doc.venue = obj [("name", str "Emirates Stadium"), ("city", str "London")] ∧
      doc.liveData = obj [("events", arr [])] ∧
      doc.cricketData = obj [("currentBatsmen", arr [])] := by
  obtain ⟨doc, lg, ds, ts, t, h1, h2, h3, h4, h5, h6, -, h7, -, -, -, -, -, -, -, h8, h9, h10⟩ :=
    discovered_match_shape sampleEnv upcomingEvent "football" "evt500" sampleWorld
      rfl (by decide) rfl
  have e : lg = "Premier League" := by
    have h := h5
    cases h
    rfl
  subst e
  exact ⟨rfl, by decide, rfl, doc, h1, h2, h3, h4, h6, h7, h8, h9, h10⟩

/-! ## Per-sport isolation in discovery -/

theorem saveUpcomingMatch_requests (env : Env) (e : JVal) (sport : String) (w : World) :
    (saveUpcomingMatch env e sport w).2.requests = w.requests := by
  unfold saveUpcomingMatch
  rw [tryCatch_snd]
  unfold saveUpcomingMatchBody
  repeat' split
  all_goals rfl

theorem fetchUpcomingMatches_requests (env : Env) (sport : String) (w : World) :
    (fetchUpcomingMatches env sport w).2.requests = w.requests ++ [.eventsNext sport] := by
  unfold fetchUpcomingMatches
  rw [tryCatch_snd]
  unfold fetchUpcomingMatchesBody
  cases env.eventsNext sport with
  | none => rfl
  | some data =>
    dsimp only
    cases data.get "events" with
    | error err => rfl
    | ok events =>
      dsimp only
      cases iterate (events.or (arr [])) with
      | error err => rfl
      | ok list =>
        dsimp only
        exact forEachM_invariant (fun event => saveUpcomingMatch env event sport)
          (fun w1 => w1.requests = w.requests ++ [.eventsNext sport])
          (fun x w1 h => (saveUpcomingMatch_requests env x sport w1).trans h) list
          (sendRequest (.eventsNext sport) w) rfl

theorem updateUpcomingMatches_requests (env : Env) (w : World) :
    (updateUpcomingMatches env w).2.requests =
      w.requests ++ discoverySports.map Request.eventsNext := by
  unfold updateUpcomingMatches
  rw [tryCatch_snd, forEachM_of_ok _ (fetchUpcomingMatches_ok env)]
  simp only [discoverySports, List.foldl_cons, List.foldl_nil, List.map_cons, List.map_nil,
    fetchUpcomingMatches_requests, List.append_assoc, List.cons_append, List.nil_append]

theorem cycleStore_settles (env : Env) (s : List Match) :
    ∀ sport ∈ discoverySports, SportSettled env sport (cycleStore env s) :=
  (foldl_settles (fetchStore env) (SportSettled env)
    (fun sp s1 => fetchStore_covers env sp s1) (fun sp s1 => fetchStore_settles env sp s1)
    (fun sp s1 s2 hc h => sportSettled_mono env sp s1 s2 hc h) discoverySports s).2

/-- An event for which `saveUpcomingMatch` would append nothing although its
id is usable, the store answers the query, the record is valid and the insert
is accepted: its id is stored. -/
theorem mem_of_discovered_none (env : Env) (e : JVal) (sport id : String) (doc : Match)
    (s : List Match) (h : discovered env e sport s = none)
    (hid : castString (e.prop "idEvent") = .ok (some id))
    (hq : env.findOneRejects id = false) (hnew : newMatch env e sport id = .ok doc)
    (hs : env.saveRejects id = false) : id ∈ matchIds s := by
  unfold discovered at h
  cases hg : e.get "idEvent" with
  | error err =>
    unfold JVal.prop at hid
    rw [hg] at hid
    cases hid
  | ok idEvent =>
    rw [prop_of_get e _ _ hg] at hid
    rw [hg] at h
    dsimp only at h
    rw [hid] at h
    dsimp only at h
    rw [hq, hnew, hs] at h
    simp only [Bool.false_eq_true, if_false] at h
    cases hf : (findOne s id).isSome with
    | true => exact (findOne_isSome_iff s id).mp hf
    | false => rw [hf] at h; simp at h

/-- C20: per-sport isolation in discovery.  Whatever the provider answers to
the four discovery calls and whatever the store does with the individual
queries and saves, `updateUpcomingMatches` returns normally, sends exactly the
four discovery requests, for football, cricket, basketball and tennis in this
order, and for every sport whose call is answered with a list of events leaves
every event of the list saved: an event whose id is usable, whose query the
store answers, whose record is valid and whose insert the store accepts has
its id in the store afterwards.  In the scenario where the football call is
rejected, the event of the cricket call is stored as a cricket match. -/
theorem discovery_isolation (env : Env) (w : World) :
    (updateUpcomingMatches env w).1 = .ok () ∧
    (updateUpcomingMatches env w).2.requests =
      w.requests ++ [.eventsNext "football", .eventsNext "cricket",
        .eventsNext "basketball", .eventsNext "tennis"] ∧
    (∀ sport ∈ discoverySports, ∀ events, eventsList env sport = some events →
      ∀ e ∈ events, ∀ id doc,
        castString (e.prop "idEvent") = .ok (some id) →
        env.findOneRejects id = false →
        newMatch env e sport id = .ok doc →
        env.saveRejects id = false →
        id ∈ matchIds (updateUpcomingMatches env w).2.store) ∧
    (eventsList footballDownEnv "football" = none ∧
      ((updateUpcomingMatches footballDownEnv sampleWorld).2.store.map
        (fun m => (m.matchId, m.sport))) =
        [("evt123", "football"), ("evt200", "football"), ("evt500", "cricket")]) := by
  refine ⟨tryCatch_fst _, updateUpcomingMatches_requests env w, ?_, rfl, ?_⟩
  · intro sport hsp events hev e he id doc hid hq hnew hs
    rw [updateUpcomingMatches_store]
    exact mem_of_discovered_none env e sport id doc _
      (cycleStore_settles env w.store sport hsp events hev e he) hid hq hnew hs
  · rw [updateUpcomingMatches_store]
    rfl

/-! ## Failed publish and services without a socket handle -/

theorem updateSingleMatch_storeWrites (env : Env) (m : Match) (w : World) :
    (updateSingleMatch env m w).2.storeWrites =
      match mapperResult env m with
      | some u => if u.truthy then w.storeWrites + 1 else w.storeWrites
      | none => w.storeWrites := by
  rw [updateSingleMatch_snd]
  unfold updateSingleMatchBody
  rw [fetchMatchData_eq]
  cases mapperResult env m with
  | none => rfl
  | some u =>
    cases hu : u.truthy with
    | false => simp [hu, sendRequest]
    | true =>
      cases hr : env.updateRejects m.matchId with
      | true => simp [hu, hr, sendRequest]
      | false =>
        simp only [Option.map_some', hu, hr, sendRequest]
        cases env.notifier <;> cases env.emitRaises (roomOf m.matchId) <;> simp

/-- C21: a failed publish does not affect persisted state.  For a match whose
mapper returns a non-null update and whose store write is accepted, when the
service has a socket handle and its publish raises: `updateSingleMatch`
returns normally, the store afterwards is the store returned by the write
(`findOneAndUpdate` with the update document), which is also the store left
by the same sync with a publish that does not raise; one write was issued
and no notification is recorded. -/
theorem publish_failure_keeps_write (env : Env) (w : World) (d : Match) (u : JVal)
    (hm : mapperResult env d = some u) (ht : u.truthy = true)
    (hw : env.updateRejects d.matchId = false)
    (hio : env.notifier = true) (he : env.emitRaises (roomOf d.matchId) = true) :
    (updateSingleMatch env d w).1 = .ok () ∧
    (updateSingleMatch env d w).2.store =
      (findOneAndUpdate d.matchId (updateDocument env u) w.store).2 ∧
    (updateSingleMatch env d w).2.store =
      (updateSingleMatch { env with emitRaises := fun _ => false } d w).2.store ∧
    (updateSingleMatch env d w).2.storeWrites = w.storeWrites + 1 ∧
    (updateSingleMatch env d w).2.emitted = w.emitted := by
  have hdoc : syncDocument env d = some (updateDocument env u) := by
    simp [syncDocument, hm, ht, hw]
  have hdoc1 : syncDocument { env with emitRaises := fun _ => false } d =
      some (updateDocument env u) := hdoc
  refine ⟨updateSingleMatch_ok env d w, ?_, ?_, ?_, ?_⟩
  · rw [updateSingleMatch_store, hdoc]
  · rw [updateSingleMatch_store, updateSingleMatch_store, hdoc, hdoc1]
  · rw [updateSingleMatch_storeWrites, hm]
    simp [ht]
  · rw [updateSingleMatch_emitted, hdoc]
    simp [hio, he]

/-- Witness of C21: the sync of the scenario with a publish that raises; the
record of `evt123` is stored as finished at 2-1. -/
theorem publish_failure_keeps_write_witness :
    (∃ u, mapperResult publishFailsEnv sampleMatch = some u ∧ u.truthy = true) ∧
    publishFailsEnv.updateRejects sampleMatch.matchId = false ∧
    publishFailsEnv.notifier = true ∧
    publishFailsEnv.emitRaises (roomOf sampleMatch.matchId) = true ∧
    (updateSingleMatch publishFailsEnv sampleMatch sampleWorld).1 = .ok () ∧
    (updateSingleMatch publishFailsEnv sampleMatch sampleWorld).2.store =
      (updateSingleMatch sampleEnv sampleMatch sampleWorld).2.store ∧
    (updateSingleMatch publishFailsEnv sampleMatch sampleWorld).2.store.map
      (fun m => (m.matchId, m.status.isStr "finished")) =
        [("evt123", true), ("evt200", false)] :=
  have h := publish_failure_keeps_write publishFailsEnv sampleWorld sampleMatch _
    rfl rfl rfl rfl rfl
  ⟨⟨_, rfl, rfl⟩, rfl, rfl, rfl, h.1, h.2.2.1, rfl⟩

theorem syncDocument_notifier (env : Env) (b : Bool) (m : Match) :
    syncDocument { env with notifier := b } m = syncDocument env m := rfl

theorem storeStep_notifier (env : Env) (b : Bool) (m : Match) (s : List Match) :
    storeStep { env with notifier := b } m s = storeStep env m s := rfl

theorem fold_emitted_silent (env : Env) (hio : env.notifier = false) (ms : List Match) :
    ∀ w : World,
      (ms.foldl (fun acc m => (updateSingleMatch env m acc).2) w).emitted = w.emitted := by
  induction ms with
  | nil => intro w; rfl
  | cons m ms ih =>
    intro w
    simp only [List.foldl_cons]
    rw [ih, updateSingleMatch_emitted]
    cases syncDocument env m with
    | none => rfl
    | some fields => simp [hio]

theorem fold_storeWrites (env : Env) (ms : List Match) :
    ∀ w : World,
      (ms.foldl (fun acc m => (updateSingleMatch env m acc).2) w).storeWrites =
        ms.foldl (fun n m =>
          match mapperResult env m with
          | some u => if u.truthy then n + 1 else n
          | none => n) w.storeWrites := by
  induction ms with
  | nil => intro w; rfl
  | cons m ms ih =>
    intro w
    simp only [List.foldl_cons]
    rw [ih, updateSingleMatch_storeWrites]

/-- C28: a service constructed without a socket handle publishes nothing.  For
every state and every behaviour of the providers and the store,
`updateLiveScores` run by a service without a handle leaves the same store and
the same number of issued writes as the run by a service with a handle, and
publishes nothing: the published notifications are the ones before the run.
In the scenario the service with a handle publishes one notification and the
one without publishes none. -/
theorem no_handle_no_notification (env : Env) (w : World) :
    (updateLiveScores { env with notifier := false } w).2.store =
      (updateLiveScores { env with notifier := true } w).2.store ∧
    (updateLiveScores { env with notifier := false } w).2.storeWrites =
      (updateLiveScores { env with notifier := true } w).2.storeWrites ∧
    (updateLiveScores { env with notifier := false } w).2.emitted = w.emitted ∧
    (updateLiveScores { env with notifier := false } w).1 = .ok () ∧
    ((updateLiveScores sampleEnv sampleWorld).2.emitted.length = 1 ∧
      (updateLiveScores silentEnv sampleWorld).2.emitted.length = 0) := by
  refine ⟨?_, ?_, ?_, tryCatch_fst _, rfl, rfl⟩
  · rw [updateLiveScores_snd, updateLiveScores_snd]
    show (if env.findRejects then w else _).store = (if env.findRejects then w else _).store
    split
    · rfl
    · rw [fold_store, fold_store]
      rfl
  · rw [updateLiveScores_snd, updateLiveScores_snd]
    show (if env.findRejects then w else _).storeWrites =
      (if env.findRejects then w else _).storeWrites
    split
    · rfl
    · rw [fold_storeWrites, fold_storeWrites]
      rfl
  · rw [updateLiveScores_snd]
    show (if env.findRejects then w else _).emitted = w.emitted
    split
    · rfl
    · exact fold_emitted_silent _ rfl _ w

/-! ## Team objects of a sync update -/

/-- Every property of the object is named `name` or `score`. -/
theorem spread_team_keys (name : JVal) (sc : List (String × JVal)) (x : JVal)
    (h : spreadScore x = .ok sc) :
    ∀ k ∈ keysOf (obj (spreadName name ++ sc)), k = "name" ∨ k = "score" := by
  intro k hk
  simp only [keysOf, List.map_append, List.mem_append] at hk
  rcases hk with hk | hk
  · unfold spreadName at hk
    split at hk
    · simp only [List.map_cons, List.map_nil, List.mem_singleton] at hk
      exact Or.inl hk
    · cases hk
  · unfold spreadScore at h
    split at h
    · cases hp : parseInt x with
      | error e => rw [hp] at h; cases h
      | ok n =>
        rw [hp] at h
        cases h
        simp only [List.map_cons, List.map_nil, List.mem_singleton] at hk
        exact Or.inr hk
    · cases h
      cases hk

/-- The update of every mapper is an object literal whose two team objects
hold no property other than `name` and `score`. -/
theorem update_team_shape (env : Env) (m : Match) (u : JVal)
    (hm : mapperResult env m = some u) (ht : u.truthy = true) :
    ∃ h a st key l, (key = "liveData" ∨ key = "cricketData") ∧
      u = obj [("homeTeam", obj h), ("awayTeam", obj a), ("status", st), (key, l)] ∧
      (∀ k ∈ keysOf (obj h), k = "name" ∨ k = "score") ∧
      (∀ k ∈ keysOf (obj a), k = "name" ∨ k = "score") := by
  have two : ∀ x y : JVal, ∀ k ∈ keysOf (obj [("name", x), ("score", y)]),
      k = "name" ∨ k = "score" := by
    intro x y k hk
    simp only [keysOf, List.map_cons, List.map_nil, List.mem_cons, List.mem_singleton,
      List.not_mem_nil, or_false] at hk
    exact hk
  rcases mapperResult_supported env m u hm with hs | hs | hs | hs
  · obtain ⟨ev, -, hrec⟩ := snapshot_football env m u hs hm ht
    unfold footballRecord at hrec
    obtain ⟨hsv, h1, hrec⟩ := bind_eq_ok hrec
    obtain ⟨asv, h2, hrec⟩ := bind_eq_ok hrec
    obtain ⟨st, -, hrec⟩ := bind_eq_ok hrec
    obtain ⟨stats, -, hrec⟩ := bind_eq_ok hrec
    cases hrec
    exact ⟨_, _, st, "liveData", _, Or.inl rfl, rfl, spread_team_keys _ _ _ h1,
      spread_team_keys _ _ _ h2⟩
  · obtain ⟨md, -, hrec⟩ := snapshot_cricket env m u hs hm ht
    unfold cricketRecord at hrec
    obtain ⟨hn, -, hrec⟩ := bind_eq_ok hrec
    obtain ⟨an, -, hrec⟩ := bind_eq_ok hrec
    obtain ⟨st, -, hrec⟩ := bind_eq_ok hrec
    obtain ⟨hr, -, hrec⟩ := bind_eq_ok hrec
    obtain ⟨ar, -, hrec⟩ := bind_eq_ok hrec
    cases hrec
    exact ⟨_, _, st, "cricketData", _, Or.inr rfl, rfl, two _ _, two _ _⟩
  · obtain ⟨ev, -, hrec⟩ := snapshot_basketball env m u hs hm ht
    unfold basketballRecord at hrec
    obtain ⟨hp, -, hrec⟩ := bind_eq_ok hrec
    obtain ⟨ap, -, hrec⟩ := bind_eq_ok hrec
    obtain ⟨st, -, hrec⟩ := bind_eq_ok hrec
    obtain ⟨pd, -, hrec⟩ := bind_eq_ok hrec
    cases hrec
    exact ⟨_, _, st, "liveData", _, Or.inl rfl, rfl, two _ _, two _ _⟩
  · obtain ⟨ev, -, hrec⟩ := snapshot_tennis env m u hs hm ht
    unfold tennisRecord at hrec
    obtain ⟨st, -, hrec⟩ := bind_eq_ok hrec
    cases hrec
    exact ⟨_, _, st, "liveData", _, Or.inl rfl, rfl, two _ _, two _ _⟩

theorem hasOwn_of_keys (v : JVal) (k : String) (h : k ∉ keysOf v) : hasOwn v k = false := by
  cases v with
  | obj kvs =>
    simp only [hasOwn]
    have hnone : kvs.lookup k = none := by
      rw [List.lookup_eq_none_iff]
      intro p hp
      simp only [bne_iff_ne, ne_eq]
      intro hk
      apply h
      simp only [keysOf, List.mem_map]
      exact ⟨p, hp, hk.symm⟩
    rw [hnone]
    rfl
  | _ => rfl

/-- C26: team identity fields are not carried by a sync update.  For every
mapper and every snapshot giving a non-null update, the `homeTeam` and
`awayTeam` of the update are objects with no property other than `name` and
`score`, so neither has an `id` or a `logo`; and for a stored match (store
with distinct match ids, write accepted) the team objects of the record the
store holds after the sync have no property other than `name` and `score`:
the team's `id` and `logo` are lost. -/
theorem team_identity_not_carried (env : Env) (w : World) (i : Nat) (d : Match) (u : JVal)
    (hn : (matchIds w.store).Nodup) (hi : w.store[i]? = some d)
    (hm : mapperResult env d = some u) (ht : u.truthy = true)
    (hw : env.updateRejects d.matchId = false) :
    (∀ k ∈ keysOf (u.prop "homeTeam"), k = "name" ∨ k = "score") ∧
    (∀ k ∈ keysOf (u.prop "awayTeam"), k = "name" ∨ k = "score") ∧
    hasOwn (u.prop "homeTeam") "id" = false ∧ hasOwn (u.prop "homeTeam") "logo" = false ∧
    hasOwn (u.prop "awayTeam") "id" = false ∧ hasOwn (u.prop "awayTeam") "logo" = false ∧
    ∃ d1, (updateSingleMatch env d w).2.store[i]? = some d1 ∧
      (∀ k ∈ keysOf d1.homeTeam, k = "name" ∨ k = "score") ∧
      (∀ k ∈ keysOf d1.awayTeam, k = "name" ∨ k = "score") ∧
      hasOwn d1.homeTeam "id" = false ∧ hasOwn d1.homeTeam "logo" = false ∧
      hasOwn d1.awayTeam "id" = false ∧ hasOwn d1.awayTeam "logo" = false := by
  obtain ⟨h, a, st, key, l, hkey, rfl, hh, ha⟩ := update_team_shape env d u hm ht
  have e1 : (obj [("homeTeam", obj h), ("awayTeam", obj a), ("status", st), (key, l)]).prop
      "homeTeam" = obj h := rfl
  have e2 : (obj [("homeTeam", obj h), ("awayTeam", obj a), ("status", st), (key, l)]).prop
      "awayTeam" = obj a := rfl
  rw [e1, e2]
  have no : ∀ t : JVal, (∀ k ∈ keysOf t, k = "name" ∨ k = "score") →
      hasOwn t "id" = false ∧ hasOwn t "logo" = false := by
    intro t htk
    constructor
    · apply hasOwn_of_keys
      intro hk
      rcases htk _ hk with e | e <;> exact absurd e (by decide)
    · apply hasOwn_of_keys
      intro hk
      rcases htk _ hk with e | e <;> exact absurd e (by decide)
  refine ⟨hh, ha, (no _ hh).1, (no _ hh).2, (no _ ha).1, (no _ ha).2,
    syncRecord env d, updateSingleMatch_getElem env w i d hn hi, ?_⟩
  rw [syncRecord_of_update env d _ hm ht hw]
  rcases hkey with rfl | rfl
  · rw [applySet_liveData]
    exact ⟨hh, ha, (no _ hh).1, (no _ hh).2, (no _ ha).1, (no _ ha).2⟩
  · rw [applySet_cricketData]
    exact ⟨hh, ha, (no _ hh).1, (no _ hh).2, (no _ ha).1, (no _ ha).2⟩

/-- Witness of C26: the stored record of the scenario has the team id
`133604`; after the sync its home team has neither `id` nor `logo`. -/
theorem team_identity_not_carried_witness :
    (matchIds sampleWorld.store).Nodup ∧ sampleWorld.store[0]? = some sampleMatch ∧
    hasOwn sampleMatch.homeTeam "id" = true ∧
    (∃ u, mapperResult sampleEnv sampleMatch = some u ∧ u.truthy = true) ∧
    sampleEnv.updateRejects sampleMatch.matchId = false ∧
    ∃ d1, (updateSingleMatch sampleEnv sampleMatch sampleWorld).2.store[0]? = some d1 ∧
      (∀ k ∈ keysOf d1.homeTeam, k = "name" ∨ k = "score") ∧
      hasOwn d1.homeTeam "id" = false ∧ hasOwn d1.homeTeam "logo" = false := by
  obtain ⟨-, -, -, -, -, -, d1, h1, h2, -, h3, h4, -, -⟩ :=
    team_identity_not_carried sampleEnv sampleWorld 0 sampleMatch _ (by decide) rfl rfl rfl rfl
  exact ⟨by decide, rfl, rfl, ⟨_, rfl, rfl⟩, rfl, d1, h1, h2, h3, h4⟩

/-! ## Scheduled matches are left alone -/

theorem getElem?_append_of_some {α : Type} (s t : List α) (i : Nat) (x : α)
    (h : s[i]? = some x) : (s ++ t)[i]? = some x := by
  have hlt : i < s.length := by
    by_contra hge
    rw [List.getElem?_eq_none (Nat.le_of_not_lt hge)] at h
    cases h
  rw [List.getElem?_append_left hlt]
  exact h

theorem discovered_status (env : Env) (e : JVal) (sport : String) (s : List Match)
    (doc : Match) (h : discovered env e sport s = some doc) : doc.status = str "scheduled" := by
  unfold discovered at h
  cases h1 : e.get "idEvent" with
  | error err => rw [h1] at h; cases h
  | ok idEvent =>
    rw [h1] at h
    dsimp only at h
    cases h2 : castString idEvent with
    | error err => rw [h2] at h; cases h
    | ok idc =>
      rw [h2] at h
      cases idc with
      | none => cases h
      | some id =>
        dsimp only at h
        split at h
        · cases h
        · split at h
          · cases h
          · cases h3 : newMatch env e sport id with
            | error err => rw [h3] at h; cases h
            | ok doc1 =>
              rw [h3] at h
              dsimp only at h
              split at h
              · cases h
              · cases h
                obtain ⟨lg, ds, ts, t, -, -, -, -, -, -, hdoc⟩ :=
                  newMatch_shape env e sport id doc h3
                rw [hdoc]

/-- The store after a slow cycle is the store before, followed by records
with status `'scheduled'`. -/
theorem saveStore_extends (env : Env) (sport : String) (e : JVal) (s : List Match) :
    ∃ ext, saveStore env sport e s = s ++ ext ∧ ∀ x ∈ ext, x.status = str "scheduled" := by
  unfold saveStore
  refine ⟨_, rfl, ?_⟩
  intro x hx
  cases h : discovered env e sport s with
  | none => rw [h] at hx; cases hx
  | some doc =>
    rw [h] at hx
    simp only [Option.toList_some, List.mem_singleton] at hx
    rw [hx]
    exact discovered_status env e sport s doc h

theorem foldl_extends {α : Type} (f : α → List Match → List Match)
    (hf : ∀ a s, ∃ ext, f a s = s ++ ext ∧ ∀ x ∈ ext, x.status = str "scheduled") :
    ∀ (xs : List α) (s : List Match),
      ∃ ext, xs.foldl (fun acc a => f a acc) s = s ++ ext ∧
        ∀ x ∈ ext, x.status = str "scheduled" := by
  intro xs
  induction xs with
  | nil => intro s; exact ⟨[], by simp, fun x hx => by cases hx⟩
  | cons a xs ih =>
    intro s
    obtain ⟨e1, h1, hs1⟩ := hf a s
    obtain ⟨e2, h2, hs2⟩ := ih (f a s)
    refine ⟨e1 ++ e2, ?_, ?_⟩
    · simp only [List.foldl_cons]
      rw [h2, h1, List.append_assoc]
    · intro x hx
      rcases List.mem_append.mp hx with hx | hx
      · exact hs1 x hx
      · exact hs2 x hx

theorem fetchStore_extends (env : Env) (sport : String) (s : List Match) :
    ∃ ext, fetchStore env sport s = s ++ ext ∧ ∀ x ∈ ext, x.status = str "scheduled" := by
  unfold fetchStore
  cases eventsList env sport with
  | none => exact ⟨[], by simp, fun x hx => by cases hx⟩
  | some events => exact foldl_extends (saveStore env sport) (saveStore_extends env sport) events s

theorem cycleStore_extends (env : Env) (s : List Match) :
    ∃ ext, cycleStore env s = s ++ ext ∧ ∀ x ∈ ext, x.status = str "scheduled" :=
  foldl_extends (fetchStore env) (fetchStore_extends env) discoverySports s

theorem runCycle_keeps_scheduled (c : Cycle) (w : World) (i : Nat) (d : Match)
    (hn : (matchIds w.store).Nodup) (hi : w.store[i]? = some d)
    (hs : d.status = str "scheduled") : (runCycle w c).store[i]? = some d := by
  cases c with
  | fast env =>
    show (updateLiveScores env w).2.store[i]? = some d
    cases hf : env.findRejects with
    | true =>
      rw [updateLiveScores_snd, hf]
      exact hi
    | false =>
      rw [updateLiveScores_store env w hn hf, List.getElem?_map, hi, Option.map_some', hs]
      rfl
  | slow env =>
    show (updateUpcomingMatches env w).2.store[i]? = some d
    rw [updateUpcomingMatches_store]
    obtain ⟨ext, he, -⟩ := cycleStore_extends env w.store
    rw [he]
    exact getElem?_append_of_some _ _ i d hi

theorem runCycles_nodup (cycles : List Cycle) :
    ∀ w : World, (matchIds w.store).Nodup → (matchIds (runCycles cycles w).store).Nodup := by
  induction cycles with
  | nil => intro w hn; exact hn
  | cons c cs ih =>
    intro w hn
    exact ih (runCycle w c) (runCycle_nodup c w hn)

theorem runCycles_keeps_scheduled (cycles : List Cycle) :
    ∀ (w : World) (i : Nat) (d : Match), (matchIds w.store).Nodup → w.store[i]? = some d →
      d.status = str "scheduled" → (runCycles cycles w).store[i]? = some d := by
  induction cycles with
  | nil => intro w i d _ hi _; exact hi
  | cons c cs ih =>
    intro w i d hn hi hs
    exact ih (runCycle w c) i d (runCycle_nodup c w hn)
      (runCycle_keeps_scheduled c w i d hn hi hs) hs

/-- C25: no operation of the service makes a scheduled match live.  For a
store with distinct match ids and every sequence of fast cycles
(`updateLiveScores`) and slow cycles (`updateUpcomingMatches`), each under an
arbitrary environment: a record whose status is `'scheduled'` at some point of
the run is still there, unchanged in every path, after every number of
further cycles; and every record a slow cycle adds to the store has status
`'scheduled'`, so this covers every match created by discovery. -/
theorem scheduled_never_modified (before after : List Cycle) (w : World) (i : Nat) (d : Match)
    (hn : (matchIds w.store).Nodup) (hi : (runCycles before w).store[i]? = some d)
    (hs : d.status = str "scheduled") :
    (runCycles after (runCycles before w)).store[i]? = some d ∧
    ∀ (env : Env) (j : Nat) (d1 : Match),
      (runCycles before w).store.length ≤ j →
      (runCycle (runCycles before w) (.slow env)).store[j]? = some d1 →
      d1.status = str "scheduled" := by
  constructor
  · exact runCycles_keeps_scheduled after (runCycles before w) i d
      (runCycles_nodup before w hn) hi hs
  · intro env j d1 hj hd
    have hst : (runCycle (runCycles before w) (.slow env)).store =
        cycleStore env (runCycles before w).store := updateUpcomingMatches_store env _
    rw [hst] at hd
    obtain ⟨ext, he, hall⟩ := cycleStore_extends env (runCycles before w).store
    rw [he, List.getElem?_append_right hj] at hd
    exact hall d1 (List.getElem?_mem hd)

/-- Witness of C25: the scheduled record `evt200` of the scenario through a
fast cycle, a slow cycle and another fast cycle. -/
theorem scheduled_never_modified_witness :
    (matchIds sampleWorld.store).Nodup ∧
    (runCycles [] sampleWorld).store[1]? = some scheduledMatch ∧
    scheduledMatch.status = str "scheduled" ∧
    (runCycles [.fast sampleEnv, .slow sampleEnv, .fast sampleEnv]
      (runCycles [] sampleWorld)).store[1]? = some scheduledMatch :=
  ⟨by decide, rfl, rfl,
   (scheduled_never_modified [] [.fast sampleEnv, .slow sampleEnv, .fast sampleEnv]
      sampleWorld 1 scheduledMatch (by decide) rfl rfl).1⟩

/-! ## The events text -/

theorem splitChars_cons_sep (sep : Char) (cs : List Char) :
    splitChars sep (sep :: cs) = [] :: splitChars sep cs := by
  simp [splitChars]

theorem splitChars_ne_nil (sep : Char) (cs : List Char) : splitChars sep cs ≠ [] := by
  cases cs with
  | nil => simp [splitChars]
  | cons c cs =>
    unfold splitChars
    split
    · simp
    · split <;> simp

theorem splitChars_cons_other (sep c : Char) (cs : List Char) (h : c ≠ sep) :
    ∃ hd tl, splitChars sep cs = hd :: tl ∧ splitChars sep (c :: cs) = (c :: hd) :: tl := by
  cases hs : splitChars sep cs with
  | nil => exact absurd hs (splitChars_ne_nil sep cs)
  | cons hd tl =>
    refine ⟨hd, tl, rfl, ?_⟩
    have hb : (c == sep) = false := by simp [h]
    rw [splitChars]
    simp only [hb, Bool.false_eq_true, if_false, hs]

/-- The pieces of a split hold no separator, are one more than the separators
of the text, and joined by the separator give the text back. -/
theorem splitChars_spec (sep : Char) (cs : List Char) :
    (∀ seg ∈ splitChars sep cs, sep ∉ seg) ∧
    (splitChars sep cs).length = cs.count sep + 1 ∧
    joinWith sep (splitChars sep cs) = cs := by
  induction cs with
  | nil =>
    refine ⟨?_, rfl, rfl⟩
    intro seg hseg
    simp only [splitChars, List.mem_singleton] at hseg
    rw [hseg]
    simp
  | cons c cs ih =>
    obtain ⟨ih1, ih2, ih3⟩ := ih
    by_cases h : c = sep
    · subst h
      rw [splitChars_cons_sep]
      refine ⟨?_, ?_, ?_⟩
      · intro seg hseg
        rcases List.mem_cons.mp hseg with e | e
        · rw [e]; simp
        · exact ih1 seg e
      · simp [ih2]
      · cases hs : splitChars c cs with
        | nil => exact absurd hs (splitChars_ne_nil c cs)
        | cons hd tl =>
          rw [hs] at ih3
          simp only [joinWith, List.nil_append, ih3]
    · obtain ⟨hd, tl, hs, hs1⟩ := splitChars_cons_other sep c cs h
      rw [hs1]
      rw [hs] at ih1 ih2 ih3
      refine ⟨?_, ?_, ?_⟩
      · intro seg hseg
        rcases List.mem_cons.mp hseg with e | e
        · rw [e]
          intro hmem
          rcases List.mem_cons.mp hmem with e1 | e1
          · exact h e1.symm
          · exact ih1 hd (List.mem_cons_self _ _) e1
        · exact ih1 seg (List.mem_cons_of_mem _ e)
      · rw [List.count_cons_of_ne (fun e => h e.symm)]
        simpa using ih2
      · cases tl with
        | nil =>
          simp only [joinWith] at ih3 ⊢
          rw [ih3]
        | cons t1 ts =>
          simp only [joinWith, List.cons_append] at ih3 ⊢
          rw [ih3]

/-- The first piece of a split is the text before the first separator. -/
theorem splitChars_head (sep : Char) (cs : List Char) :
    (splitChars sep cs).headD [] = cs.takeWhile (fun c => c != sep) := by
  induction cs with
  | nil => rfl
  | cons c cs ih =>
    by_cases h : c = sep
    · subst h
      rw [splitChars_cons_sep]
      simp
    · obtain ⟨hd, tl, hs, hs1⟩ := splitChars_cons_other sep c cs h
      rw [hs1]
      rw [hs] at ih
      have hb : (c != sep) = true := by simp [h]
      simp only [List.headD_cons, List.takeWhile_cons, hb, if_true] at ih ⊢
      rw [ih]

/-- The pieces after the first are the pieces of the text after the first
separator; there are none when the text has no separator. -/
theorem splitChars_tail (sep : Char) (cs : List Char) :
    (splitChars sep cs).tail =
      if sep ∈ cs then splitChars sep ((cs.dropWhile (fun c => c != sep)).drop 1) else [] := by
  induction cs with
  | nil => rfl
  | cons c cs ih =>
    by_cases h : c = sep
    · subst h
      rw [splitChars_cons_sep]
      simp
    · obtain ⟨hd, tl, hs, hs1⟩ := splitChars_cons_other sep c cs h
      rw [hs1]
      rw [hs] at ih
      have hb : (c != sep) = true := by simp [h]
      have hmem : (sep ∈ c :: cs) = (sep ∈ cs) := by
        have hne : ¬ sep = c := fun e => h e.symm
        simp only [List.mem_cons, hne, false_or]
      simp only [List.tail_cons, List.dropWhile_cons, hb, if_true, hmem] at ih ⊢
      exact ih

theorem str_or_empty (s : String) : (str s).or (str "") = str s := by
  unfold JVal.or
  split
  · rfl
  · rename_i h
    simp only [truthy, bne_iff_ne, ne_eq, not_not] at h
    rw [h]

/-- The entry the service builds for a segment is the event of the
specification. -/
theorem parseEvent_eq (segment : List Char) : parseEvent segment = eventOfSegment segment := by
  unfold parseEvent eventOfSegment beforeColon betweenColons
  dsimp only
  rw [splitChars_head, splitChars_tail]
  by_cases h : ':' ∈ segment
  · rw [if_pos h]
    cases hs : splitChars ':' ((segment.dropWhile (fun c => c != ':')).drop 1) with
    | nil => exact absurd hs (splitChars_ne_nil _ _)
    | cons p ps =>
      have hh := splitChars_head ':' ((segment.dropWhile (fun c => c != ':')).drop 1)
      rw [hs] at hh
      simp only [List.headD_cons] at hh
      simp only [List.head?_cons, str_or_empty, hh]
  · rw [if_neg h]
    have hd : segment.dropWhile (fun c => c != ':') = [] := by
      rw [List.dropWhile_eq_nil_iff]
      intro c hc
      have : c ≠ ':' := fun e => h (e ▸ hc)
      simp [this]
    rw [hd]
    rfl

/-- C23: `parseEvents`.  For a missing (`undefined`, `null`) or empty events
string the result is the empty list.  For a non-empty string the result has
exactly one event per `;`-separated segment, in order: the segments hold no
`;`, joined by `;` they give the string back, their number is the number of
`;` plus one, and the event of a segment has `time` = the text before its
first `:`, `description` = the text between its first and second `:` (empty
when there is no `:`) and `type` = `'event'`; text after a second `:` is in
neither. -/
theorem parseEvents_spec :
    parseEvents undefined = arr [] ∧ parseEvents null = arr [] ∧
    parseEvents (str "") = arr [] ∧
    (∀ s : String, s ≠ "" →
      ∃ segments : List (List Char),
        (∀ seg ∈ segments, ';' ∉ seg) ∧
        joinWith ';' segments = s.data ∧
        segments.length = s.data.count ';' + 1 ∧
        parseEvents (str s) = arr (segments.map eventOfSegment)) ∧
    parseEvents (str "12:Goal:Saka;45:Yellow card;90") =
      arr [obj [("time", str "12"), ("description", str "Goal"), ("type", str "event")],
           obj [("time", str "45"), ("description", str "Yellow card"), ("type", str "event")],
           obj [("time", str "90"), ("description", str ""), ("type", str "event")]] := by
  refine ⟨rfl, rfl, rfl, ?_, ?_⟩
  · intro s hs
    obtain ⟨h1, h2, h3⟩ := splitChars_spec ';' s.data
    refine ⟨splitChars ';' s.data, h1, h3, h2, ?_⟩
    have ht : (str s).truthy = true := by simp [truthy, hs]
    unfold parseEvents
    simp only [ht, Bool.not_true, Bool.false_eq_true, if_false]
    congr 1
    exact List.map_congr_left (fun seg _ => parseEvent_eq seg)
  · rfl

/-! ## Football statistics -/

/-- C27 (as amended): football statistics.  For every football event object
whose `intHomeShots` and `intAwayShots` can be parsed (`parseInt` does not
raise on them: every string, number, `null` or missing value), `parseStats`
returns `possession.home` = `shots.home` and `possession.away` =
`shots.away`, all four computed from `intHomeShots` and `intAwayShots` alone:
each is an integral Number or an infinity, 0 when the shot count is missing
or `parseInt` gives NaN, and the number denoted when it is a text of decimal
digits denoting a number below `2^53`.  No other field of the event enters
the result. -/
theorem parseStats_possession_is_shots (kvs : List (String × JVal)) (hv av : JVal)
    (hh : parseInt ((obj kvs).prop "intHomeShots") = .ok hv)
    (ha : parseInt ((obj kvs).prop "intAwayShots") = .ok av) :
    parseStats (obj kvs) = .ok (obj [
      ("possession", obj [("home", hv.or (num 0)), ("away", av.or (num 0))]),
      ("shots", obj [("home", hv.or (num 0)), ("away", av.or (num 0))])]) ∧
    ((∃ h : Int, hv.or (num 0) = num h) ∨ ∃ b : Bool, hv.or (num 0) = inf b) ∧
    ((∃ a : Int, av.or (num 0) = num a) ∨ ∃ b : Bool, av.or (num 0) = inf b) ∧
    (((obj kvs).prop "intHomeShots").nullish = true → hv.or (num 0) = num 0) ∧
    (((obj kvs).prop "intAwayShots").nullish = true → av.or (num 0) = num 0) ∧
    (hv = nan → hv.or (num 0) = num 0) ∧
    (av = nan → av.or (num 0) = num 0) ∧
    (∀ s, IsSafeDigits s → (obj kvs).prop "intHomeShots" = str s →
      hv.or (num 0) = num (decimalValue s.data)) ∧
    (∀ s, IsSafeDigits s → (obj kvs).prop "intAwayShots" = str s →
      av.or (num 0) = num (decimalValue s.data)) := by
  have e1 : (obj kvs).get "intHomeShots" = .ok ((obj kvs).prop "intHomeShots") := rfl
  have e2 : (obj kvs).get "intAwayShots" = .ok ((obj kvs).prop "intAwayShots") := rfl
  refine ⟨?_, parsed_or_zero _ _ hh, parsed_or_zero _ _ ha, ?_, ?_, ?_, ?_, ?_, ?_⟩
  · unfold parseStats
    simp only [e1, e2, bind, Except.bind, hh, ha]
    rfl
  · intro hx
    rw [parseInt_nullish _ hx] at hh
    cases hh
    rfl
  · intro hx
    rw [parseInt_nullish _ hx] at ha
    cases ha
    rfl
  · intro e; rw [e]; rfl
  · intro e; rw [e]; rfl
  · intro s hd hx
    rw [hx, parseInt_of_digits s hd] at hh
    cases hh
    exact num_or_zero _
  · intro s hd hx
    rw [hx, parseInt_of_digits s hd] at ha
    cases ha
    exact num_or_zero _

/-- Witness of C27: an event with seven home shots, no away shot count and
possession fields 61 and 39: possession and shots are both 7 and 0. -/
theorem parseStats_possession_is_shots_witness :
    parseInt ((obj shotsEvent).prop "intHomeShots") = .ok (num 7) ∧
    parseInt ((obj shotsEvent).prop "intAwayShots") = .ok nan ∧
    parseStats (obj shotsEvent) = .ok (obj [
      ("possession", obj [("home", num 7), ("away", num 0)]),
      ("shots", obj [("home", num 7), ("away", num 0)])]) :=
  ⟨rfl, rfl, (parseStats_possession_is_shots shotsEvent (num 7) nan rfl rfl).1⟩

/-- C27 (counterexample): for the event whose `intHomeShots` is an object with
an own `toString` property that is not a function, `parseInt` raises a
TypeError and `parseStats` returns nothing. -/
theorem parseStats_possession_is_shots_counterexample :
    malformedShotsEvent.prop "intHomeShots" = obj [("toString", num 1)] ∧
    parseStats malformedShotsEvent = .error .typeError :=
  ⟨rfl, rfl⟩

/-! ## Run rate -/

theorem truthy_get (v : JVal) (k : String) (h : v.truthy = true) :
    v.get k = .ok (v.prop k) := by
  cases v <;> first | rfl | cases h

/-- The guard of `calculateRunRate` is a truthiness test.  When the score
object, its runs `r` or its overs `o` is falsy (missing, `null`, the number
0, `NaN`, the empty string) the result is the number 0; otherwise, when `r`
and `o` have a numeric conversion, the result is the text of
`(r / o).toFixed(2)`, which the model does not compute
(`Env.toFixed2`). -/
theorem calculateRunRate_guard (env : Env) (scoreData : JVal) :
    (scoreData.truthy = false → calculateRunRate env scoreData = .ok (num 0)) ∧
    ((scoreData.prop "r").truthy = false → calculateRunRate env scoreData = .ok (num 0)) ∧
    ((scoreData.prop "o").truthy = false → calculateRunRate env scoreData = .ok (num 0)) ∧
    (scoreData.truthy = true → (scoreData.prop "r").truthy = true →
      (scoreData.prop "o").truthy = true →
      ∀ rs os, (scoreData.prop "r").toStr = .ok rs → (scoreData.prop "o").toStr = .ok os →
        calculateRunRate env scoreData =
          .ok (str (env.toFixed2 (scoreData.prop "r") (scoreData.prop "o")))) ∧
    (∀ t, calculateRunRate env scoreData = .ok (str t) →
      (scoreData.prop "o").truthy = true ∧ scoreData.prop "o" ≠ num 0 ∧
      t = env.toFixed2 (scoreData.prop "r") (scoreData.prop "o")) ∧
    (calculateRunRate env (obj [("r", num 250), ("w", num 6), ("o", num 50)]) =
        .ok (str (env.toFixed2 (num 250) (num 50))) ∧
      calculateRunRate env (obj [("r", num 250), ("w", num 6), ("o", num 0)]) = .ok (num 0) ∧
      calculateRunRate env (obj [("w", num 6), ("o", num 50)]) = .ok (num 0) ∧
      calculateRunRate env undefined = .ok (num 0)) := by
  have key : calculateRunRate env scoreData =
      if !scoreData.truthy then .ok (num 0)
      else if !(scoreData.prop "r").truthy then .ok (num 0)
      else if !(scoreData.prop "o").truthy then .ok (num 0)
      else match (scoreData.prop "r").toStr, (scoreData.prop "o").toStr with
        | .ok _, .ok _ => .ok (str (env.toFixed2 (scoreData.prop "r") (scoreData.prop "o")))
        | .error e, _ => .error e
        | .ok _, .error e => .error e := by
    unfold calculateRunRate
    cases ht : scoreData.truthy with
    | false => rfl
    | true =>
      simp only [Bool.not_true, Bool.false_eq_true, if_false, truthy_get scoreData _ ht, bind,
        Except.bind, pure, Except.pure]
      cases hr : (scoreData.prop "r").truthy with
      | false => rfl
      | true =>
        simp only [Bool.not_true, Bool.false_eq_true, if_false]
        cases ho : (scoreData.prop "o").truthy with
        | false => rfl
        | true =>
          simp only [Bool.not_true, Bool.false_eq_true, if_false]
          cases (scoreData.prop "r").toStr with
          | error e => rfl
          | ok rs =>
            cases (scoreData.prop "o").toStr with
            | error e => rfl
            | ok os => rfl
  refine ⟨?_, ?_, ?_, ?_, ?_, ⟨rfl, rfl, rfl, rfl⟩⟩
  · intro h
    rw [key, h]
    rfl
  · intro h
    rw [key, h]
    cases scoreData.truthy <;> rfl
  · intro h
    rw [key, h]
    cases scoreData.truthy <;> cases (scoreData.prop "r").truthy <;> rfl
  · intro h1 h2 h3 rs os hrs hos
    rw [key, h1, h2, h3, hrs, hos]
    rfl
  · intro t ht
    rw [key] at ht
    cases h1 : scoreData.truthy with
    | false => rw [h1] at ht; cases ht
    | true =>
      cases h2 : (scoreData.prop "r").truthy with
      | false => rw [h1, h2] at ht; cases ht
      | true =>
        cases h3 : (scoreData.prop "o").truthy with
        | false => rw [h1, h2, h3] at ht; cases ht
        | true =>
          rw [h1, h2, h3] at ht
          simp only [Bool.not_true, Bool.false_eq_true, if_false] at ht
          refine ⟨rfl, ?_, ?_⟩
          · intro e
            rw [e] at h3
            cases h3
          · cases hrs : (scoreData.prop "r").toStr with
            | error e => rw [hrs] at ht; cases ht
            | ok rs =>
              cases hos : (scoreData.prop "o").toStr with
              | error e => rw [hrs, hos] at ht; cases ht
              | ok os =>
                rw [hrs, hos] at ht
                cases ht
                rfl

/-- C24 (evaluation at the failing input): for the score entry with runs 10
and overs `"0"`, a non-empty string and so truthy, whose numeric value is 0,
the guard `!scoreData.o` does not apply, whatever the environment: the result
is not the number 0 but the text of the division `10 / "0"`.  For the overs
given as the number 0 the guard applies and the result is 0. -/
theorem calculateRunRate_zero_text_overs (env : Env) :
    zeroOversScore.prop "r" = num 10 ∧ zeroOversScore.prop "o" = str "0" ∧
    (str "0").truthy = true ∧ parseInt (str "0") = .ok (num 0) ∧
    calculateRunRate env zeroOversScore = .ok (str (env.toFixed2 (num 10) (str "0"))) ∧
    calculateRunRate env zeroOversScore ≠ .ok (num 0) ∧
    calculateRunRate env (obj [("r", num 10), ("w", num 1), ("o", num 0)]) = .ok (num 0) := by
  refine ⟨rfl, rfl, rfl, rfl, rfl, ?_, rfl⟩
  intro h
  have e : calculateRunRate env zeroOversScore =
      .ok (str (env.toFixed2 (num 10) (str "0"))) := rfl
  rw [e] at h
  cases h

/-! ## Length of the text handed to the speech service -/

/-- The cleaning steps on a short text with a tag, markdown, a line break and
a URL. -/
theorem cleanTextForTTS_sample :
    cleanTextForTTS "<p>Read  *more*\n at https://x.io/a now</p> " = "Read more at  now" := by
  decide

theorem removeTagsFrom_letters (n : Nat) :
    removeTagsFrom (List.replicate n 'a') none = List.replicate n 'a' := by
  induction n with
  | zero => rfl
  | succ n ih =>
    rw [List.replicate_succ, removeTagsFrom]
    have hb : ('a' == '<') = false := by decide
    simp only [hb, Bool.false_eq_true, if_false, ih]

theorem filter_letters (n : Nat) :
    (List.replicate n 'a').filter (fun c => !isMarkdownChar c) = List.replicate n 'a' := by
  induction n with
  | zero => rfl
  | succ n ih =>
    rw [List.replicate_succ, List.filter_cons]
    have hb : (!isMarkdownChar 'a') = true := by decide
    simp only [hb, if_true, ih]

theorem collapseSpacesFrom_letters (n : Nat) (b : Bool) :
    collapseSpacesFrom (List.replicate n 'a') b = List.replicate n 'a' := by
  induction n generalizing b with
  | zero => rfl
  | succ n ih =>
    rw [List.replicate_succ, collapseSpacesFrom]
    have hb : isJsSpace 'a' = false := by decide
    simp only [hb, Bool.false_eq_true, if_false, ih]

theorem removeUrlsFrom_letters (n : Nat) :
    removeUrlsFrom (List.replicate n 'a') false = List.replicate n 'a' := by
  induction n with
  | zero => rfl
  | succ n ih =>
    rw [List.replicate_succ, removeUrlsFrom]
    have hb : urlStartsAt ('a' :: List.replicate n 'a') = false := by
      simp [urlStartsAt, List.isPrefixOf]
    simp only [hb, Bool.false_eq_true, if_false, ih]

theorem limitLength_letters :
    limitLength (List.replicate 5001 'a') = List.replicate 5000 'a' ++ ['.', '.', '.'] := by
  unfold limitLength
  have hlen : (List.replicate 5001 'a').length > 5000 := by
    rw [List.length_replicate]
    omega
  rw [if_pos hlen, List.take_replicate]
  have hmin : min 5000 5001 = 5000 := by omega
  rw [hmin]

theorem trimChars_letters (n : Nat) :
    trimChars (List.replicate (n + 1) 'a' ++ ['.', '.', '.']) =
      List.replicate (n + 1) 'a' ++ ['.', '.', '.'] := by
  unfold trimChars
  have h1 : (List.replicate (n + 1) 'a' ++ ['.', '.', '.']).dropWhile isJsSpace =
      List.replicate (n + 1) 'a' ++ ['.', '.', '.'] := by
    rw [List.replicate_succ, List.cons_append, List.dropWhile_cons]
    have hb : isJsSpace 'a' = false := by decide
    simp only [hb, Bool.false_eq_true, if_false]
  rw [h1]
  have h2 : (List.replicate (n + 1) 'a' ++ ['.', '.', '.']).reverse =
      '.' :: ('.' :: '.' :: (List.replicate (n + 1) 'a').reverse) := by
    simp
  rw [h2, List.dropWhile_cons]
  have hb : isJsSpace '.' = false := by decide
  simp only [hb, Bool.false_eq_true, if_false]
  rw [← h2, List.reverse_reverse]

/-- C22 (evaluation at the failing input): for a text of 5001 letters
`cleanTextForTTS` returns the first 5000 letters followed by `...`, a text of
5003 characters. -/
theorem cleanTextForTTS_exceeds_limit :
    longText.length = 5001 ∧
    cleanTextForTTS longText = String.mk (List.replicate 5000 'a' ++ ['.', '.', '.']) ∧
    (cleanTextForTTS longText).length = 5003 := by
  have h : cleanTextForTTS longText =
      String.mk (List.replicate 5000 'a' ++ ['.', '.', '.']) := by
    unfold cleanTextForTTS longText
    simp only [removeTagsFrom_letters, filter_letters, collapseSpacesFrom_letters,
      removeUrlsFrom_letters, limitLength_letters]
    rw [trimChars_letters 4999]
  refine ⟨?_, h, ?_⟩
  · show (List.replicate 5001 'a').length = 5001
    exact List.length_replicate _ _
  · rw [h]
    show (List.replicate 5000 'a' ++ ['.', '.', '.']).length = 5003
    rw [List.length_append, List.length_replicate]
    rfl

theorem trimChars_length_le (cs : List Char) : (trimChars cs).length ≤ cs.length := by
  unfold trimChars
  rw [List.length_reverse]
  calc ((cs.dropWhile isJsSpace).reverse.dropWhile isJsSpace).length
      ≤ (cs.dropWhile isJsSpace).reverse.length := (List.dropWhile_sublist _).length_le
    _ = (cs.dropWhile isJsSpace).length := List.length_reverse _
    _ ≤ cs.length := (List.dropWhile_sublist _).length_le

theorem limitLength_length_le (cs : List Char) : (limitLength cs).length ≤ 5003 := by
  unfold limitLength
  split
  · simp only [List.length_append, List.length_take, List.length_cons, List.length_nil]
    omega
  · omega

/-- What the code guarantees: the result never has more than 5003
characters. -/
theorem cleanTextForTTS_length_le (text : String) : (cleanTextForTTS text).length ≤ 5003 := by
  unfold cleanTextForTTS
  show (trimChars _).length ≤ 5003
  exact le_trans (trimChars_length_le _) (limitLength_length_le _)

/-! ## Slugs -/

theorem isSlugChar_ne_hyphen (c : Char) (h : isSlugChar c = true) : c ≠ '-' := by
  intro e
  rw [e] at h
  exact absurd h (by decide)

theorem hyphenate_mem (l : List Char) :
    ∀ b : Bool, ∀ c ∈ hyphenate l b, isSlugChar c = true ∨ c = '-' := by
  induction l with
  | nil => intro b c hc; cases hc
  | cons x xs ih =>
    intro b c hc
    unfold hyphenate at hc
    split at hc
    · rename_i hx
      rcases List.mem_cons.mp hc with e | e
      · left; rw [e]; exact hx
      · exact ih false c e
    · split at hc
      · exact ih true c hc
      · rcases List.mem_cons.mp hc with e | e
        · right; exact e
        · exact ih true c e

theorem hyphenate_chain (l : List Char) :
    ∀ b : Bool, (hyphenate l b).Chain' (fun a b => ¬ (a = '-' ∧ b = '-')) ∧
      (b = true → (hyphenate l b).head? ≠ some '-') := by
  induction l with
  | nil =>
    intro b
    exact ⟨List.chain'_nil, fun _ h => by cases h⟩
  | cons x xs ih =>
    intro b
    unfold hyphenate
    split
    · rename_i hx
      have hne := isSlugChar_ne_hyphen x hx
      refine ⟨?_, ?_⟩
      · rw [List.chain'_cons']
        exact ⟨fun y _ h => hne h.1, (ih false).1⟩
      · intro _ h
        simp only [List.head?_cons, Option.some.injEq] at h
        exact hne h
    · split
      · rename_i hb
        exact ⟨(ih true).1, fun _ => (ih true).2 rfl⟩
      · rename_i hb
        refine ⟨?_, fun e => absurd e hb⟩
        rw [List.chain'_cons']
        refine ⟨?_, (ih true).1⟩
        intro y hy h
        apply (ih true).2 rfl
        rw [Option.mem_def] at hy
        rw [hy, h.2]

/-- Removing the hyphens at both ends of a text without two hyphens in a row
gives a text of the shape of a slug. -/
theorem stripHyphens_isSlug (s : List Char)
    (hmem : ∀ c ∈ s, isSlugChar c = true ∨ c = '-')
    (hch : s.Chain' (fun a b => ¬ (a = '-' ∧ b = '-'))) : IsSlug (stripHyphens s) := by
  unfold stripHyphens
  have hpre := List.rdropWhile_prefix (fun c => c == '-') (s.dropWhile (fun c => c == '-'))
  have hsuf := List.dropWhile_suffix (l := s) (fun c => c == '-')
  refine ⟨?_, ?_, ?_, ?_⟩
  · intro c hc
    exact hmem c (hsuf.mem (hpre.mem hc))
  · intro h
    have hne : (s.dropWhile (fun c => c == '-')).rdropWhile (fun c => c == '-') ≠ [] := by
      intro e
      rw [e] at h
      cases h
    have hne1 : s.dropWhile (fun c => c == '-') ≠ [] := by
      intro e
      rw [e] at hne
      exact hne (List.rdropWhile_nil _)
    have hh := hpre.head hne
    have h1 := List.head_dropWhile_not (fun c => c == '-') s hne1
    rw [List.head?_eq_head hne, Option.some.injEq] at h
    rw [← hh, h] at h1
    exact absurd h1 (by decide)
  · intro h
    have hne : (s.dropWhile (fun c => c == '-')).rdropWhile (fun c => c == '-') ≠ [] := by
      intro e
      rw [e] at h
      cases h
    have hl := List.rdropWhile_last_not (fun c => c == '-') (s.dropWhile (fun c => c == '-')) hne
    rw [List.getLast?_eq_getLast _ hne, Option.some.injEq] at h
    rw [h] at hl
    exact hl (by decide)
  · exact List.Chain'.prefix (List.Chain'.suffix hch hsuf) hpre

theorem asciiLower_fixed (c : Char) (h : isSlugChar c = true ∨ c = '-') :
    c.toNat < 128 ∧ asciiLower c = c := by
  rcases h with h | h
  · simp only [isSlugChar, Bool.or_eq_true, Bool.and_eq_true, decide_eq_true_eq] at h
    refine ⟨by omega, ?_⟩
    unfold asciiLower
    rw [if_neg (by omega)]
  · rw [h]
    exact ⟨by decide, by decide⟩

theorem toLowerCase_fixed (other : List Char → List Char) (s : List Char)
    (hmem : ∀ c ∈ s, isSlugChar c = true ∨ c = '-') : toLowerCase other s = s := by
  unfold toLowerCase
  have hall : s.all (fun c => decide (c.toNat < 128)) = true := by
    rw [List.all_eq_true]
    intro c hc
    exact decide_eq_true (asciiLower_fixed c (hmem c hc)).1
  rw [if_pos hall]
  calc s.map asciiLower = s.map id :=
        List.map_congr_left (fun c hc => (asciiLower_fixed c (hmem c hc)).2)
    _ = s := List.map_id s

theorem hyphenate_fixed (s : List Char) :
    ∀ b : Bool, (∀ c ∈ s, isSlugChar c = true ∨ c = '-') →
      s.Chain' (fun a b => ¬ (a = '-' ∧ b = '-')) →
      (b = true → s.head? ≠ some '-') → hyphenate s b = s := by
  induction s with
  | nil => intro b _ _ _; rfl
  | cons x xs ih =>
    intro b hmem hch hhead
    have hmem1 : ∀ c ∈ xs, isSlugChar c = true ∨ c = '-' :=
      fun c hc => hmem c (List.mem_cons_of_mem _ hc)
    rw [List.chain'_cons'] at hch
    unfold hyphenate
    rcases hmem x (List.mem_cons_self _ _) with hx | hx
    · rw [if_pos hx, ih false hmem1 hch.2 (fun e => by cases e)]
    · have hns : ¬ isSlugChar x = true := by
        rw [hx]
        decide
      have hb : b = false := by
        cases b with
        | false => rfl
        | true =>
          exfalso
          apply hhead rfl
          rw [hx]
          rfl
      have hnext : xs.head? ≠ some '-' := by
        intro e
        exact hch.1 '-' (by rw [Option.mem_def]; exact e) ⟨hx, rfl⟩
      rw [if_neg hns, hb, if_neg (by decide), ih true hmem1 hch.2 (fun _ => hnext), hx]

theorem stripHyphens_fixed (s : List Char) (hhead : s.head? ≠ some '-')
    (hlast : s.getLast? ≠ some '-') : stripHyphens s = s := by
  unfold stripHyphens
  have h1 : s.dropWhile (fun c => c == '-') = s := by
    cases s with
    | nil => rfl
    | cons x xs =>
      have hx : x ≠ '-' := by
        intro e
        apply hhead
        rw [e]
        rfl
      have hb : (x == '-') = false := by simp [hx]
      rw [List.dropWhile_cons, hb]
      rfl
  rw [h1, List.rdropWhile_eq_self_iff]
  intro hl hp
  apply hlast
  rw [List.getLast?_eq_getLast _ hl]
  simp only [beq_iff_eq] at hp
  rw [hp]

/-- C29: slug generation.  For every title, the slug computed by the pre-save
hook of the Article schema and by `generateFileName` is empty or made of
characters `a`-`z`, `0`-`9` and hyphens, with no hyphen at the start, none at
the end and no two hyphens in a row; and the same transformation applied to a
slug returns it unchanged. -/
theorem slug_shape (other : List Char → List Char) (title old : String) (timestamp : Nat) :
    IsSlug (slugify other title.data) ∧
    slugify other (slugify other title.data) = slugify other title.data ∧
    preSaveSlug other true title old = String.mk (slugify other title.data) ∧
    generateFileName other timestamp title =
      String.mk (slugify other title.data) ++ "-" ++ toString timestamp ++ ".mp3" ∧
    slugify other "  Hello, World! 2024 ".data = "hello-world-2024".data ∧
    slugify other "?!".data = [] := by
  have hs : IsSlug (slugify other title.data) :=
    stripHyphens_isSlug _ (hyphenate_mem _ false) (hyphenate_chain _ false).1
  refine ⟨hs, ?_, rfl, rfl, rfl, rfl⟩
  obtain ⟨h1, h2, h3, h4⟩ := hs
  show stripHyphens (hyphenate (toLowerCase other (slugify other title.data)) false) = _
  rw [toLowerCase_fixed other _ h1, hyphenate_fixed _ false h1 h4 (fun e => by cases e),
    stripHyphens_fixed _ h2 h3]

/-! ## Pagination -/

theorem lt_totalPagesOf (page limit total : Int) (hl : 1 ≤ limit) :
    page < totalPagesOf total limit ↔ page * limit < total := by
  unfold totalPagesOf
  rw [Int.lt_ceil]
  have hpos : (0 : ℚ) < (limit : ℚ) := by exact_mod_cast (by omega : (0 : Int) < limit)
  rw [lt_div_iff₀ hpos]
  exact_mod_cast Iff.rfl

/-- C30: pagination of the article list.  For every page >= 1, limit >= 1 and
total >= 0, with `totalPages = ceil(total / limit)`: `hasNextPage` is true
exactly when `page * limit < total`, that is when the articles skipped and
the articles of the current page together are fewer than the matching
articles; `hasPrevPage` is true exactly when `page > 1`; and the number of
skipped articles is `(page - 1) * limit`, which is not negative. -/
theorem pagination_flags (page limit total : Int)
    (hp : 1 ≤ page) (hl : 1 ≤ limit) (ht : 0 ≤ total) :
    (paginationOf page limit total).totalPages = ⌈(total : ℚ) / (limit : ℚ)⌉ ∧
    ((paginationOf page limit total).hasNextPage = true ↔ page * limit < total) ∧
    ((paginationOf page limit total).hasNextPage = true ↔ skipOf page limit + limit < total) ∧
    ((paginationOf page limit total).hasPrevPage = true ↔ page > 1) ∧
    skipOf page limit = (page - 1) * limit ∧ 0 ≤ skipOf page limit ∧
    0 ≤ (paginationOf page limit total).totalPages := by
  have hnext : (paginationOf page limit total).hasNextPage = true ↔ page * limit < total := by
    show decide (page < totalPagesOf total limit) = true ↔ _
    rw [decide_eq_true_iff]
    exact lt_totalPagesOf page limit total hl
  have hskip : skipOf page limit + limit = page * limit := by
    unfold skipOf
    ring
  refine ⟨rfl, hnext, ?_, ?_, rfl, ?_, ?_⟩
  · rw [hskip]
    exact hnext
  · show decide (page > 1) = true ↔ _
    exact decide_eq_true_iff
  · unfold skipOf
    exact mul_nonneg (by omega) (by omega)
  · show 0 ≤ totalPagesOf total limit
    unfold totalPagesOf
    apply Int.ceil_nonneg
    apply div_nonneg
    · exact_mod_cast ht
    · exact_mod_cast (by omega : (0 : Int) ≤ limit)

/-- Witness of C30: page 2 of 25 articles, ten per page: three pages, a next
and a previous page, ten articles skipped. -/
theorem pagination_flags_witness :
    (1 : Int) ≤ 2 ∧ (1 : Int) ≤ 10 ∧ (0 : Int) ≤ 25 ∧
    ((paginationOf 2 10 25).hasNextPage = true ↔ (2 : Int) * 10 < 25) ∧
    ((paginationOf 2 10 25).hasPrevPage = true ↔ (2 : Int) > 1) ∧
    skipOf 2 10 = 10 :=
  have h := pagination_flags 2 10 25 (by decide) (by decide) (by decide)
  ⟨by decide, by decide, by decide, h.2.1, h.2.2.2.1, by decide⟩

theorem pagination_sample : (paginationOf 2 10 25).totalPages = 3 := by
  show ⌈((25 : Int) : ℚ) / ((10 : Int) : ℚ)⌉ = 3
  rw [Int.ceil_eq_iff]
  norm_num

set_option maxRecDepth 100000 in
/-- The number model on three inputs: a text one above `2^53` is rounded to
the nearest Number, a Number from `10^21` on is printed in exponent form, so
`parseInt` reads its first digit, and a text beyond the largest Number gives
`Infinity`, which `|| 0` keeps. -/
theorem parseInt_samples :
    parseInt (str "9007199254740993") = .ok (num 9007199254740992) ∧
    (num (10 ^ 21)).toStr = .ok "1e+21" ∧
    parseInt (num (10 ^ 21)) = .ok (num 1) ∧
    (num (2 ^ 60)).toStr = .ok "1152921504606847000" ∧
    parseInt (str (String.mk ('1' :: List.replicate 400 '0'))) = .ok (inf false) ∧
    ((inf false).or (num 0)) = inf false := by
  refine ⟨rfl, rfl, rfl, rfl, ?_, rfl⟩
  rfl

end LiveScore
